import Mathlib

/-!
Grid water simulation (`water simulation/main.c`)

A shallow embedding of `simulation_step` and of the data it works on, followed
by the properties proved about it.

* `double` values are modelled by rationals (`ℚ`) and `fmin` by `min`;
  infinities and NaN are outside the model. The program is embedded twice:
  in exact arithmetic (the definitions directly in `WaterSim`), where no
  operation rounds, and in binary64 arithmetic (`WaterSim.Binary64`), where
  every operation rounds to the nearest binary64 number as the machine does.
  Most properties are proved of the first. Where a statement fixes the exact
  input at which a computed flow passes `MIN_FLOW` (the gravity transfer on a
  column of two cells, the left-before-right bias on a row of three), it is
  proved of the second, because there the outcome of the comparison depends
  on the rounding.
* `int` values are mathematical integers; the indices of the program stay far
  below the range of `int`.
* `ROWS` and `COLUMNS` are compile-time constants of the program; here they
  are parameters, so every statement holds for all grid dimensions.
* `environment[i][j]` is `cells (i, j)`. Forming the address of a cell
  (`&environment[i][j]`) is the only fallible operation (`addr`): it yields
  `none` when the index pair lies outside `ROWS × COLUMNS`, and the failure is
  passed on to the result of `simulation_step`.
* The state carries a ghost `log` of the transfers performed so far. It is
  written but never read by the simulation.
-/

namespace WaterSim

/-! ## Constants -/

def SOLID_TYPE : Int := 1
def WATER_TYPE : Int := 0

def GRAVITY : ℚ := 0.15
def FLOW_RATE : ℚ := 0.08
def MAX_PRESSURE : ℚ := 2.0
def MIN_FLOW : ℚ := 0.01
def DAMPING : ℚ := 0.9
def VERTICAL_FLOW_MULTIPLIER : ℚ := 1.1
def HORIZONTAL_FLOW_MULTIPLIER : ℚ := 0.6

/-! ## Data model -/

/-- The record `struct Cell`. -/
structure Cell where
  type : Int
  fill_level : ℚ
  velocity_y : ℚ
  velocity_x : ℚ
  pressure : ℚ
  x : Int
  y : Int
deriving DecidableEq

/-- An index pair `(row, column)`, as in `environment[row][column]`. -/
abbrev Pos := Int × Int

/-- The array `struct Cell environment[ROWS][COLUMNS]`. -/
abbrev Environment := Pos → Cell

/-- Ghost record of one transfer: `amount` was moved from `src` to `dst`;
`src_fill` and `dst_fill` are the two fill levels just before it. -/
structure Transfer where
  src : Pos
  dst : Pos
  amount : ℚ
  src_fill : ℚ
  dst_fill : ℚ
deriving DecidableEq

/-- The simulation state: the array and the ghost log of transfers. -/
structure Sim where
  cells : Environment
  log : List Transfer

/-- The index pair lies inside a `ROWS × COLUMNS` array. -/
def in_bounds (ROWS COLUMNS : Nat) (i j : Int) : Prop :=
  0 ≤ i ∧ i < (ROWS : Int) ∧ 0 ≤ j ∧ j < (COLUMNS : Int)

instance (ROWS COLUMNS : Nat) (i j : Int) : Decidable (in_bounds ROWS COLUMNS i j) :=
  inferInstanceAs (Decidable (0 ≤ i ∧ i < (ROWS : Int) ∧ 0 ≤ j ∧ j < (COLUMNS : Int)))

/-- The address computation `&environment[i][j]`; `none` is the out-of-bounds
branch. -/
def addr (ROWS COLUMNS : Nat) (i j : Int) : Option Pos :=
  if in_bounds ROWS COLUMNS i j then some (i, j) else none

/-- The pair of assignments `src->fill_level -= amount; dst->fill_level += amount;`
that every pass performs, together with its ghost log entry. -/
def Sim.transfer (s : Sim) (src dst : Pos) (amount : ℚ) : Sim :=
  let c := s.cells src
  let cells1 := Function.update s.cells src { c with fill_level := c.fill_level - amount }
  let d := cells1 dst
  { cells := Function.update cells1 dst { d with fill_level := d.fill_level + amount }
    log := s.log ++ [⟨src, dst, amount, c.fill_level, d.fill_level⟩] }

/-- The assignment `p->velocity_y += a;`. -/
def Sim.add_velocity_y (s : Sim) (p : Pos) (a : ℚ) : Sim :=
  let c := s.cells p
  { s with cells := Function.update s.cells p { c with velocity_y := c.velocity_y + a } }

/-- The assignment `p->velocity_x += a;`. -/
def Sim.add_velocity_x (s : Sim) (p : Pos) (a : ℚ) : Sim :=
  let c := s.cells p
  { s with cells := Function.update s.cells p { c with velocity_x := c.velocity_x + a } }

/-- The two assignments `c.velocity_y *= DAMPING; c.velocity_x *= DAMPING;`
on one cell value. -/
def Cell.damp (c : Cell) : Cell :=
  { c with velocity_y := c.velocity_y * DAMPING, velocity_x := c.velocity_x * DAMPING }

/-- Damping applied to the cell stored at `p`. -/
def Sim.damp (s : Sim) (p : Pos) : Sim :=
  { s with cells := Function.update s.cells p (s.cells p).damp }

/-! ## The three passes of `simulation_step` -/

/-- The value of `flow` in the gravity pass for source fill `s` and fill `b`
of the cell below. -/
def vertical_flow (s b : ℚ) : ℚ :=
  min (min s (1.0 - b)) (GRAVITY * VERTICAL_FLOW_MULTIPLIER)

/-- The value of `flow` in the horizontal pass for source fill `s` and
neighbour fill `n`. -/
def horizontal_flow (s n : ℚ) : ℚ :=
  min (min ((s - n) * FLOW_RATE) s) (1.0 - n) * HORIZONTAL_FLOW_MULTIPLIER

/-- The value of `flow` in the pressure pass for the given `pressure`, source
fill `s` and neighbour fill `n`. -/
def pressure_flow (pressure s n : ℚ) : ℚ :=
  min (min (pressure * FLOW_RATE) s) (1.0 - n)

/-- Lines 113-128: gravity moves water into the cell below. -/
def vertical_pass (ROWS COLUMNS : Nat) (i j : Int) (s : Sim) : Option Sim :=
  if i < (ROWS : Int) - 1 then do
    let below ← addr ROWS COLUMNS (i + 1) j
    if (s.cells below).type = WATER_TYPE ∧ (s.cells below).fill_level < 1.0 then
      let flow := vertical_flow (s.cells (i, j)).fill_level (s.cells below).fill_level
      if flow > MIN_FLOW then
        let actual_flow := min flow (s.cells (i, j)).fill_level
        pure ((s.transfer (i, j) below actual_flow).add_velocity_y below actual_flow)
      else pure s
    else pure s
  else pure s

/-- Lines 132-148: the body of the loop over `dx` in the horizontal pass. -/
def horizontal_pass (ROWS COLUMNS : Nat) (i j dx : Int) (s : Sim) : Option Sim :=
  if j + dx ≥ 0 ∧ j + dx < (COLUMNS : Int) then do
    let neighbor ← addr ROWS COLUMNS i (j + dx)
    if (s.cells neighbor).type = WATER_TYPE
        ∧ (s.cells neighbor).fill_level < (s.cells (i, j)).fill_level then
      let flow := horizontal_flow (s.cells (i, j)).fill_level (s.cells neighbor).fill_level
      if flow > MIN_FLOW then
        pure ((s.transfer (i, j) neighbor flow).add_velocity_x neighbor
          (flow * (if dx > 0 then 1 else -1)))
      else pure s
    else pure s
  else pure s

/-- Lines 155-169: the body of the loops over `dy`, `dx` in the pressure pass. -/
def pressure_pass (ROWS COLUMNS : Nat) (pressure : ℚ) (i j dy dx : Int) (s : Sim) :
    Option Sim :=
  if dy = 0 ∧ dx = 0 then pure s
  else
    let neighbor_x := j + dx
    let neighbor_y := i + dy
    if neighbor_x ≥ 0 ∧ neighbor_x < (COLUMNS : Int)
        ∧ neighbor_y ≥ 0 ∧ neighbor_y < (ROWS : Int) then do
      let neighbor ← addr ROWS COLUMNS neighbor_y neighbor_x
      if (s.cells neighbor).type = WATER_TYPE
          ∧ (s.cells neighbor).fill_level < (s.cells (i, j)).fill_level then
        let flow := pressure_flow pressure (s.cells (i, j)).fill_level
          (s.cells neighbor).fill_level
        if flow > MIN_FLOW then pure (s.transfer (i, j) neighbor flow) else pure s
      else pure s
    else pure s

/-- Lines 109-176: the body of the two loops over the cells. -/
def process_cell (ROWS COLUMNS : Nat) (i j : Int) (s : Sim) : Option Sim := do
  let cell ← addr ROWS COLUMNS i j
  if (s.cells cell).type = WATER_TYPE ∧ (s.cells cell).fill_level > 0 then
    let s ← vertical_pass ROWS COLUMNS i j s
    let s ← [-1, 1].foldlM (fun s dx => horizontal_pass ROWS COLUMNS i j dx s) s
    let pressure := min ((s.cells cell).fill_level - 0.5) MAX_PRESSURE
    let s ← [-1, 0, 1].foldlM (fun s dy =>
      [-1, 0, 1].foldlM (fun s dx => pressure_pass ROWS COLUMNS pressure i j dy dx s) s) s
    pure (s.damp cell)
  else pure s

/-- Lines 152-171 on their own: the pressure is computed from the fill of the
cell at `(i, j)` and the eight neighbours are visited. This is the third
stage of `process_cell`. -/
def pressure_diffusion (ROWS COLUMNS : Nat) (i j : Int) (s : Sim) : Option Sim :=
  let pressure := min ((s.cells (i, j)).fill_level - 0.5) MAX_PRESSURE
  [-1, 0, 1].foldlM (fun s dy =>
    [-1, 0, 1].foldlM (fun s dx => pressure_pass ROWS COLUMNS pressure i j dy dx s) s) s

/-- The values `ROWS - 1, ..., 0` taken by `i` in the outer loop. -/
def row_indices (ROWS : Nat) : List Int :=
  (List.range ROWS).reverse.map Int.ofNat

/-- The values `0, ..., COLUMNS - 1` taken by `j` in the inner loop. -/
def column_indices (COLUMNS : Nat) : List Int :=
  (List.range COLUMNS).map Int.ofNat

/-- The index pairs in the order in which the two loops visit them: rows from
the last to the first, columns from the first to the last. -/
def cell_order (ROWS COLUMNS : Nat) : List Pos :=
  (row_indices ROWS).flatMap fun i => (column_indices COLUMNS).map fun j => (i, j)

/-- The two nested loops of `simulation_step`, on the instrumented state. -/
def simulation_run (ROWS COLUMNS : Nat) (s : Sim) : Option Sim :=
  (row_indices ROWS).foldlM (fun s i =>
    (column_indices COLUMNS).foldlM (fun s j => process_cell ROWS COLUMNS i j s) s) s

/-- The function `simulation_step`: the array after one step, `none` if an
address outside the array was formed. -/
def simulation_step (ROWS COLUMNS : Nat) (environment : Environment) : Option Environment :=
  (simulation_run ROWS COLUMNS ⟨environment, []⟩).map Sim.cells

/-- The ghost log of the transfers of one `simulation_step`, in the order in
which they were performed. -/
def simulation_log (ROWS COLUMNS : Nat) (environment : Environment) : Option (List Transfer) :=
  (simulation_run ROWS COLUMNS ⟨environment, []⟩).map Sim.log

/-- The value that `initialize_environment` stores at row `i`, column `j`
(lines 91-99). -/
def initial_cell (i j : Int) : Cell :=
  { type := WATER_TYPE, fill_level := 0, velocity_y := 0, velocity_x := 0, pressure := 0,
    x := j, y := i }

/-- The assignment `environment[i][j] = (struct Cell){ ... };` of line 91. -/
def initialize_cell (ROWS COLUMNS : Nat) (i j : Int) (environment : Environment) :
    Option Environment := do
  let cell ← addr ROWS COLUMNS i j
  pure (Function.update environment cell (initial_cell i j))

/-- The values `0, ..., ROWS - 1` taken by `i` in the outer loop of
`initialize_environment`. -/
def ascending_rows (ROWS : Nat) : List Int :=
  (List.range ROWS).map Int.ofNat

/-- The function `initialize_environment`: `i` runs from `0` to `ROWS - 1` and,
inside, `j` from `0` to `COLUMNS - 1`. -/
def initialize_environment (ROWS COLUMNS : Nat) (environment : Environment) :
    Option Environment :=
  (ascending_rows ROWS).foldlM (fun e i =>
    (column_indices COLUMNS).foldlM (fun e j => initialize_cell ROWS COLUMNS i j e) e)
    environment

/-- The sum of `fill_level` over the cells of the array. -/
def total_fill (ROWS COLUMNS : Nat) (environment : Environment) : ℚ :=
  ∑ p in Finset.Ico (0 : Int) ROWS ×ˢ Finset.Ico (0 : Int) COLUMNS, (environment p).fill_level

/-! ## Proof vocabulary -/

/-- The facts about one applied transfer out of `src` into `dst`: `s'` is `s`
after `a` was moved and the velocity of `dst` was raised by `dvy`, `dvx`. -/
structure MoveFacts (ROWS COLUMNS : Nat) (src dst : Pos) (a dvy dvx : ℚ) (s s' : Sim) : Prop where
  src_in : in_bounds ROWS COLUMNS src.1 src.2
  dst_in : in_bounds ROWS COLUMNS dst.1 dst.2
  ne : dst ≠ src
  near : dst.1 - src.1 ≤ 1 ∧ src.1 - dst.1 ≤ 1 ∧ dst.2 - src.2 ≤ 1 ∧ src.2 - dst.2 ≤ 1
  src_water : (s.cells src).type = WATER_TYPE
  dst_water : (s.cells dst).type = WATER_TYPE
  amount_gt : MIN_FLOW < a
  amount_le_src : a ≤ (s.cells src).fill_level
  amount_le_room : a ≤ 1 - (s.cells dst).fill_level
  room : (dst = (src.1 + 1, src.2) ∧ (s.cells dst).fill_level < 1)
    ∨ (s.cells dst).fill_level < (s.cells src).fill_level
  vel_y : dvy = 0 ∨ (dvy = a ∧ dst = (src.1 + 1, src.2))
  vel_x : dvx = 0 ∨ ((dvx = a ∨ dvx = -a) ∧ dst.1 = src.1)
  cells_eq : s'.cells = Function.update
    (Function.update s.cells src
      { s.cells src with fill_level := (s.cells src).fill_level - a })
    dst { s.cells dst with
          fill_level := (s.cells dst).fill_level + a
          velocity_y := (s.cells dst).velocity_y + dvy
          velocity_x := (s.cells dst).velocity_x + dvx }
  log_eq : s'.log = s.log ++ [⟨src, dst, a, (s.cells src).fill_level, (s.cells dst).fill_level⟩]

/-- Some transfer out of `src` leads from `s` to `s'`. -/
def Moved (ROWS COLUMNS : Nat) (src : Pos) (s s' : Sim) : Prop :=
  ∃ (dst : Pos) (a dvy dvx : ℚ), MoveFacts ROWS COLUMNS src dst a dvy dvx s s'

/-- A sequence of transfers out of `src` leads from `s` to `s'`. -/
def Reach (ROWS COLUMNS : Nat) (src : Pos) (s s' : Sim) : Prop :=
  Relation.ReflTransGen (Moved ROWS COLUMNS src) s s'

/-- The guard of line 111, as a property of the cell it is evaluated on. -/
def active (c : Cell) : Prop :=
  c.type = WATER_TYPE ∧ c.fill_level > 0

instance (c : Cell) : Decidable (active c) :=
  inferInstanceAs (Decidable (c.type = WATER_TYPE ∧ c.fill_level > 0))

/-- The effect of the loop body on the cell at `p`: nothing when the guard of
line 111 fails, otherwise some transfers out of `p` followed by damping. -/
def CellRun (ROWS COLUMNS : Nat) (p : Pos) (s s' : Sim) : Prop :=
  (¬ active (s.cells p) ∧ s' = s)
    ∨ (active (s.cells p) ∧ ∃ s'', Reach ROWS COLUMNS p s s'' ∧ s' = s''.damp p)

/-- The function `f` succeeds and performs at most one transfer out of `p`. -/
def OneMove (ROWS COLUMNS : Nat) (p : Pos) (f : Sim → Option Sim) : Prop :=
  ∀ s, (s.cells p).type = WATER_TYPE →
    ∃ s', f s = some s' ∧ (s' = s ∨ Moved ROWS COLUMNS p s s')

/-- The function `f` succeeds and performs only transfers out of `p`. -/
def Moves (ROWS COLUMNS : Nat) (p : Pos) (f : Sim → Option Sim) : Prop :=
  ∀ s, (s.cells p).type = WATER_TYPE → ∃ s', f s = some s' ∧ Reach ROWS COLUMNS p s s'

/-- Two arrays agree on the type and the fill of every cell of the grid; the
velocities and the stored pressure may differ. -/
def same_water (ROWS COLUMNS : Nat) (a b : Environment) : Prop :=
  ∀ p : Pos, in_bounds ROWS COLUMNS p.1 p.2 →
    (a p).type = (b p).type ∧ (a p).fill_level = (b p).fill_level

/-- The state `s'` is `s` after `a` was moved from `src` to `dst` and the
velocity of `dst` was raised by `dvy`, `dvx` (with `a = 0`, `dvy = 0`, `dvx = 0`
when nothing was moved). -/
structure Shift (s s' : Sim) (src dst : Pos) (a dvy dvx : ℚ) : Prop where
  fill : ∀ p, (s'.cells p).fill_level
    = (s.cells p).fill_level + (if p = dst then a else 0) - (if p = src then a else 0)
  velocity_y : ∀ p, (s'.cells p).velocity_y
    = (s.cells p).velocity_y + (if p = dst then dvy else 0)
  velocity_x : ∀ p, (s'.cells p).velocity_x
    = (s.cells p).velocity_x + (if p = dst then dvx else 0)
  type : ∀ p, (s'.cells p).type = (s.cells p).type

/-- The amount that the gravity pass of the cell at `src` moves into the cell
`dst` below it (0 when the pass moves nothing). -/
def vertical_amount (ROWS COLUMNS : Nat) (s : Sim) (src dst : Pos) : ℚ :=
  if in_bounds ROWS COLUMNS dst.1 dst.2 ∧ (s.cells dst).type = WATER_TYPE
      ∧ (s.cells dst).fill_level < 1.0
      ∧ vertical_flow (s.cells src).fill_level (s.cells dst).fill_level > MIN_FLOW then
    min (vertical_flow (s.cells src).fill_level (s.cells dst).fill_level)
      (s.cells src).fill_level
  else 0

/-- The amount that one visit of the horizontal pass of the cell at `src`
moves into its neighbour `dst` (0 when it moves nothing). -/
def horizontal_amount (ROWS COLUMNS : Nat) (s : Sim) (src dst : Pos) : ℚ :=
  if in_bounds ROWS COLUMNS dst.1 dst.2 ∧ (s.cells dst).type = WATER_TYPE
      ∧ (s.cells dst).fill_level < (s.cells src).fill_level
      ∧ horizontal_flow (s.cells src).fill_level (s.cells dst).fill_level > MIN_FLOW then
    horizontal_flow (s.cells src).fill_level (s.cells dst).fill_level
  else 0

/-- The amount that one visit of the pressure pass of the cell at `src` moves
into its neighbour `dst` (0 when it moves nothing). -/
def pressure_amount (ROWS COLUMNS : Nat) (pressure : ℚ) (s : Sim) (src dst : Pos) : ℚ :=
  if in_bounds ROWS COLUMNS dst.1 dst.2 ∧ dst ≠ src ∧ (s.cells dst).type = WATER_TYPE
      ∧ (s.cells dst).fill_level < (s.cells src).fill_level
      ∧ pressure_flow pressure (s.cells src).fill_level (s.cells dst).fill_level
          > MIN_FLOW then
    pressure_flow pressure (s.cells src).fill_level (s.cells dst).fill_level
  else 0

/-! ## The program in binary64 arithmetic

The same program with every `double` operation rounded as the machine rounds
it: the result of `+`, `-`, `*` is the exact result rounded to the nearest
binary64 number (`to_double`), and a decimal constant of the source stands for
the binary64 number nearest to it. Comparisons and `fmin` are exact. The state
is the array alone. -/

namespace Binary64

/-- The integer nearest to `q`, the even one when `q` lies halfway between two
integers. -/
def round_half_even (q : ℚ) : Int :=
  if q - ⌊q⌋ < 1 / 2 then ⌊q⌋
  else if 1 / 2 < q - ⌊q⌋ then ⌊q⌋ + 1
  else if ⌊q⌋ % 2 = 0 then ⌊q⌋ else ⌊q⌋ + 1

/-- The exponent of the last place of the binary64 numbers around `x`: 52
below the exponent of `x`, and -1074 in the subnormal range. -/
def ulp_exponent (x : ℚ) : Int :=
  max (Int.log 2 |x| - 52) (-1074)

/-- The binary64 number nearest to `x ≥ 0`. -/
def round_magnitude (x : ℚ) : ℚ :=
  (round_half_even (x / 2 ^ ulp_exponent x) : ℚ) * 2 ^ ulp_exponent x

/-- The binary64 number nearest to `x` (round to nearest, ties to even). The
exponent is not bounded above: a result beyond the largest binary64 number,
which the machine turns into an infinity, is outside the model. -/
def to_double (x : ℚ) : ℚ :=
  if 0 ≤ x then round_magnitude x else -round_magnitude (-x)

def GRAVITY : ℚ := to_double 0.15
def FLOW_RATE : ℚ := to_double 0.08
def MAX_PRESSURE : ℚ := to_double 2.0
def MIN_FLOW : ℚ := to_double 0.01
def DAMPING : ℚ := to_double 0.9
def VERTICAL_FLOW_MULTIPLIER : ℚ := to_double 1.1
def HORIZONTAL_FLOW_MULTIPLIER : ℚ := to_double 0.6

/-- The pair of assignments `src->fill_level -= amount; dst->fill_level += amount;`. -/
def transfer (environment : Environment) (src dst : Pos) (amount : ℚ) : Environment :=
  let c := environment src
  let cells1 := Function.update environment src
    { c with fill_level := to_double (c.fill_level - amount) }
  let d := cells1 dst
  Function.update cells1 dst { d with fill_level := to_double (d.fill_level + amount) }

/-- The assignment `p->velocity_y += a;`. -/
def add_velocity_y (environment : Environment) (p : Pos) (a : ℚ) : Environment :=
  let c := environment p
  Function.update environment p { c with velocity_y := to_double (c.velocity_y + a) }

/-- The assignment `p->velocity_x += a;`. -/
def add_velocity_x (environment : Environment) (p : Pos) (a : ℚ) : Environment :=
  let c := environment p
  Function.update environment p { c with velocity_x := to_double (c.velocity_x + a) }

/-- The two assignments `c.velocity_y *= DAMPING; c.velocity_x *= DAMPING;`
on one cell value. -/
def damp_cell (c : Cell) : Cell :=
  { c with velocity_y := to_double (c.velocity_y * DAMPING)
           velocity_x := to_double (c.velocity_x * DAMPING) }

/-- Damping applied to the cell stored at `p`. -/
def damp (environment : Environment) (p : Pos) : Environment :=
  Function.update environment p (damp_cell (environment p))

/-- The value of `flow` in the gravity pass (lines 116-117). -/
def vertical_flow (s b : ℚ) : ℚ :=
  min (min s (to_double (1.0 - b))) (to_double (GRAVITY * VERTICAL_FLOW_MULTIPLIER))

/-- The value of `flow` in the horizontal pass (lines 135-138). -/
def horizontal_flow (s n : ℚ) : ℚ :=
  to_double (min (min (to_double (to_double (s - n) * FLOW_RATE)) s) (to_double (1.0 - n))
    * HORIZONTAL_FLOW_MULTIPLIER)

/-- The value of `flow` in the pressure pass (lines 161-163). -/
def pressure_flow (pressure s n : ℚ) : ℚ :=
  min (min (to_double (pressure * FLOW_RATE)) s) (to_double (1.0 - n))

/-- Lines 113-128: gravity moves water into the cell below. -/
def vertical_pass (ROWS COLUMNS : Nat) (i j : Int) (environment : Environment) :
    Option Environment :=
  if i < (ROWS : Int) - 1 then do
    let below ← addr ROWS COLUMNS (i + 1) j
    if (environment below).type = WATER_TYPE ∧ (environment below).fill_level < 1.0 then
      let flow := vertical_flow (environment (i, j)).fill_level (environment below).fill_level
      if flow > MIN_FLOW then
        let actual_flow := min flow (environment (i, j)).fill_level
        pure (add_velocity_y (transfer environment (i, j) below actual_flow) below actual_flow)
      else pure environment
    else pure environment
  else pure environment

/-- Lines 132-148: the body of the loop over `dx` in the horizontal pass. -/
def horizontal_pass (ROWS COLUMNS : Nat) (i j dx : Int) (environment : Environment) :
    Option Environment :=
  if j + dx ≥ 0 ∧ j + dx < (COLUMNS : Int) then do
    let neighbor ← addr ROWS COLUMNS i (j + dx)
    if (environment neighbor).type = WATER_TYPE
        ∧ (environment neighbor).fill_level < (environment (i, j)).fill_level then
      let flow := horizontal_flow (environment (i, j)).fill_level
        (environment neighbor).fill_level
      if flow > MIN_FLOW then
        pure (add_velocity_x (transfer environment (i, j) neighbor flow) neighbor
          (to_double (flow * (if dx > 0 then 1 else -1))))
      else pure environment
    else pure environment
  else pure environment

/-- Lines 155-169: the body of the loops over `dy`, `dx` in the pressure pass. -/
def pressure_pass (ROWS COLUMNS : Nat) (pressure : ℚ) (i j dy dx : Int)
    (environment : Environment) : Option Environment :=
  if dy = 0 ∧ dx = 0 then pure environment
  else
    let neighbor_x := j + dx
    let neighbor_y := i + dy
    if neighbor_x ≥ 0 ∧ neighbor_x < (COLUMNS : Int)
        ∧ neighbor_y ≥ 0 ∧ neighbor_y < (ROWS : Int) then do
      let neighbor ← addr ROWS COLUMNS neighbor_y neighbor_x
      if (environment neighbor).type = WATER_TYPE
          ∧ (environment neighbor).fill_level < (environment (i, j)).fill_level then
        let flow := pressure_flow pressure (environment (i, j)).fill_level
          (environment neighbor).fill_level
        if flow > MIN_FLOW then pure (transfer environment (i, j) neighbor flow)
        else pure environment
      else pure environment
    else pure environment

/-- Lines 152-171: the pressure is computed once from the fill of the cell at
`(i, j)` and the eight neighbours are visited. -/
def pressure_diffusion (ROWS COLUMNS : Nat) (i j : Int) (environment : Environment) :
    Option Environment :=
  let pressure := min (to_double ((environment (i, j)).fill_level - 0.5)) MAX_PRESSURE
  [-1, 0, 1].foldlM (fun e dy =>
    [-1, 0, 1].foldlM (fun e dx => pressure_pass ROWS COLUMNS pressure i j dy dx e) e)
    environment

/-- Lines 109-176: the body of the two loops over the cells. -/
def process_cell (ROWS COLUMNS : Nat) (i j : Int) (environment : Environment) :
    Option Environment := do
  let cell ← addr ROWS COLUMNS i j
  if (environment cell).type = WATER_TYPE ∧ (environment cell).fill_level > 0 then
    let e ← vertical_pass ROWS COLUMNS i j environment
    let e ← [-1, 1].foldlM (fun e dx => horizontal_pass ROWS COLUMNS i j dx e) e
    let e ← pressure_diffusion ROWS COLUMNS i j e
    pure (damp e cell)
  else pure environment

/-- The function `simulation_step` in binary64 arithmetic: the array after one
step, `none` if an address outside the array was formed. -/
def simulation_step (ROWS COLUMNS : Nat) (environment : Environment) : Option Environment :=
  (row_indices ROWS).foldlM (fun e i =>
    (column_indices COLUMNS).foldlM (fun e j => process_cell ROWS COLUMNS i j e) e)
    environment

end Binary64

/-! ## Example arrays -/

/-- A cell of the given type and fill, at rest. -/
def still_cell (type : Int) (fill_level : ℚ) : Cell :=
  { type := type, fill_level := fill_level, velocity_y := 0, velocity_x := 0,
    pressure := 0, x := 0, y := 0 }

/-- One row: a full water cell at column 0 and a Solid cell at column 1. -/
def water_beside_wall : Environment :=
  fun p => if p = (0, 0) then still_cell WATER_TYPE 1.0 else still_cell SOLID_TYPE 0

/-- One row: a full water cell at column 0 beside a water cell of fill 0.99. -/
def full_beside_nearly_full : Environment :=
  fun p => if p = (0, 0) then still_cell WATER_TYPE 1.0 else still_cell WATER_TYPE 0.99

/-- One column of three water cells at rest: the top cell full, the other two
empty. -/
def full_over_empty : Environment :=
  fun p => if p = (0, 0) then still_cell WATER_TYPE 1.0 else still_cell WATER_TYPE 0

/-- One row of two water cells at rest with fills 11/24 and 1/4, which differ by
exactly 5/24. -/
def threshold_row : Environment :=
  fun p => if p = (0, 0) then still_cell WATER_TYPE (11 / 24) else still_cell WATER_TYPE (1 / 4)

/-- The array `full_beside_nearly_full` with every cell set in motion and a
stored pressure written into it. -/
def stirred : Environment :=
  fun p => { full_beside_nearly_full p with velocity_y := -2, velocity_x := 3, pressure := 7 }

/-- A 1x1 array: a water cell that holds no water but has velocity 1 in both
directions. -/
def lone_empty_cell : Environment :=
  fun _ => { type := WATER_TYPE, fill_level := 0, velocity_y := 1, velocity_x := 1,
             pressure := 0, x := 0, y := 0 }

/-- A 1x1 array: a full water cell with velocity 1 in both directions. -/
def lone_moving_cell : Environment :=
  fun _ => { type := WATER_TYPE, fill_level := 1.0, velocity_y := 1, velocity_x := 1,
             pressure := 0, x := 0, y := 0 }

/-- One row: a full water cell with velocity 1 in both directions at column 0
and a Solid cell at column 1. -/
def moving_beside_wall : Environment :=
  fun p => if p = (0, 0) then
      { type := WATER_TYPE, fill_level := 1.0, velocity_y := 1, velocity_x := 1,
        pressure := 0, x := 0, y := 0 }
    else still_cell SOLID_TYPE 0

/-- One column of two water cells: a full cell at rest over a half-full cell
with velocity 1 in both directions. -/
def full_over_half : Environment :=
  fun p => if p = (0, 0) then still_cell WATER_TYPE 1.0 else
    { type := WATER_TYPE, fill_level := 0.5, velocity_y := 1, velocity_x := 1,
      pressure := 0, x := 0, y := 1 }

/-- One row of water cells at rest in which only the cell at column 1 is full
and every other cell is empty. -/
def only_column_one_full : Environment :=
  fun p => if p = (0, 1) then still_cell WATER_TYPE 1.0 else still_cell WATER_TYPE 0

/-- One row of three water cells at rest: the middle cell holds the binary64
number nearest to 5/24 (printed 0.20833333333333334, slightly above 5/24), the
outer cells are empty. -/
def nearest_to_threshold : Environment :=
  fun p => if p = (0, 1) then still_cell WATER_TYPE (7505999378950827 / 36028797018963968)
    else still_cell WATER_TYPE 0

/-- One column of water cells at rest: a full cell over cells of fill 0.98. -/
def full_over_nearly_full : Environment :=
  fun p => if p = (0, 0) then still_cell WATER_TYPE 1.0 else still_cell WATER_TYPE 0.98

/-- The array `full_over_empty` with every cell set in motion and a stored
pressure written into it. -/
def stirred_column : Environment :=
  fun p => { full_over_empty p with velocity_y := -2, velocity_x := 3, pressure := 7 }

/-! ## Basic facts -/

theorem addr_of_in_bounds {ROWS COLUMNS : Nat} {i j : Int} (h : in_bounds ROWS COLUMNS i j) :
    addr ROWS COLUMNS i j = some (i, j) := by
  simp [addr, h]

theorem min_flow_pos : (0 : ℚ) < MIN_FLOW := by norm_num [MIN_FLOW]

theorem transfer_log (s : Sim) (src dst : Pos) (a : ℚ) (h : dst ≠ src) :
    (s.transfer src dst a).log
      = s.log ++ [⟨src, dst, a, (s.cells src).fill_level, (s.cells dst).fill_level⟩] := by
  simp [Sim.transfer, Function.update_noteq h]

theorem transfer_cells (s : Sim) (src dst : Pos) (a : ℚ) (h : dst ≠ src) :
    (s.transfer src dst a).cells = Function.update
      (Function.update s.cells src
        { s.cells src with fill_level := (s.cells src).fill_level - a })
      dst { s.cells dst with fill_level := (s.cells dst).fill_level + a } := by
  simp [Sim.transfer, Function.update_noteq h]

theorem transfer_add_velocity_y_cells (s : Sim) (src dst : Pos) (a v : ℚ) (h : dst ≠ src) :
    ((s.transfer src dst a).add_velocity_y dst v).cells = Function.update
      (Function.update s.cells src
        { s.cells src with fill_level := (s.cells src).fill_level - a })
      dst { s.cells dst with
            fill_level := (s.cells dst).fill_level + a
            velocity_y := (s.cells dst).velocity_y + v
            velocity_x := (s.cells dst).velocity_x + 0 } := by
  simp [Sim.add_velocity_y, transfer_cells s src dst a h]

theorem transfer_add_velocity_x_cells (s : Sim) (src dst : Pos) (a v : ℚ) (h : dst ≠ src) :
    ((s.transfer src dst a).add_velocity_x dst v).cells = Function.update
      (Function.update s.cells src
        { s.cells src with fill_level := (s.cells src).fill_level - a })
      dst { s.cells dst with
            fill_level := (s.cells dst).fill_level + a
            velocity_y := (s.cells dst).velocity_y + 0
            velocity_x := (s.cells dst).velocity_x + v } := by
  simp [Sim.add_velocity_x, transfer_cells s src dst a h]

theorem transfer_cells_zero (s : Sim) (src dst : Pos) (a : ℚ) (h : dst ≠ src) :
    (s.transfer src dst a).cells = Function.update
      (Function.update s.cells src
        { s.cells src with fill_level := (s.cells src).fill_level - a })
      dst { s.cells dst with
            fill_level := (s.cells dst).fill_level + a
            velocity_y := (s.cells dst).velocity_y + 0
            velocity_x := (s.cells dst).velocity_x + 0 } := by
  simp [transfer_cells s src dst a h]

theorem vertical_pass_spec (ROWS COLUMNS : Nat) (i j : Int) (s : Sim)
    (hin : in_bounds ROWS COLUMNS i j) (hw : (s.cells (i, j)).type = WATER_TYPE) :
    ∃ s', vertical_pass ROWS COLUMNS i j s = some s' ∧ (s' = s ∨ Moved ROWS COLUMNS (i, j) s s') := by
  unfold vertical_pass
  by_cases h1 : i < (ROWS : Int) - 1
  · have hb : in_bounds ROWS COLUMNS (i + 1) j := by
      unfold in_bounds at *; omega
    rw [if_pos h1, addr_of_in_bounds hb]
    simp only [Option.bind_eq_bind, Option.some_bind, Option.pure_def]
    by_cases h2 : (s.cells (i + 1, j)).type = WATER_TYPE ∧ (s.cells (i + 1, j)).fill_level < 1.0
    · rw [if_pos h2]
      by_cases h3 : vertical_flow (s.cells (i, j)).fill_level (s.cells (i + 1, j)).fill_level > MIN_FLOW
      · rw [if_pos h3]
        have hne : ((i + 1, j) : Pos) ≠ (i, j) := by simp
        have hle : vertical_flow (s.cells (i, j)).fill_level (s.cells (i + 1, j)).fill_level
            ≤ 1 - (s.cells (i + 1, j)).fill_level := by
          unfold vertical_flow
          exact (min_le_left _ _).trans ((min_le_right _ _).trans (by norm_num))
        refine ⟨_, rfl, Or.inr ⟨(i + 1, j), min (vertical_flow (s.cells (i, j)).fill_level
          (s.cells (i + 1, j)).fill_level) (s.cells (i, j)).fill_level,
          min (vertical_flow (s.cells (i, j)).fill_level
          (s.cells (i + 1, j)).fill_level) (s.cells (i, j)).fill_level, 0, ?_⟩⟩
        exact
          { src_in := hin
            dst_in := hb
            ne := hne
            near := by simp
            src_water := hw
            dst_water := h2.1
            amount_gt := by
              have : vertical_flow (s.cells (i, j)).fill_level (s.cells (i + 1, j)).fill_level
                  ≤ (s.cells (i, j)).fill_level := by
                unfold vertical_flow
                exact (min_le_left _ _).trans (min_le_left _ _)
              rw [min_eq_left this]; exact h3
            amount_le_src := min_le_right _ _
            amount_le_room := (min_le_left _ _).trans hle
            room := Or.inl ⟨rfl, by have := h2.2; norm_num at this; exact this⟩
            vel_y := Or.inr ⟨rfl, rfl⟩
            vel_x := Or.inl rfl
            cells_eq := by
              rw [transfer_add_velocity_y_cells _ _ _ _ _ hne]
            log_eq := by
              simp [Sim.add_velocity_y, transfer_log _ _ _ _ hne] }
      · rw [if_neg h3]; exact ⟨s, rfl, Or.inl rfl⟩
    · rw [if_neg h2]; exact ⟨s, rfl, Or.inl rfl⟩
  · rw [if_neg h1]; exact ⟨s, rfl, Or.inl rfl⟩

theorem horizontal_flow_bounds {s n : ℚ} (h : MIN_FLOW < horizontal_flow s n) :
    horizontal_flow s n ≤ s ∧ horizontal_flow s n ≤ 1 - n := by
  unfold horizontal_flow HORIZONTAL_FLOW_MULTIPLIER at *
  have hp := min_flow_pos
  set m := min (min ((s - n) * FLOW_RATE) s) (1.0 - n) with hm
  have h1 : m ≤ s := (min_le_left _ _).trans (min_le_right _ _)
  have h2 : m ≤ 1.0 - n := min_le_right _ _
  norm_num at h2 h ⊢
  constructor <;> linarith

theorem horizontal_pass_spec (ROWS COLUMNS : Nat) (i j dx : Int) (s : Sim)
    (hin : in_bounds ROWS COLUMNS i j) (hw : (s.cells (i, j)).type = WATER_TYPE)
    (hdx : dx = -1 ∨ dx = 1) :
    ∃ s', horizontal_pass ROWS COLUMNS i j dx s = some s'
      ∧ (s' = s ∨ Moved ROWS COLUMNS (i, j) s s') := by
  unfold horizontal_pass
  by_cases h1 : j + dx ≥ 0 ∧ j + dx < (COLUMNS : Int)
  · have hb : in_bounds ROWS COLUMNS i (j + dx) := by
      unfold in_bounds at *; omega
    rw [if_pos h1, addr_of_in_bounds hb]
    simp only [Option.bind_eq_bind, Option.some_bind, Option.pure_def]
    by_cases h2 : (s.cells (i, j + dx)).type = WATER_TYPE
        ∧ (s.cells (i, j + dx)).fill_level < (s.cells (i, j)).fill_level
    · rw [if_pos h2]
      by_cases h3 : horizontal_flow (s.cells (i, j)).fill_level (s.cells (i, j + dx)).fill_level
          > MIN_FLOW
      · rw [if_pos h3]
        have hne : ((i, j + dx) : Pos) ≠ (i, j) := by
          simp only [ne_eq, Prod.mk.injEq, true_and]; omega
        have hb2 := horizontal_flow_bounds h3
        refine ⟨_, rfl, Or.inr ⟨(i, j + dx), horizontal_flow (s.cells (i, j)).fill_level
          (s.cells (i, j + dx)).fill_level, 0,
          horizontal_flow (s.cells (i, j)).fill_level (s.cells (i, j + dx)).fill_level
            * (if dx > 0 then 1 else -1), ?_⟩⟩
        exact
          { src_in := hin
            dst_in := hb
            ne := hne
            near := by simp only; omega
            src_water := hw
            dst_water := h2.1
            amount_gt := h3
            amount_le_src := hb2.1
            amount_le_room := hb2.2
            room := Or.inr h2.2
            vel_y := Or.inl rfl
            vel_x := by
              rcases hdx with rfl | rfl <;> simp
            cells_eq := by
              rw [transfer_add_velocity_x_cells _ _ _ _ _ hne]
            log_eq := by
              simp [Sim.add_velocity_x, transfer_log _ _ _ _ hne] }
      · rw [if_neg h3]; exact ⟨s, rfl, Or.inl rfl⟩
    · rw [if_neg h2]; exact ⟨s, rfl, Or.inl rfl⟩
  · rw [if_neg h1]; exact ⟨s, rfl, Or.inl rfl⟩

theorem pressure_flow_bounds (p s n : ℚ) :
    pressure_flow p s n ≤ s ∧ pressure_flow p s n ≤ 1 - n := by
  unfold pressure_flow
  refine ⟨(min_le_left _ _).trans (min_le_right _ _), (min_le_right _ _).trans (by norm_num)⟩

theorem pressure_pass_spec (ROWS COLUMNS : Nat) (pressure : ℚ) (i j dy dx : Int) (s : Sim)
    (hin : in_bounds ROWS COLUMNS i j) (hw : (s.cells (i, j)).type = WATER_TYPE)
    (hdy : -1 ≤ dy ∧ dy ≤ 1) (hdx : -1 ≤ dx ∧ dx ≤ 1) :
    ∃ s', pressure_pass ROWS COLUMNS pressure i j dy dx s = some s'
      ∧ (s' = s ∨ Moved ROWS COLUMNS (i, j) s s') := by
  unfold pressure_pass
  by_cases h0 : dy = 0 ∧ dx = 0
  · rw [if_pos h0]; exact ⟨s, rfl, Or.inl rfl⟩
  rw [if_neg h0]
  simp only
  by_cases h1 : j + dx ≥ 0 ∧ j + dx < (COLUMNS : Int) ∧ i + dy ≥ 0 ∧ i + dy < (ROWS : Int)
  · have hb : in_bounds ROWS COLUMNS (i + dy) (j + dx) := by
      unfold in_bounds at *; omega
    rw [if_pos h1, addr_of_in_bounds hb]
    simp only [Option.bind_eq_bind, Option.some_bind, Option.pure_def]
    by_cases h2 : (s.cells (i + dy, j + dx)).type = WATER_TYPE
        ∧ (s.cells (i + dy, j + dx)).fill_level < (s.cells (i, j)).fill_level
    · rw [if_pos h2]
      by_cases h3 : pressure_flow pressure (s.cells (i, j)).fill_level
          (s.cells (i + dy, j + dx)).fill_level > MIN_FLOW
      · rw [if_pos h3]
        have hne : ((i + dy, j + dx) : Pos) ≠ (i, j) := by
          simp only [ne_eq, Prod.mk.injEq]; omega
        have hb2 := pressure_flow_bounds pressure (s.cells (i, j)).fill_level
          (s.cells (i + dy, j + dx)).fill_level
        refine ⟨_, rfl, Or.inr ⟨(i + dy, j + dx), pressure_flow pressure
          (s.cells (i, j)).fill_level (s.cells (i + dy, j + dx)).fill_level, 0, 0, ?_⟩⟩
        exact
          { src_in := hin
            dst_in := hb
            ne := hne
            near := by simp only; omega
            src_water := hw
            dst_water := h2.1
            amount_gt := h3
            amount_le_src := hb2.1
            amount_le_room := hb2.2
            room := Or.inr h2.2
            vel_y := Or.inl rfl
            vel_x := Or.inl rfl
            cells_eq := by
              rw [transfer_cells_zero _ _ _ _ hne]
            log_eq := transfer_log _ _ _ _ hne }
      · rw [if_neg h3]; exact ⟨s, rfl, Or.inl rfl⟩
    · rw [if_neg h2]; exact ⟨s, rfl, Or.inl rfl⟩
  · rw [if_neg h1]; exact ⟨s, rfl, Or.inl rfl⟩


/-! ## One cell of the loop -/

theorem MoveFacts.type_eq {ROWS COLUMNS : Nat} {src dst : Pos} {a dvy dvx : ℚ} {s s' : Sim}
    (h : MoveFacts ROWS COLUMNS src dst a dvy dvx s s') (p : Pos) :
    (s'.cells p).type = (s.cells p).type := by
  rw [h.cells_eq]
  by_cases hd : p = dst
  · subst hd; simp
  · by_cases hs : p = src
    · subst hs; simp [Function.update_noteq hd]
    · simp [Function.update_noteq hd, Function.update_noteq hs]

theorem Moved.type_kept {ROWS COLUMNS : Nat} {src : Pos} {s s' : Sim}
    (h : Moved ROWS COLUMNS src s s') (p : Pos) :
    (s'.cells p).type = (s.cells p).type := by
  obtain ⟨dst, a, dvy, dvx, hf⟩ := h
  exact hf.type_eq p

theorem Reach.type_fixed {ROWS COLUMNS : Nat} {src : Pos} {s s' : Sim}
    (h : Reach ROWS COLUMNS src s s') (p : Pos) :
    (s'.cells p).type = (s.cells p).type := by
  induction h with
  | refl => rfl
  | tail _ hm ih => rw [hm.type_kept p, ih]

theorem OneMove.moves {ROWS COLUMNS : Nat} {p : Pos} {f : Sim → Option Sim}
    (hf : OneMove ROWS COLUMNS p f) : Moves ROWS COLUMNS p f := by
  intro s hw
  obtain ⟨s', h1, h2⟩ := hf s hw
  refine ⟨s', h1, ?_⟩
  rcases h2 with rfl | h2
  · exact Relation.ReflTransGen.refl
  · exact Relation.ReflTransGen.single h2

theorem Moves.after {ROWS COLUMNS : Nat} {p : Pos} {f : Sim → Option Sim}
    (hf : Moves ROWS COLUMNS p f) {s s1 : Sim} (hw : (s.cells p).type = WATER_TYPE)
    (h : Reach ROWS COLUMNS p s s1) :
    ∃ s2, f s1 = some s2 ∧ Reach ROWS COLUMNS p s s2 := by
  obtain ⟨s2, h2, h3⟩ := hf s1 (by rw [h.type_fixed p, hw])
  exact ⟨s2, h2, Relation.ReflTransGen.trans h h3⟩

theorem Moves.foldlM {ROWS COLUMNS : Nat} {p : Pos} {α : Type} (f : Sim → α → Option Sim)
    (l : List α) (hf : ∀ a ∈ l, Moves ROWS COLUMNS p (fun s => f s a)) :
    Moves ROWS COLUMNS p (fun s => l.foldlM f s) := by
  induction l with
  | nil => intro s _; exact ⟨s, rfl, Relation.ReflTransGen.refl⟩
  | cons a l ih =>
    intro s hw
    obtain ⟨s1, h1, r1⟩ := hf a (List.mem_cons_self _ _) s hw
    simp only at h1
    obtain ⟨s2, h2, r2⟩ := (ih (fun b hb => hf b (List.mem_cons_of_mem _ hb))).after hw r1
    refine ⟨s2, ?_, r2⟩
    simp only [List.foldlM_cons, Option.bind_eq_bind]
    rw [h1]; exact h2

theorem process_cell_spec (ROWS COLUMNS : Nat) (i j : Int) (s : Sim)
    (hin : in_bounds ROWS COLUMNS i j) :
    ∃ s', process_cell ROWS COLUMNS i j s = some s' ∧ CellRun ROWS COLUMNS (i, j) s s' := by
  unfold process_cell
  rw [addr_of_in_bounds hin]
  simp only [Option.bind_eq_bind, Option.some_bind, Option.pure_def]
  by_cases hg : (s.cells (i, j)).type = WATER_TYPE ∧ (s.cells (i, j)).fill_level > 0
  · rw [if_pos hg]
    have hw := hg.1
    have hv : Moves ROWS COLUMNS (i, j) (vertical_pass ROWS COLUMNS i j) :=
      OneMove.moves (fun t ht => vertical_pass_spec ROWS COLUMNS i j t hin ht)
    have hh : Moves ROWS COLUMNS (i, j)
        (fun s => [-1, 1].foldlM (fun s dx => horizontal_pass ROWS COLUMNS i j dx s) s) :=
      Moves.foldlM _ _ (fun dx hdx => OneMove.moves (fun t ht =>
        horizontal_pass_spec ROWS COLUMNS i j dx t hin ht (by simpa using hdx)))
    have hp : ∀ pr : ℚ, Moves ROWS COLUMNS (i, j) (fun s => [-1, 0, 1].foldlM (fun s dy =>
        [-1, 0, 1].foldlM (fun s dx => pressure_pass ROWS COLUMNS pr i j dy dx s) s) s) :=
      fun pr => Moves.foldlM _ _ (fun dy hdy => Moves.foldlM _ _ (fun dx hdx =>
        OneMove.moves (fun t ht => pressure_pass_spec ROWS COLUMNS pr i j dy dx t hin ht
          (by simp at hdy; omega) (by simp at hdx; omega))))
    obtain ⟨s1, e1, r1⟩ := hv s hw
    obtain ⟨s2, e2, r2⟩ := hh.after hw r1
    obtain ⟨s3, e3, r3⟩ := (hp (min ((s2.cells (i, j)).fill_level - 0.5) MAX_PRESSURE)).after hw r2
    refine ⟨s3.damp (i, j), ?_, Or.inr ⟨hg, s3, r3, rfl⟩⟩
    rw [e1]
    simp only [Option.some_bind]
    rw [e2]
    simp only [Option.some_bind]
    rw [e3]
    simp
  · rw [if_neg hg]
    exact ⟨s, rfl, Or.inl ⟨hg, rfl⟩⟩


/-! ## The two loops -/

theorem foldlM_nested {α β σ : Type} (f : σ → α → β → Option σ) (l : List α) (m : List β)
    (s : σ) :
    l.foldlM (fun s a => m.foldlM (fun s b => f s a b) s) s
      = (l.flatMap fun a => m.map fun b => (a, b)).foldlM (fun s p => f s p.1 p.2) s := by
  induction l generalizing s with
  | nil => rfl
  | cons a l ih =>
    simp only [List.foldlM_cons, List.flatMap_cons, List.foldlM_append, List.foldlM_map]
    congr 1
    funext t
    exact ih t

theorem simulation_run_eq (ROWS COLUMNS : Nat) (s : Sim) :
    simulation_run ROWS COLUMNS s
      = (cell_order ROWS COLUMNS).foldlM (fun s p => process_cell ROWS COLUMNS p.1 p.2 s) s := by
  unfold simulation_run cell_order
  exact foldlM_nested (fun s i j => process_cell ROWS COLUMNS i j s) _ _ s

theorem mem_row_indices (ROWS : Nat) (i : Int) :
    i ∈ row_indices ROWS ↔ 0 ≤ i ∧ i < (ROWS : Int) := by
  unfold row_indices
  simp only [List.mem_map, List.mem_reverse, List.mem_range, Int.ofNat_eq_coe]
  constructor
  · rintro ⟨a, ha, rfl⟩; omega
  · intro h; exact ⟨i.toNat, by omega, by omega⟩

theorem mem_column_indices (COLUMNS : Nat) (j : Int) :
    j ∈ column_indices COLUMNS ↔ 0 ≤ j ∧ j < (COLUMNS : Int) := by
  unfold column_indices
  simp only [List.mem_map, List.mem_range, Int.ofNat_eq_coe]
  constructor
  · rintro ⟨a, ha, rfl⟩; omega
  · intro h; exact ⟨j.toNat, by omega, by omega⟩

theorem mem_cell_order (ROWS COLUMNS : Nat) (p : Pos) :
    p ∈ cell_order ROWS COLUMNS ↔ in_bounds ROWS COLUMNS p.1 p.2 := by
  unfold cell_order in_bounds
  simp only [List.mem_flatMap, List.mem_map, mem_row_indices, mem_column_indices]
  constructor
  · rintro ⟨i, hi, j, hj, rfl⟩; exact ⟨hi.1, hi.2, hj.1, hj.2⟩
  · intro h; exact ⟨p.1, ⟨h.1, h.2.1⟩, p.2, ⟨h.2.2.1, h.2.2.2⟩, rfl⟩

theorem cell_order_nodup (ROWS COLUMNS : Nat) : (cell_order ROWS COLUMNS).Nodup := by
  have hc : (column_indices COLUMNS).Nodup := by
    unfold column_indices
    exact (List.nodup_range COLUMNS).map (fun a b h => by simpa using h)
  have hr : (row_indices ROWS).Nodup := by
    unfold row_indices
    exact (List.nodup_reverse.2 (List.nodup_range ROWS)).map (fun a b h => by simpa using h)
  unfold cell_order
  rw [List.nodup_flatMap]
  refine ⟨fun i _ => hc.map (fun a b h => by simpa using h), ?_⟩
  refine hr.imp ?_
  intro a b hab
  simp only [Function.onFun, List.disjoint_left, List.mem_map, not_exists, not_and]
  rintro p ⟨j, _, rfl⟩ k _ h
  exact hab (by simpa using (congrArg Prod.fst h).symm)

/-- Induction over the cells in the order of the loops. -/
theorem foldlM_process_cell (ROWS COLUMNS : Nat) (P : Sim → Prop) (l : List Pos)
    (hl : ∀ p ∈ l, in_bounds ROWS COLUMNS p.1 p.2)
    (hstep : ∀ p ∈ l, ∀ s s', P s → CellRun ROWS COLUMNS p s s' → P s') (s : Sim) (h0 : P s) :
    ∃ s', l.foldlM (fun s p => process_cell ROWS COLUMNS p.1 p.2 s) s = some s' ∧ P s' := by
  induction l generalizing s with
  | nil => exact ⟨s, rfl, h0⟩
  | cons p l ih =>
    obtain ⟨s1, e1, r1⟩ := process_cell_spec ROWS COLUMNS p.1 p.2 s
      (hl p (List.mem_cons_self _ _))
    obtain ⟨s2, e2, h2⟩ := ih (fun q hq => hl q (List.mem_cons_of_mem _ hq))
      (fun q hq => hstep q (List.mem_cons_of_mem _ hq)) s1
      (hstep p (List.mem_cons_self _ _) s s1 h0 r1)
    refine ⟨s2, ?_, h2⟩
    simp only [List.foldlM_cons, Option.bind_eq_bind]
    rw [e1]; exact e2

theorem Reach.induction {ROWS COLUMNS : Nat} {p : Pos} (P : Sim → Prop)
    (hmove : ∀ s s', Moved ROWS COLUMNS p s s' → P s → P s') {s s' : Sim}
    (h : Reach ROWS COLUMNS p s s') (h0 : P s) : P s' := by
  induction h with
  | refl => exact h0
  | tail _ hm ih => exact hmove _ _ hm ih

/-- Induction over a whole step: a property that every single transfer and
every damping preserves holds after `simulation_run`, which succeeds. -/
theorem simulation_run_induction (ROWS COLUMNS : Nat) (P : Sim → Prop)
    (hmove : ∀ p s s', Moved ROWS COLUMNS p s s' → P s → P s')
    (hdamp : ∀ p s, in_bounds ROWS COLUMNS p.1 p.2 → (s.cells p).type = WATER_TYPE →
      P s → P (s.damp p))
    (s : Sim) (h0 : P s) :
    ∃ s', simulation_run ROWS COLUMNS s = some s' ∧ P s' := by
  rw [simulation_run_eq]
  refine foldlM_process_cell ROWS COLUMNS P _ (fun p hp => (mem_cell_order _ _ p).1 hp)
    (fun p hp s s' hs hr => ?_) s h0
  rcases hr with ⟨_, rfl⟩ | ⟨hg, s'', hr, rfl⟩
  · exact hs
  · refine hdamp p s'' ((mem_cell_order _ _ p).1 hp) ?_ (hr.induction P (hmove p) hs)
    rw [hr.type_fixed p]; exact hg.1


/-! ## Effect of one transfer and of damping on the cells -/

theorem MoveFacts.cells_other {ROWS COLUMNS : Nat} {src dst : Pos} {a dvy dvx : ℚ} {s s' : Sim}
    (h : MoveFacts ROWS COLUMNS src dst a dvy dvx s s') {p : Pos} (hs : p ≠ src)
    (hd : p ≠ dst) : s'.cells p = s.cells p := by
  rw [h.cells_eq, Function.update_noteq hd, Function.update_noteq hs]

theorem MoveFacts.fill_src {ROWS COLUMNS : Nat} {src dst : Pos} {a dvy dvx : ℚ} {s s' : Sim}
    (h : MoveFacts ROWS COLUMNS src dst a dvy dvx s s') :
    (s'.cells src).fill_level = (s.cells src).fill_level - a := by
  rw [h.cells_eq, Function.update_noteq h.ne.symm, Function.update_same]

theorem MoveFacts.fill_dst {ROWS COLUMNS : Nat} {src dst : Pos} {a dvy dvx : ℚ} {s s' : Sim}
    (h : MoveFacts ROWS COLUMNS src dst a dvy dvx s s') :
    (s'.cells dst).fill_level = (s.cells dst).fill_level + a := by
  rw [h.cells_eq, Function.update_same]

theorem MoveFacts.src_unchanged {ROWS COLUMNS : Nat} {src dst : Pos} {a dvy dvx : ℚ}
    {s s' : Sim} (h : MoveFacts ROWS COLUMNS src dst a dvy dvx s s') :
    s'.cells src = { s.cells src with fill_level := (s.cells src).fill_level - a } := by
  rw [h.cells_eq, Function.update_noteq h.ne.symm, Function.update_same]

theorem MoveFacts.amount_pos {ROWS COLUMNS : Nat} {src dst : Pos} {a dvy dvx : ℚ}
    {s s' : Sim} (h : MoveFacts ROWS COLUMNS src dst a dvy dvx s s') : 0 < a :=
  min_flow_pos.trans h.amount_gt

theorem damp_cells_other (s : Sim) {p q : Pos} (h : q ≠ p) : (s.damp p).cells q = s.cells q := by
  simp [Sim.damp, Function.update_noteq h]

theorem damp_cells_same (s : Sim) (p : Pos) : (s.damp p).cells p = (s.cells p).damp := by
  simp [Sim.damp]

theorem damp_fill_level (s : Sim) (p q : Pos) :
    ((s.damp p).cells q).fill_level = (s.cells q).fill_level := by
  by_cases h : q = p
  · subst h; simp [Sim.damp, Cell.damp]
  · rw [damp_cells_other s h]

theorem damp_type (s : Sim) (p q : Pos) : ((s.damp p).cells q).type = (s.cells q).type := by
  by_cases h : q = p
  · subst h; simp [Sim.damp, Cell.damp]
  · rw [damp_cells_other s h]

theorem damp_log (s : Sim) (p : Pos) : (s.damp p).log = s.log := rfl

theorem simulation_step_of_run {ROWS COLUMNS : Nat} {environment : Environment} {s' : Sim}
    (h : simulation_run ROWS COLUMNS ⟨environment, []⟩ = some s') :
    simulation_step ROWS COLUMNS environment = some s'.cells
      ∧ simulation_log ROWS COLUMNS environment = some s'.log := by
  simp [simulation_step, simulation_log, h]

/-! ## Conservation of the total fill -/

theorem mem_grid {ROWS COLUMNS : Nat} {p : Pos} :
    p ∈ Finset.Ico (0 : Int) ROWS ×ˢ Finset.Ico (0 : Int) COLUMNS
      ↔ in_bounds ROWS COLUMNS p.1 p.2 := by
  simp only [Finset.mem_product, Finset.mem_Ico, in_bounds]
  tauto

theorem sum_transfer (S : Finset Pos) (f g : Pos → ℚ) (src dst : Pos) (a : ℚ)
    (hs : src ∈ S) (hd : dst ∈ S) (hne : dst ≠ src)
    (hsrc : g src = f src - a) (hdst : g dst = f dst + a)
    (hother : ∀ p, p ≠ src → p ≠ dst → g p = f p) :
    ∑ p in S, g p = ∑ p in S, f p := by
  have hd' : dst ∈ S.erase src := Finset.mem_erase.2 ⟨hne, hd⟩
  rw [← Finset.add_sum_erase S g hs, ← Finset.add_sum_erase S f hs,
    ← Finset.add_sum_erase _ g hd', ← Finset.add_sum_erase _ f hd']
  have : ∑ p in (S.erase src).erase dst, g p = ∑ p in (S.erase src).erase dst, f p := by
    refine Finset.sum_congr rfl (fun p hp => ?_)
    have h1 := Finset.mem_erase.1 hp
    have h2 := Finset.mem_erase.1 h1.2
    exact hother p h2.1 h1.1
  rw [this, hsrc, hdst]
  ring

theorem Moved.total_fill_eq {ROWS COLUMNS : Nat} {src : Pos} {s s' : Sim}
    (h : Moved ROWS COLUMNS src s s') :
    total_fill ROWS COLUMNS s'.cells = total_fill ROWS COLUMNS s.cells := by
  obtain ⟨dst, a, dvy, dvx, hf⟩ := h
  unfold total_fill
  exact sum_transfer _ _ _ src dst a (mem_grid.2 hf.src_in) (mem_grid.2 hf.dst_in) hf.ne
    hf.fill_src hf.fill_dst (fun p h1 h2 => by rw [hf.cells_other h1 h2])

theorem damp_total_fill (ROWS COLUMNS : Nat) (s : Sim) (p : Pos) :
    total_fill ROWS COLUMNS (s.damp p).cells = total_fill ROWS COLUMNS s.cells := by
  unfold total_fill
  exact Finset.sum_congr rfl (fun q _ => damp_fill_level s p q)

theorem MoveFacts.fill_level_eq {ROWS COLUMNS : Nat} {src dst : Pos} {a dvy dvx : ℚ}
    {s s' : Sim} (h : MoveFacts ROWS COLUMNS src dst a dvy dvx s s') (p : Pos) :
    (s'.cells p).fill_level
      = (s.cells p).fill_level + (if p = dst then a else 0) - (if p = src then a else 0) := by
  by_cases hd : p = dst
  · subst hd; rw [h.fill_dst, if_pos rfl, if_neg h.ne]; ring
  · by_cases hs : p = src
    · subst hs; rw [h.fill_src, if_neg hd, if_pos rfl]; ring
    · rw [h.cells_other hs hd, if_neg hd, if_neg hs]; ring

/-! ## Evaluating the passes -/

theorem process_cell_idle (ROWS COLUMNS : Nat) {i j : Int} {s : Sim}
    (hin : in_bounds ROWS COLUMNS i j) (h : ¬ active (s.cells (i, j))) :
    process_cell ROWS COLUMNS i j s = some s := by
  unfold process_cell
  rw [addr_of_in_bounds hin]
  simp only [Option.bind_eq_bind, Option.some_bind, Option.pure_def]
  have h' : ¬ ((s.cells (i, j)).type = WATER_TYPE ∧ (s.cells (i, j)).fill_level > 0) := h
  rw [if_neg h']

theorem process_cell_active (ROWS COLUMNS : Nat) {i j : Int} {s : Sim}
    (hin : in_bounds ROWS COLUMNS i j) (h : active (s.cells (i, j))) :
    process_cell ROWS COLUMNS i j s
      = (vertical_pass ROWS COLUMNS i j s).bind fun s1 =>
          ([-1, 1].foldlM (fun s dx => horizontal_pass ROWS COLUMNS i j dx s) s1).bind fun s2 =>
            ([-1, 0, 1].foldlM (fun s dy => [-1, 0, 1].foldlM (fun s dx =>
              pressure_pass ROWS COLUMNS (min ((s2.cells (i, j)).fill_level - 0.5) MAX_PRESSURE)
                i j dy dx s) s) s2).bind fun s3 => some (s3.damp (i, j)) := by
  unfold process_cell
  rw [addr_of_in_bounds hin]
  simp only [Option.bind_eq_bind, Option.some_bind, Option.pure_def]
  have h' : (s.cells (i, j)).type = WATER_TYPE ∧ (s.cells (i, j)).fill_level > 0 := h
  rw [if_pos h']

theorem vertical_pass_last_row (ROWS COLUMNS : Nat) {i j : Int} {s : Sim}
    (h : ¬ i < (ROWS : Int) - 1) : vertical_pass ROWS COLUMNS i j s = some s := by
  unfold vertical_pass
  rw [if_neg h]; rfl

theorem vertical_pass_blocked (ROWS COLUMNS : Nat) {i j : Int} {s : Sim}
    (hin : in_bounds ROWS COLUMNS (i + 1) j)
    (h : ¬ ((s.cells (i + 1, j)).type = WATER_TYPE ∧ (s.cells (i + 1, j)).fill_level < 1.0)) :
    vertical_pass ROWS COLUMNS i j s = some s := by
  unfold vertical_pass
  rw [addr_of_in_bounds hin]
  simp only [Option.bind_eq_bind, Option.some_bind, Option.pure_def]
  rw [if_neg h]; simp

theorem vertical_pass_small (ROWS COLUMNS : Nat) {i j : Int} {s : Sim}
    (hin : in_bounds ROWS COLUMNS (i + 1) j)
    (h : vertical_flow (s.cells (i, j)).fill_level (s.cells (i + 1, j)).fill_level ≤ MIN_FLOW) :
    vertical_pass ROWS COLUMNS i j s = some s := by
  unfold vertical_pass
  rw [addr_of_in_bounds hin]
  simp only [Option.bind_eq_bind, Option.some_bind, Option.pure_def]
  rw [if_neg (not_lt.2 h)]; simp

theorem vertical_pass_move (ROWS COLUMNS : Nat) {i j : Int} {s : Sim}
    (hin : in_bounds ROWS COLUMNS (i + 1) j)
    (hw : (s.cells (i + 1, j)).type = WATER_TYPE) (hroom : (s.cells (i + 1, j)).fill_level < 1.0)
    (h : vertical_flow (s.cells (i, j)).fill_level (s.cells (i + 1, j)).fill_level > MIN_FLOW) :
    vertical_pass ROWS COLUMNS i j s
      = some ((s.transfer (i, j) (i + 1, j)
          (min (vertical_flow (s.cells (i, j)).fill_level (s.cells (i + 1, j)).fill_level)
            (s.cells (i, j)).fill_level)).add_velocity_y (i + 1, j)
          (min (vertical_flow (s.cells (i, j)).fill_level (s.cells (i + 1, j)).fill_level)
            (s.cells (i, j)).fill_level)) := by
  have h1 : i < (ROWS : Int) - 1 := by unfold in_bounds at hin; omega
  unfold vertical_pass
  rw [addr_of_in_bounds hin]
  simp only [Option.bind_eq_bind, Option.some_bind, Option.pure_def]
  rw [if_pos h1, if_pos ⟨hw, hroom⟩, if_pos h]

theorem horizontal_pass_edge (ROWS COLUMNS : Nat) {i j dx : Int} {s : Sim}
    (h : ¬ (j + dx ≥ 0 ∧ j + dx < (COLUMNS : Int))) :
    horizontal_pass ROWS COLUMNS i j dx s = some s := by
  unfold horizontal_pass
  rw [if_neg h]; rfl

theorem horizontal_pass_blocked (ROWS COLUMNS : Nat) {i j dx : Int} {s : Sim}
    (hin : in_bounds ROWS COLUMNS i (j + dx))
    (h : ¬ ((s.cells (i, j + dx)).type = WATER_TYPE
      ∧ (s.cells (i, j + dx)).fill_level < (s.cells (i, j)).fill_level)) :
    horizontal_pass ROWS COLUMNS i j dx s = some s := by
  unfold horizontal_pass
  rw [addr_of_in_bounds hin]
  simp only [Option.bind_eq_bind, Option.some_bind, Option.pure_def]
  rw [if_neg h]; simp

theorem horizontal_pass_small (ROWS COLUMNS : Nat) {i j dx : Int} {s : Sim}
    (hin : in_bounds ROWS COLUMNS i (j + dx))
    (h : horizontal_flow (s.cells (i, j)).fill_level (s.cells (i, j + dx)).fill_level
      ≤ MIN_FLOW) :
    horizontal_pass ROWS COLUMNS i j dx s = some s := by
  unfold horizontal_pass
  rw [addr_of_in_bounds hin]
  simp only [Option.bind_eq_bind, Option.some_bind, Option.pure_def]
  rw [if_neg (not_lt.2 h)]; simp

theorem horizontal_pass_move (ROWS COLUMNS : Nat) {i j dx : Int} {s : Sim}
    (hin : in_bounds ROWS COLUMNS i (j + dx))
    (hw : (s.cells (i, j + dx)).type = WATER_TYPE)
    (hlt : (s.cells (i, j + dx)).fill_level < (s.cells (i, j)).fill_level)
    (h : horizontal_flow (s.cells (i, j)).fill_level (s.cells (i, j + dx)).fill_level
      > MIN_FLOW) :
    horizontal_pass ROWS COLUMNS i j dx s
      = some ((s.transfer (i, j) (i, j + dx)
          (horizontal_flow (s.cells (i, j)).fill_level
            (s.cells (i, j + dx)).fill_level)).add_velocity_x (i, j + dx)
          (horizontal_flow (s.cells (i, j)).fill_level (s.cells (i, j + dx)).fill_level
            * (if dx > 0 then 1 else -1))) := by
  have h1 : j + dx ≥ 0 ∧ j + dx < (COLUMNS : Int) := by unfold in_bounds at hin; omega
  unfold horizontal_pass
  rw [addr_of_in_bounds hin]
  simp only [Option.bind_eq_bind, Option.some_bind, Option.pure_def]
  rw [if_pos h1, if_pos ⟨hw, hlt⟩, if_pos h]

theorem pressure_pass_self (ROWS COLUMNS : Nat) {pressure : ℚ} {i j : Int} {s : Sim} :
    pressure_pass ROWS COLUMNS pressure i j 0 0 s = some s := by
  unfold pressure_pass
  simp

theorem pressure_pass_edge (ROWS COLUMNS : Nat) {pressure : ℚ} {i j dy dx : Int} {s : Sim}
    (h : ¬ in_bounds ROWS COLUMNS (i + dy) (j + dx)) :
    pressure_pass ROWS COLUMNS pressure i j dy dx s = some s := by
  unfold pressure_pass
  have h1 : ¬ (j + dx ≥ 0 ∧ j + dx < (COLUMNS : Int) ∧ i + dy ≥ 0 ∧ i + dy < (ROWS : Int)) := by
    unfold in_bounds at h; omega
  simp only [if_neg h1]
  split_ifs <;> rfl

theorem pressure_pass_blocked (ROWS COLUMNS : Nat) {pressure : ℚ} {i j dy dx : Int} {s : Sim}
    (hin : in_bounds ROWS COLUMNS (i + dy) (j + dx))
    (h : ¬ ((s.cells (i + dy, j + dx)).type = WATER_TYPE
      ∧ (s.cells (i + dy, j + dx)).fill_level < (s.cells (i, j)).fill_level)) :
    pressure_pass ROWS COLUMNS pressure i j dy dx s = some s := by
  unfold pressure_pass
  simp only []
  rw [addr_of_in_bounds hin]
  simp only [Option.bind_eq_bind, Option.some_bind, Option.pure_def]
  rw [if_neg h]
  split_ifs <;> rfl

theorem pressure_pass_small (ROWS COLUMNS : Nat) {pressure : ℚ} {i j dy dx : Int} {s : Sim}
    (hin : in_bounds ROWS COLUMNS (i + dy) (j + dx))
    (h : pressure_flow pressure (s.cells (i, j)).fill_level
      (s.cells (i + dy, j + dx)).fill_level ≤ MIN_FLOW) :
    pressure_pass ROWS COLUMNS pressure i j dy dx s = some s := by
  unfold pressure_pass
  simp only []
  rw [addr_of_in_bounds hin]
  simp only [Option.bind_eq_bind, Option.some_bind, Option.pure_def]
  rw [if_neg (not_lt.2 h)]
  split_ifs <;> rfl

theorem pressure_pass_move (ROWS COLUMNS : Nat) {pressure : ℚ} {i j dy dx : Int} {s : Sim}
    (hin : in_bounds ROWS COLUMNS (i + dy) (j + dx)) (hne : ¬ (dy = 0 ∧ dx = 0))
    (hw : (s.cells (i + dy, j + dx)).type = WATER_TYPE)
    (hlt : (s.cells (i + dy, j + dx)).fill_level < (s.cells (i, j)).fill_level)
    (h : pressure_flow pressure (s.cells (i, j)).fill_level
      (s.cells (i + dy, j + dx)).fill_level > MIN_FLOW) :
    pressure_pass ROWS COLUMNS pressure i j dy dx s
      = some (s.transfer (i, j) (i + dy, j + dx) (pressure_flow pressure
          (s.cells (i, j)).fill_level (s.cells (i + dy, j + dx)).fill_level)) := by
  have h1 : j + dx ≥ 0 ∧ j + dx < (COLUMNS : Int) ∧ i + dy ≥ 0 ∧ i + dy < (ROWS : Int) := by
    unfold in_bounds at hin; omega
  unfold pressure_pass
  simp only []
  rw [addr_of_in_bounds hin]
  simp only [Option.bind_eq_bind, Option.some_bind, Option.pure_def]
  rw [if_neg hne, if_pos h1, if_pos ⟨hw, hlt⟩, if_pos h]


/-! ## Small arrays evaluated -/

/-- One step on a column of three water cells whose top cell is full and whose
other cells are empty. -/
theorem column_of_three (env : Environment)
    (ht0 : (env (0, 0)).type = WATER_TYPE) (ht1 : (env (1, 0)).type = WATER_TYPE)
    (hf0 : (env (0, 0)).fill_level = 1.0) (hf1 : (env (1, 0)).fill_level = 0)
    (hf2 : (env (2, 0)).fill_level = 0) :
    ∃ s', simulation_run 3 1 ⟨env, []⟩ = some s'
      ∧ (s'.cells (0, 0)).fill_level = 0.8082 ∧ (s'.cells (1, 0)).fill_level = 0.1918
      ∧ (s'.cells (2, 0)).fill_level = 0 := by
  have hc : cell_order 3 1 = [(2, 0), (1, 0), (0, 0)] := by decide
  rw [simulation_run_eq, hc]
  simp only [List.foldlM_cons, List.foldlM_nil, Option.bind_eq_bind]
  rw [process_cell_idle 3 1 (by decide) (by simp [active, hf2]), Option.some_bind,
    process_cell_idle 3 1 (by decide) (by simp [active, hf1]), Option.some_bind,
    process_cell_active 3 1 (by decide) ⟨ht0, by rw [hf0]; norm_num⟩]
  -- the gravity pass moves 0.165 into the middle cell
  have e1 := vertical_pass_move 3 1 (i := 0) (j := 0)
    (s := ⟨env, []⟩) (by decide) ht1
    (show (env (1, 0)).fill_level < 1.0 by rw [hf1]; norm_num)
    (show vertical_flow (env (0, 0)).fill_level (env (1, 0)).fill_level > MIN_FLOW by
      rw [hf0, hf1]; norm_num [vertical_flow, MIN_FLOW, GRAVITY, VERTICAL_FLOW_MULTIPLIER])
  have ha : min (vertical_flow (env (0, 0)).fill_level (env (0 + 1, 0)).fill_level)
      (env (0, 0)).fill_level = 0.165 := by
    show min (vertical_flow (env (0, 0)).fill_level (env (1, 0)).fill_level) _ = _
    rw [hf0, hf1]; norm_num [vertical_flow, GRAVITY, VERTICAL_FLOW_MULTIPLIER]
  simp only [ha] at e1
  rw [e1, Option.some_bind]
  generalize hs1 : ((⟨env, []⟩ : Sim).transfer (0, 0) (0 + 1, 0) 0.165).add_velocity_y
    (0 + 1, 0) 0.165 = s1
  have f0 : (s1.cells (0, 0)).fill_level = 0.835 := by
    subst hs1
    simp [Sim.transfer, Sim.add_velocity_y, Function.update_apply, -Prod.mk_zero_zero, hf0]
    norm_num
  have f1 : (s1.cells (1, 0)).fill_level = 0.165 := by
    subst hs1
    simp [Sim.transfer, Sim.add_velocity_y, Function.update_apply, -Prod.mk_zero_zero, hf1]
  have f2 : (s1.cells (2, 0)).fill_level = 0 := by
    subst hs1
    simp [Sim.transfer, Sim.add_velocity_y, Function.update_apply, -Prod.mk_zero_zero, hf2]
  have t1 : (s1.cells (1, 0)).type = WATER_TYPE := by
    subst hs1
    simp [Sim.transfer, Sim.add_velocity_y, Function.update_apply, -Prod.mk_zero_zero, ht1]
  simp only [List.foldlM_cons, List.foldlM_nil, Option.bind_eq_bind]
  rw [horizontal_pass_edge 3 1 (by decide), Option.some_bind, horizontal_pass_edge 3 1 (by decide),
    Option.some_bind]
  simp only [Option.pure_def, Option.some_bind]
  simp [pressure_pass_self, pressure_pass_edge, in_bounds, -Prod.mk_zero_zero]
  have hp : min ((s1.cells (0, 0)).fill_level - 0.5) MAX_PRESSURE = 0.335 := by
    rw [f0]; norm_num [MAX_PRESSURE]
  have hq : pressure_flow 0.335 (s1.cells (0, 0)).fill_level (s1.cells (1, 0)).fill_level
      = 0.0268 := by
    rw [f0, f1]; norm_num [pressure_flow, FLOW_RATE]
  have e2 : pressure_pass 3 1 0.335 0 0 1 0 s1
      = some (s1.transfer (0, 0) (1, 0) 0.0268) := by
    rw [← hq]
    exact pressure_pass_move 3 1 (by decide) (by decide) t1
      (show (s1.cells (1, 0)).fill_level < (s1.cells (0, 0)).fill_level by
        rw [f0, f1]; norm_num)
      (show pressure_flow 0.335 (s1.cells (0, 0)).fill_level (s1.cells (1, 0)).fill_level
          > MIN_FLOW by rw [hq]; norm_num [MIN_FLOW])
  rw [hp, e2, Option.some_bind]
  refine ⟨_, rfl, ?_, ?_, ?_⟩
  · simp [Sim.damp, Cell.damp, Sim.transfer, Function.update_apply, -Prod.mk_zero_zero, f0]
    norm_num
  · simp [Sim.damp, Cell.damp, Sim.transfer, Function.update_apply, -Prod.mk_zero_zero, f1]
    norm_num
  · simp [Sim.damp, Cell.damp, Sim.transfer, Function.update_apply, -Prod.mk_zero_zero, f2]

theorem vertical_pass_still (ROWS COLUMNS : Nat) {i j : Int} {s : Sim}
    (hin : in_bounds ROWS COLUMNS i j)
    (h : i < (ROWS : Int) - 1 → (s.cells (i + 1, j)).type = WATER_TYPE →
      (s.cells (i + 1, j)).fill_level < 1.0 →
      vertical_flow (s.cells (i, j)).fill_level (s.cells (i + 1, j)).fill_level ≤ MIN_FLOW) :
    vertical_pass ROWS COLUMNS i j s = some s := by
  by_cases h1 : i < (ROWS : Int) - 1
  · have hb : in_bounds ROWS COLUMNS (i + 1) j := by unfold in_bounds at *; omega
    by_cases h2 : (s.cells (i + 1, j)).type = WATER_TYPE ∧ (s.cells (i + 1, j)).fill_level < 1.0
    · exact vertical_pass_small ROWS COLUMNS hb (h h1 h2.1 h2.2)
    · exact vertical_pass_blocked ROWS COLUMNS hb h2
  · exact vertical_pass_last_row ROWS COLUMNS h1

theorem horizontal_pass_still (ROWS COLUMNS : Nat) {i j dx : Int} {s : Sim}
    (hin : in_bounds ROWS COLUMNS i j)
    (h : in_bounds ROWS COLUMNS i (j + dx) → (s.cells (i, j + dx)).type = WATER_TYPE →
      (s.cells (i, j + dx)).fill_level < (s.cells (i, j)).fill_level →
      horizontal_flow (s.cells (i, j)).fill_level (s.cells (i, j + dx)).fill_level ≤ MIN_FLOW) :
    horizontal_pass ROWS COLUMNS i j dx s = some s := by
  by_cases h1 : j + dx ≥ 0 ∧ j + dx < (COLUMNS : Int)
  · have hb : in_bounds ROWS COLUMNS i (j + dx) := by unfold in_bounds at *; omega
    by_cases h2 : (s.cells (i, j + dx)).type = WATER_TYPE
        ∧ (s.cells (i, j + dx)).fill_level < (s.cells (i, j)).fill_level
    · exact horizontal_pass_small ROWS COLUMNS hb (h hb h2.1 h2.2)
    · exact horizontal_pass_blocked ROWS COLUMNS hb h2
  · exact horizontal_pass_edge ROWS COLUMNS h1

theorem pressure_pass_still (ROWS COLUMNS : Nat) {pressure : ℚ} {i j dy dx : Int} {s : Sim}
    (h : in_bounds ROWS COLUMNS (i + dy) (j + dx) → ¬ (dy = 0 ∧ dx = 0) →
      (s.cells (i + dy, j + dx)).type = WATER_TYPE →
      (s.cells (i + dy, j + dx)).fill_level < (s.cells (i, j)).fill_level →
      pressure_flow pressure (s.cells (i, j)).fill_level (s.cells (i + dy, j + dx)).fill_level
        ≤ MIN_FLOW) :
    pressure_pass ROWS COLUMNS pressure i j dy dx s = some s := by
  by_cases h0 : dy = 0 ∧ dx = 0
  · rw [h0.1, h0.2]; exact pressure_pass_self ROWS COLUMNS
  by_cases hb : in_bounds ROWS COLUMNS (i + dy) (j + dx)
  · by_cases h2 : (s.cells (i + dy, j + dx)).type = WATER_TYPE
        ∧ (s.cells (i + dy, j + dx)).fill_level < (s.cells (i, j)).fill_level
    · exact pressure_pass_small ROWS COLUMNS hb (h hb h0 h2.1 h2.2)
    · exact pressure_pass_blocked ROWS COLUMNS hb h2
  · exact pressure_pass_edge ROWS COLUMNS hb

/-- When none of the passes moves anything, the loop body only damps. -/
theorem process_cell_still (ROWS COLUMNS : Nat) {i j : Int} {s : Sim}
    (hin : in_bounds ROWS COLUMNS i j)
    (hv : vertical_pass ROWS COLUMNS i j s = some s)
    (hh : ∀ dx, horizontal_pass ROWS COLUMNS i j dx s = some s)
    (hp : ∀ dy dx, pressure_pass ROWS COLUMNS
      (min ((s.cells (i, j)).fill_level - 0.5) MAX_PRESSURE) i j dy dx s = some s) :
    process_cell ROWS COLUMNS i j s
      = some (if active (s.cells (i, j)) then s.damp (i, j) else s) := by
  by_cases ha : active (s.cells (i, j))
  · rw [process_cell_active ROWS COLUMNS hin ha, hv, if_pos ha]
    simp only [List.foldlM_cons, List.foldlM_nil, Option.bind_eq_bind, Option.some_bind, hh,
      Option.pure_def, hp]
  · rw [process_cell_idle ROWS COLUMNS hin ha, if_neg ha]


theorem horizontal_flow_le (s n : ℚ) :
    horizontal_flow s n ≤ (s - n) * FLOW_RATE * HORIZONTAL_FLOW_MULTIPLIER := by
  unfold horizontal_flow
  refine mul_le_mul_of_nonneg_right ?_ (by norm_num [HORIZONTAL_FLOW_MULTIPLIER])
  exact (min_le_left _ _).trans (min_le_left _ _)

theorem pressure_flow_le (pressure s n : ℚ) : pressure_flow pressure s n ≤ pressure * FLOW_RATE := by
  unfold pressure_flow
  exact (min_le_left _ _).trans (min_le_left _ _)

theorem pressure_flow_small {f : ℚ} (h : f ≤ 0.625) (s n : ℚ) :
    pressure_flow (min (f - 0.5) MAX_PRESSURE) s n ≤ MIN_FLOW := by
  refine (pressure_flow_le _ s n).trans ?_
  have h1 : min (f - 0.5) MAX_PRESSURE * FLOW_RATE ≤ (f - 0.5) * FLOW_RATE :=
    mul_le_mul_of_nonneg_right (min_le_left _ _) (by norm_num [FLOW_RATE])
  refine h1.trans ?_
  norm_num [FLOW_RATE, MIN_FLOW] at h ⊢
  linarith

/-- On a row of two cells the loop body at column `j` only damps, provided the
other cell is not lower, or the difference and the fill are too small for a
flow above the threshold. -/
theorem process_cell_row_of_two (j : Int) (hj : j = 0 ∨ j = 1) (s : Sim)
    (h : (s.cells (0, 1 - j)).fill_level < (s.cells (0, j)).fill_level →
      ((s.cells (0, j)).fill_level - (s.cells (0, 1 - j)).fill_level) * 0.08 * 0.6 ≤ 0.01
        ∧ (s.cells (0, j)).fill_level ≤ 0.625) :
    process_cell 1 2 0 j s = some (if active (s.cells (0, j)) then s.damp (0, j) else s) := by
  have hin : in_bounds 1 2 0 j := by rcases hj with rfl | rfl <;> decide
  refine process_cell_still 1 2 hin ?_ ?_ ?_
  · exact vertical_pass_still 1 2 hin (fun h => absurd h (by decide))
  · intro dx
    refine horizontal_pass_still 1 2 hin (fun hb _ hl => ?_)
    have hdx : dx = 0 ∨ j + dx = 1 - j := by unfold in_bounds at hb; omega
    rcases hdx with rfl | hdx
    · rw [add_zero] at hl; exact absurd hl (lt_irrefl _)
    · rw [hdx] at hl ⊢
      refine (horizontal_flow_le _ _).trans ?_
      have := (h hl).1
      norm_num [FLOW_RATE, HORIZONTAL_FLOW_MULTIPLIER, MIN_FLOW] at this ⊢
      linarith
  · intro dy dx
    refine pressure_pass_still 1 2 (fun hb hne _ hl => ?_)
    have hdx : dy = 0 ∧ j + dx = 1 - j := by unfold in_bounds at hb; omega
    rw [hdx.1, hdx.2, add_zero] at hl
    exact pressure_flow_small (h hl).2 _ _

/-- One step on a row of two cells whose fills are at most 0.625 and differ by
so little that no flow passes the threshold: nothing is transferred. -/
theorem row_of_two_still (env : Environment)
    (h0 : (env (0, 0)).fill_level ≤ 0.625) (h1 : (env (0, 1)).fill_level ≤ 0.625)
    (hd : |(env (0, 0)).fill_level - (env (0, 1)).fill_level| * 0.08 * 0.6 ≤ 0.01) :
    ∃ s', simulation_run 1 2 ⟨env, []⟩ = some s' ∧ s'.log = []
      ∧ ∀ p, (s'.cells p).fill_level = (env p).fill_level := by
  have hc : cell_order 1 2 = [(0, 0), (0, 1)] := by decide
  have k1 : ((env (0, 0)).fill_level - (env (0, 1)).fill_level) * 0.08 * 0.6 ≤ 0.01 :=
    (mul_le_mul_of_nonneg_right (mul_le_mul_of_nonneg_right (le_abs_self _)
      (by norm_num)) (by norm_num)).trans hd
  have k2 : ((env (0, 1)).fill_level - (env (0, 0)).fill_level) * 0.08 * 0.6 ≤ 0.01 := by
    have h2 := neg_le_abs ((env (0, 0)).fill_level - (env (0, 1)).fill_level)
    rw [neg_sub] at h2
    exact (mul_le_mul_of_nonneg_right (mul_le_mul_of_nonneg_right h2
      (by norm_num)) (by norm_num)).trans hd
  have e1 := process_cell_row_of_two 0 (Or.inl rfl) ⟨env, []⟩ (fun _ => ⟨k1, h0⟩)
  obtain ⟨s1, hs1, hl1, hf1⟩ : ∃ s1 : Sim, process_cell 1 2 0 0 ⟨env, []⟩ = some s1
      ∧ s1.log = [] ∧ ∀ p, (s1.cells p).fill_level = (env p).fill_level := by
    refine ⟨_, e1, ?_, fun p => ?_⟩
    · split_ifs <;> rfl
    · split_ifs <;> simp only [damp_fill_level]
  have e2 := process_cell_row_of_two 1 (Or.inr rfl) s1 (fun _ => by
    rw [hf1, hf1]
    exact ⟨k2, h1⟩)
  refine ⟨if active (s1.cells (0, 1)) then s1.damp (0, 1) else s1, ?_, ?_, fun p => ?_⟩
  · rw [simulation_run_eq, hc]
    simp only [List.foldlM_cons, List.foldlM_nil, Option.bind_eq_bind]
    rw [hs1, Option.some_bind, e2]
    rfl
  · split_ifs
    · rw [damp_log, hl1]
    · exact hl1
  · split_ifs
    · rw [damp_fill_level, hf1]
    · exact hf1 p


/-! ## Two runs side by side -/

theorem same_water_transfer {ROWS COLUMNS : Nat} {s t : Sim}
    (h : same_water ROWS COLUMNS s.cells t.cells) (src dst : Pos) (a : ℚ) (hne : dst ≠ src)
    (hs : in_bounds ROWS COLUMNS src.1 src.2) (hd : in_bounds ROWS COLUMNS dst.1 dst.2) :
    same_water ROWS COLUMNS (s.transfer src dst a).cells (t.transfer src dst a).cells := by
  intro p hp
  rw [transfer_cells s src dst a hne, transfer_cells t src dst a hne]
  by_cases h1 : p = dst
  · subst h1
    simp only [Function.update_same]
    exact ⟨(h p hp).1, by rw [(h p hp).2]⟩
  · by_cases h2 : p = src
    · subst h2
      simp only [Function.update_noteq h1, Function.update_same]
      exact ⟨(h p hp).1, by rw [(h p hp).2]⟩
    · simp only [Function.update_noteq h1, Function.update_noteq h2]
      exact h p hp

theorem same_water_of_eq {ROWS COLUMNS : Nat} {a b a' b' : Environment}
    (h : same_water ROWS COLUMNS a b)
    (ha : ∀ p, (a' p).type = (a p).type ∧ (a' p).fill_level = (a p).fill_level)
    (hb : ∀ p, (b' p).type = (b p).type ∧ (b' p).fill_level = (b p).fill_level) :
    same_water ROWS COLUMNS a' b' := by
  intro p hp
  rw [(ha p).1, (ha p).2, (hb p).1, (hb p).2]
  exact h p hp

theorem add_velocity_y_water (s : Sim) (q : Pos) (a : ℚ) (p : Pos) :
    ((s.add_velocity_y q a).cells p).type = (s.cells p).type
      ∧ ((s.add_velocity_y q a).cells p).fill_level = (s.cells p).fill_level := by
  unfold Sim.add_velocity_y
  by_cases h : p = q
  · subst h; simp
  · simp [Function.update_noteq h]

theorem add_velocity_x_water (s : Sim) (q : Pos) (a : ℚ) (p : Pos) :
    ((s.add_velocity_x q a).cells p).type = (s.cells p).type
      ∧ ((s.add_velocity_x q a).cells p).fill_level = (s.cells p).fill_level := by
  unfold Sim.add_velocity_x
  by_cases h : p = q
  · subst h; simp
  · simp [Function.update_noteq h]

theorem vertical_pass_same_water (ROWS COLUMNS : Nat) (i j : Int) (s t : Sim)
    (hin : in_bounds ROWS COLUMNS i j) (h : same_water ROWS COLUMNS s.cells t.cells) :
    ∃ s' t', vertical_pass ROWS COLUMNS i j s = some s'
      ∧ vertical_pass ROWS COLUMNS i j t = some t'
      ∧ same_water ROWS COLUMNS s'.cells t'.cells := by
  by_cases h1 : i < (ROWS : Int) - 1
  · have hb : in_bounds ROWS COLUMNS (i + 1) j := by unfold in_bounds at *; omega
    have e0 := h (i, j) hin
    have e1 := h (i + 1, j) hb
    unfold vertical_pass
    rw [if_pos h1, addr_of_in_bounds hb]
    simp only [Option.bind_eq_bind, Option.some_bind, Option.pure_def]
    rw [← e0.2, ← e1.1, ← e1.2]
    split_ifs
    · refine ⟨_, _, rfl, rfl, ?_⟩
      exact same_water_of_eq (same_water_transfer h (i, j) (i + 1, j) _ (by simp) hin hb)
        (add_velocity_y_water _ _ _) (add_velocity_y_water _ _ _)
    · exact ⟨s, t, rfl, rfl, h⟩
    · exact ⟨s, t, rfl, rfl, h⟩
  · rw [vertical_pass_last_row ROWS COLUMNS h1, vertical_pass_last_row ROWS COLUMNS h1]
    exact ⟨s, t, rfl, rfl, h⟩

theorem horizontal_pass_same_water (ROWS COLUMNS : Nat) (i j dx : Int) (s t : Sim)
    (hin : in_bounds ROWS COLUMNS i j) (hdx : dx ≠ 0)
    (h : same_water ROWS COLUMNS s.cells t.cells) :
    ∃ s' t', horizontal_pass ROWS COLUMNS i j dx s = some s'
      ∧ horizontal_pass ROWS COLUMNS i j dx t = some t'
      ∧ same_water ROWS COLUMNS s'.cells t'.cells := by
  by_cases h1 : j + dx ≥ 0 ∧ j + dx < (COLUMNS : Int)
  · have hb : in_bounds ROWS COLUMNS i (j + dx) := by unfold in_bounds at *; omega
    have e0 := h (i, j) hin
    have e1 := h (i, j + dx) hb
    unfold horizontal_pass
    rw [if_pos h1, addr_of_in_bounds hb]
    simp only [Option.bind_eq_bind, Option.some_bind, Option.pure_def]
    rw [← e0.2, ← e1.1, ← e1.2]
    split_ifs
    · refine ⟨_, _, rfl, rfl, ?_⟩
      exact same_water_of_eq (same_water_transfer h (i, j) (i, j + dx) _
          (by simp only [ne_eq, Prod.mk.injEq, true_and]; omega) hin hb)
        (add_velocity_x_water _ _ _) (add_velocity_x_water _ _ _)
    · refine ⟨_, _, rfl, rfl, ?_⟩
      exact same_water_of_eq (same_water_transfer h (i, j) (i, j + dx) _
          (by simp only [ne_eq, Prod.mk.injEq, true_and]; omega) hin hb)
        (add_velocity_x_water _ _ _) (add_velocity_x_water _ _ _)
    · exact ⟨s, t, rfl, rfl, h⟩
    · exact ⟨s, t, rfl, rfl, h⟩
  · rw [horizontal_pass_edge ROWS COLUMNS h1, horizontal_pass_edge ROWS COLUMNS h1]
    exact ⟨s, t, rfl, rfl, h⟩

theorem pressure_pass_same_water (ROWS COLUMNS : Nat) (pressure : ℚ) (i j dy dx : Int)
    (s t : Sim) (hin : in_bounds ROWS COLUMNS i j)
    (h : same_water ROWS COLUMNS s.cells t.cells) :
    ∃ s' t', pressure_pass ROWS COLUMNS pressure i j dy dx s = some s'
      ∧ pressure_pass ROWS COLUMNS pressure i j dy dx t = some t'
      ∧ same_water ROWS COLUMNS s'.cells t'.cells := by
  by_cases h0 : dy = 0 ∧ dx = 0
  · rw [h0.1, h0.2, pressure_pass_self, pressure_pass_self]
    exact ⟨s, t, rfl, rfl, h⟩
  by_cases hb : in_bounds ROWS COLUMNS (i + dy) (j + dx)
  · have e0 := h (i, j) hin
    have e1 := h (i + dy, j + dx) hb
    have h1 : j + dx ≥ 0 ∧ j + dx < (COLUMNS : Int) ∧ i + dy ≥ 0 ∧ i + dy < (ROWS : Int) := by
      unfold in_bounds at hb; omega
    unfold pressure_pass
    simp only []
    rw [if_neg h0, if_pos h1, addr_of_in_bounds hb]
    simp only [Option.bind_eq_bind, Option.some_bind, Option.pure_def]
    rw [← e0.2, ← e1.1, ← e1.2]
    split_ifs
    · refine ⟨_, _, rfl, rfl, ?_⟩
      exact same_water_transfer h (i, j) (i + dy, j + dx) _
        (by simp only [ne_eq, Prod.mk.injEq]; omega) hin hb
    · exact ⟨s, t, rfl, rfl, h⟩
    · exact ⟨s, t, rfl, rfl, h⟩
  · rw [pressure_pass_edge ROWS COLUMNS hb, pressure_pass_edge ROWS COLUMNS hb]
    exact ⟨s, t, rfl, rfl, h⟩


theorem foldlM_same_water {α : Type} (ROWS COLUMNS : Nat) (f g : Sim → α → Option Sim)
    (l : List α)
    (hf : ∀ a ∈ l, ∀ s t, same_water ROWS COLUMNS s.cells t.cells →
      ∃ s' t', f s a = some s' ∧ g t a = some t' ∧ same_water ROWS COLUMNS s'.cells t'.cells)
    (s t : Sim) (h : same_water ROWS COLUMNS s.cells t.cells) :
    ∃ s' t', l.foldlM f s = some s' ∧ l.foldlM g t = some t'
      ∧ same_water ROWS COLUMNS s'.cells t'.cells := by
  induction l generalizing s t with
  | nil => exact ⟨s, t, rfl, rfl, h⟩
  | cons a l ih =>
    obtain ⟨s1, t1, e1, e2, h1⟩ := hf a (List.mem_cons_self _ _) s t h
    obtain ⟨s2, t2, e3, e4, h2⟩ := ih (fun b hb => hf b (List.mem_cons_of_mem _ hb)) s1 t1 h1
    refine ⟨s2, t2, ?_, ?_, h2⟩
    · simp only [List.foldlM_cons, Option.bind_eq_bind]; rw [e1]; exact e3
    · simp only [List.foldlM_cons, Option.bind_eq_bind]; rw [e2]; exact e4

theorem process_cell_same_water (ROWS COLUMNS : Nat) (i j : Int) (s t : Sim)
    (hin : in_bounds ROWS COLUMNS i j) (h : same_water ROWS COLUMNS s.cells t.cells) :
    ∃ s' t', process_cell ROWS COLUMNS i j s = some s'
      ∧ process_cell ROWS COLUMNS i j t = some t'
      ∧ same_water ROWS COLUMNS s'.cells t'.cells := by
  have e0 := h (i, j) hin
  by_cases ha : active (s.cells (i, j))
  · have hb : active (t.cells (i, j)) := by
      unfold active at *; rw [← e0.1, ← e0.2]; exact ha
    rw [process_cell_active ROWS COLUMNS hin ha, process_cell_active ROWS COLUMNS hin hb]
    obtain ⟨s1, t1, e1, e2, h1⟩ := vertical_pass_same_water ROWS COLUMNS i j s t hin h
    obtain ⟨s2, t2, e3, e4, h2⟩ := foldlM_same_water ROWS COLUMNS
      (fun s dx => horizontal_pass ROWS COLUMNS i j dx s)
      (fun s dx => horizontal_pass ROWS COLUMNS i j dx s) [-1, 1]
      (fun dx hdx s t hst => horizontal_pass_same_water ROWS COLUMNS i j dx s t hin
        (by simp at hdx; omega) hst) s1 t1 h1
    have hp : (t2.cells (i, j)).fill_level = (s2.cells (i, j)).fill_level := (h2 (i, j) hin).2.symm
    obtain ⟨s3, t3, e5, e6, h3⟩ := foldlM_same_water ROWS COLUMNS
      (fun s dy => [-1, 0, 1].foldlM (fun s dx => pressure_pass ROWS COLUMNS
        (min ((s2.cells (i, j)).fill_level - 0.5) MAX_PRESSURE) i j dy dx s) s)
      (fun s dy => [-1, 0, 1].foldlM (fun s dx => pressure_pass ROWS COLUMNS
        (min ((s2.cells (i, j)).fill_level - 0.5) MAX_PRESSURE) i j dy dx s) s) [-1, 0, 1]
      (fun dy _ s t hst => foldlM_same_water ROWS COLUMNS _ _ [-1, 0, 1]
        (fun dx _ s t hst => pressure_pass_same_water ROWS COLUMNS _ i j dy dx s t hin hst)
        s t hst) s2 t2 h2
    refine ⟨s3.damp (i, j), t3.damp (i, j), ?_, ?_, ?_⟩
    · rw [e1, Option.some_bind, e3, Option.some_bind, e5, Option.some_bind]
    · rw [e2, Option.some_bind, e4, Option.some_bind, hp, e6, Option.some_bind]
    · exact same_water_of_eq h3 (fun p => ⟨damp_type _ _ _, damp_fill_level _ _ _⟩)
        (fun p => ⟨damp_type _ _ _, damp_fill_level _ _ _⟩)
  · have hb : ¬ active (t.cells (i, j)) := by
      unfold active at *; rw [← e0.1, ← e0.2]; exact ha
    rw [process_cell_idle ROWS COLUMNS hin ha, process_cell_idle ROWS COLUMNS hin hb]
    exact ⟨s, t, rfl, rfl, h⟩

theorem simulation_run_same_water (ROWS COLUMNS : Nat) (s t : Sim)
    (h : same_water ROWS COLUMNS s.cells t.cells) :
    ∃ s' t', simulation_run ROWS COLUMNS s = some s' ∧ simulation_run ROWS COLUMNS t = some t'
      ∧ same_water ROWS COLUMNS s'.cells t'.cells := by
  rw [simulation_run_eq, simulation_run_eq]
  exact foldlM_same_water ROWS COLUMNS _ _ _
    (fun p hp s t hst => process_cell_same_water ROWS COLUMNS p.1 p.2 s t
      ((mem_cell_order _ _ p).1 hp) hst) s t h


/-! ## Cells that take part in no transfer -/

theorem Reach.log_grows {ROWS COLUMNS : Nat} {q : Pos} {s s' : Sim}
    (h : Reach ROWS COLUMNS q s s') (t : Transfer) (ht : t ∈ s.log) : t ∈ s'.log := by
  induction h with
  | refl => exact ht
  | tail _ hm ih =>
    obtain ⟨dst, a, dvy, dvx, hf⟩ := hm
    rw [hf.log_eq]
    exact List.mem_append_left _ ih

theorem Reach.cells_untouched {ROWS COLUMNS : Nat} {q : Pos} {s s' : Sim}
    (h : Reach ROWS COLUMNS q s s') (p : Pos)
    (hp : ∀ t ∈ s'.log, t.src ≠ p ∧ t.dst ≠ p) : s'.cells p = s.cells p := by
  induction h with
  | refl => rfl
  | tail _ hm ih =>
    obtain ⟨dst, a, dvy, dvx, hf⟩ := hm
    have hlast := hp _ (by rw [hf.log_eq]; exact List.mem_append_right _ (List.mem_singleton_self _))
    rw [hf.cells_other (Ne.symm hlast.1) (Ne.symm hlast.2)]
    exact ih (fun t ht => hp t (by rw [hf.log_eq]; exact List.mem_append_left _ ht))

theorem CellRun.log_mono {ROWS COLUMNS : Nat} {q : Pos} {s s' : Sim}
    (h : CellRun ROWS COLUMNS q s s') (t : Transfer) (ht : t ∈ s.log) : t ∈ s'.log := by
  rcases h with ⟨_, rfl⟩ | ⟨_, s'', hr, rfl⟩
  · exact ht
  · exact hr.log_grows t ht

theorem CellRun.cells_of_not_involved {ROWS COLUMNS : Nat} {q : Pos} {s s' : Sim}
    (h : CellRun ROWS COLUMNS q s s') (p : Pos)
    (hp : ∀ t ∈ s'.log, t.src ≠ p ∧ t.dst ≠ p) :
    s'.cells p = if q = p ∧ active (s.cells p) then (s.cells p).damp else s.cells p := by
  rcases h with ⟨hn, rfl⟩ | ⟨ha, s'', hr, rfl⟩
  · rw [if_neg]
    rintro ⟨rfl, h2⟩
    exact hn h2
  · have h1 := hr.cells_untouched p hp
    by_cases hq : q = p
    · subst hq
      rw [if_pos ⟨rfl, ha⟩, damp_cells_same, h1]
    · rw [if_neg (fun h => hq h.1), damp_cells_other _ (Ne.symm hq), h1]

theorem foldlM_log_mono (ROWS COLUMNS : Nat) (l : List Pos)
    (hl : ∀ p ∈ l, in_bounds ROWS COLUMNS p.1 p.2) (s s' : Sim)
    (h : l.foldlM (fun s p => process_cell ROWS COLUMNS p.1 p.2 s) s = some s')
    (t : Transfer) (ht : t ∈ s.log) : t ∈ s'.log := by
  obtain ⟨s2, e2, h2⟩ := foldlM_process_cell ROWS COLUMNS (fun u => t ∈ u.log) l hl
    (fun p _ u u' hu hr => hr.log_mono t hu) s ht
  rw [h] at e2
  cases e2
  exact h2

/-- A cell that no transfer of the fold touches ends damped once if it was
visited while holding water, and unchanged otherwise. -/
theorem foldlM_cells_of_not_involved (ROWS COLUMNS : Nat) (l : List Pos) (hnd : l.Nodup)
    (hl : ∀ p ∈ l, in_bounds ROWS COLUMNS p.1 p.2) (p : Pos) (s s' : Sim)
    (h : l.foldlM (fun s p => process_cell ROWS COLUMNS p.1 p.2 s) s = some s')
    (hp : ∀ t ∈ s'.log, t.src ≠ p ∧ t.dst ≠ p) :
    s'.cells p = if p ∈ l ∧ active (s.cells p) then (s.cells p).damp else s.cells p := by
  induction l generalizing s with
  | nil =>
    simp only [List.foldlM_nil, Option.pure_def, Option.some.injEq] at h
    subst h
    simp
  | cons q l ih =>
    obtain ⟨s1, e1, r1⟩ := process_cell_spec ROWS COLUMNS q.1 q.2 s
      (hl q (List.mem_cons_self _ _))
    simp only [List.foldlM_cons, Option.bind_eq_bind] at h
    rw [e1, Option.some_bind] at h
    have hl' : ∀ p ∈ l, in_bounds ROWS COLUMNS p.1 p.2 :=
      fun p hp => hl p (List.mem_cons_of_mem _ hp)
    have hnd' := List.nodup_cons.1 hnd
    have r1' : CellRun ROWS COLUMNS q s s1 := r1
    have h1 := r1'.cells_of_not_involved p
      (fun t ht => hp t (foldlM_log_mono ROWS COLUMNS l hl' s1 s' h t ht))
    have h2 := ih hnd'.2 hl' s1 h
    rw [h2, h1]
    by_cases hq : q = p
    · subst hq
      have hnot : ¬ (q ∈ l ∧ active ((if q = q ∧ active (s.cells q) then (s.cells q).damp
          else s.cells q))) := fun h => hnd'.1 h.1
      rw [if_neg hnot]
      simp only [true_and, List.mem_cons, true_or]
    · have hq' : ¬ (q = p ∧ active (s.cells p)) := fun h => hq h.1
      rw [if_neg hq']
      have : p ∈ q :: l ↔ p ∈ l := by
        simp only [List.mem_cons]
        constructor
        · rintro (h | h)
          · exact absurd h.symm hq
          · exact h
        · exact Or.inr
      simp only [this]

/-- After a whole step, a cell that no transfer touched is damped once if it
is a water cell of the grid with positive fill, and unchanged otherwise. -/
theorem simulation_run_cells_of_not_involved (ROWS COLUMNS : Nat) (p : Pos) (s s' : Sim)
    (h : simulation_run ROWS COLUMNS s = some s')
    (hp : ∀ t ∈ s'.log, t.src ≠ p ∧ t.dst ≠ p) :
    s'.cells p = if in_bounds ROWS COLUMNS p.1 p.2 ∧ active (s.cells p)
      then (s.cells p).damp else s.cells p := by
  rw [simulation_run_eq] at h
  rw [foldlM_cells_of_not_involved ROWS COLUMNS _ (cell_order_nodup ROWS COLUMNS)
    (fun q hq => (mem_cell_order _ _ q).1 hq) p s s' h hp]
  simp only [mem_cell_order]

/-- Every transfer of a step goes between two distinct neighbouring water
cells of the grid, and the step changes no type. -/
theorem simulation_run_log_facts (ROWS COLUMNS : Nat) (env : Environment) :
    ∃ s', simulation_run ROWS COLUMNS ⟨env, []⟩ = some s'
      ∧ (∀ q, (s'.cells q).type = (env q).type)
      ∧ ∀ t ∈ s'.log, in_bounds ROWS COLUMNS t.src.1 t.src.2
          ∧ in_bounds ROWS COLUMNS t.dst.1 t.dst.2 ∧ t.dst ≠ t.src
          ∧ (t.dst.1 - t.src.1 ≤ 1 ∧ t.src.1 - t.dst.1 ≤ 1
              ∧ t.dst.2 - t.src.2 ≤ 1 ∧ t.src.2 - t.dst.2 ≤ 1)
          ∧ (env t.src).type = WATER_TYPE ∧ (env t.dst).type = WATER_TYPE := by
  refine simulation_run_induction ROWS COLUMNS
    (fun s => (∀ q, (s.cells q).type = (env q).type)
      ∧ ∀ t ∈ s.log, in_bounds ROWS COLUMNS t.src.1 t.src.2
          ∧ in_bounds ROWS COLUMNS t.dst.1 t.dst.2 ∧ t.dst ≠ t.src
          ∧ (t.dst.1 - t.src.1 ≤ 1 ∧ t.src.1 - t.dst.1 ≤ 1
              ∧ t.dst.2 - t.src.2 ≤ 1 ∧ t.src.2 - t.dst.2 ≤ 1)
          ∧ (env t.src).type = WATER_TYPE ∧ (env t.dst).type = WATER_TYPE)
    (fun q s s' hm hs => ?_) (fun q s _ _ hs => ?_) ⟨env, []⟩ ⟨fun _ => rfl, by simp⟩
  · obtain ⟨dst, a, dvy, dvx, hf⟩ := hm
    refine ⟨fun r => by rw [hf.type_eq r]; exact hs.1 r, fun t ht => ?_⟩
    rw [hf.log_eq, List.mem_append, List.mem_singleton] at ht
    rcases ht with ht | rfl
    · exact hs.2 t ht
    · exact ⟨hf.src_in, hf.dst_in, hf.ne, hf.near, by rw [← hs.1 q]; exact hf.src_water,
        by rw [← hs.1 dst]; exact hf.dst_water⟩
  · exact ⟨fun r => by rw [damp_type]; exact hs.1 r, hs.2⟩

/-- One step on an array at rest in the sense of the equilibrium property:
nothing is transferred, every water cell of the grid with positive fill is
damped and every other cell is left as it was. -/
theorem equilibrium_step (ROWS COLUMNS : Nat) (env : Environment) (f : ℚ)
    (hsame : ∀ p : Pos, in_bounds ROWS COLUMNS p.1 p.2 → (env p).type = WATER_TYPE →
      (env p).fill_level = f)
    (hbelow : ∀ i j : Int, in_bounds ROWS COLUMNS i j → in_bounds ROWS COLUMNS (i + 1) j →
      (env (i, j)).type = WATER_TYPE →
      (env (i + 1, j)).type = SOLID_TYPE ∨ (env (i + 1, j)).fill_level ≥ 1.0) :
    ∃ s', simulation_run ROWS COLUMNS ⟨env, []⟩ = some s' ∧ s'.log = []
      ∧ ∀ p, s'.cells p = if in_bounds ROWS COLUMNS p.1 p.2 ∧ active (env p)
          then (env p).damp else env p := by
  obtain ⟨s', h1, h2, h3⟩ := simulation_run_induction ROWS COLUMNS
    (fun s => (∀ q, (s.cells q).type = (env q).type
        ∧ (s.cells q).fill_level = (env q).fill_level) ∧ s.log = [])
    (fun q s s' hm hs => by
      exfalso
      obtain ⟨dst, a, dvy, dvx, hf⟩ := hm
      have hwq : (env q).type = WATER_TYPE := by rw [← (hs.1 q).1]; exact hf.src_water
      have hwd : (env dst).type = WATER_TYPE := by rw [← (hs.1 dst).1]; exact hf.dst_water
      have hfq := hsame q hf.src_in hwq
      have hfd := hsame dst hf.dst_in hwd
      rcases hf.room with ⟨hd, hlt⟩ | hlt
      · rw [(hs.1 dst).2] at hlt
        have hdin := hf.dst_in
        rw [hd] at hdin hwd hlt
        rcases hbelow q.1 q.2 hf.src_in hdin hwq with h | h
        · rw [hwd] at h; exact absurd h (by decide)
        · norm_num at h; linarith
      · rw [(hs.1 dst).2, (hs.1 q).2, hfq, hfd] at hlt
        exact lt_irrefl _ hlt)
    (fun q s _ _ hs => ⟨fun r => by rw [damp_type, damp_fill_level]; exact hs.1 r, hs.2⟩)
    ⟨env, []⟩ ⟨fun _ => ⟨rfl, rfl⟩, rfl⟩
  refine ⟨s', h1, h3, fun p => ?_⟩
  exact simulation_run_cells_of_not_involved ROWS COLUMNS p _ s' h1 (by rw [h3]; simp)

theorem damp_of_still (c : Cell) (hy : c.velocity_y = 0) (hx : c.velocity_x = 0) :
    c.damp = c := by
  cases c
  simp only [Cell.damp, Cell.mk.injEq, true_and] at *
  subst hy hx
  simp

/-- A full water neighbour does not isolate a cell: the half-full cell under a
full one holds water and has only a full neighbour, yet the full cell pours
0.165 into it by gravity and its `velocity_y` becomes 0.9 + 0.165 instead of
0.9. -/
theorem full_neighbour_pours_in :
    (full_over_half (1, 0)).type = WATER_TYPE ∧ (full_over_half (1, 0)).fill_level > 0
      ∧ (full_over_half (0, 0)).fill_level ≥ 1.0
      ∧ ∃ s', simulation_run 2 1 ⟨full_over_half, []⟩ = some s'
        ∧ (s'.cells (1, 0)).velocity_y = 1.065
        ∧ (full_over_half (1, 0)).velocity_y * DAMPING = 0.9 := by
  refine ⟨rfl, by norm_num [full_over_half], by norm_num [full_over_half, still_cell], ?_⟩
  have hc : cell_order 2 1 = [(1, 0), (0, 0)] := by decide
  have f0 : (full_over_half (0, 0)).fill_level = 1.0 := by simp [full_over_half, still_cell]
  have f1 : (full_over_half (1, 0)).fill_level = 0.5 := by simp [full_over_half]
  -- the lower cell is visited first and only damped
  have e1 : process_cell 2 1 1 0 ⟨full_over_half, []⟩
      = some ((⟨full_over_half, []⟩ : Sim).damp (1, 0)) := by
    rw [process_cell_still 2 1 (by decide), if_pos ⟨rfl, by norm_num [full_over_half]⟩]
    · exact vertical_pass_last_row 2 1 (by decide)
    · intro dx
      exact horizontal_pass_still 2 1 (by decide) (fun hb _ hl => by
        have hdx : dx = 0 := by unfold in_bounds at hb; omega
        subst hdx
        exact absurd hl (lt_irrefl _))
    · intro dy dx
      refine pressure_pass_still 2 1 (fun hb hne _ hl => ?_)
      have hd : dy = -1 ∧ dx = 0 := by unfold in_bounds at hb; omega
      rw [hd.1, hd.2] at hl
      change (full_over_half (0, 0)).fill_level < (full_over_half (1, 0)).fill_level at hl
      rw [f0, f1] at hl
      norm_num at hl
  generalize hs1 : (⟨full_over_half, []⟩ : Sim).damp (1, 0) = s1 at e1
  have g0 : (s1.cells (0, 0)).fill_level = 1.0 := by rw [← hs1, damp_fill_level]; exact f0
  have g1 : (s1.cells (1, 0)).fill_level = 0.5 := by rw [← hs1, damp_fill_level]; exact f1
  have t0 : (s1.cells (0, 0)).type = WATER_TYPE := by rw [← hs1, damp_type]; rfl
  have t1 : (s1.cells (1, 0)).type = WATER_TYPE := by rw [← hs1, damp_type]; rfl
  have v1 : (s1.cells (1, 0)).velocity_y = 0.9 := by
    rw [← hs1, damp_cells_same]
    norm_num [Cell.damp, full_over_half, DAMPING]
  -- the gravity pass of the upper cell
  have ha : min (vertical_flow (s1.cells (0, 0)).fill_level (s1.cells (1, 0)).fill_level)
      (s1.cells (0, 0)).fill_level = 0.165 := by
    rw [g0, g1]; norm_num [vertical_flow, GRAVITY, VERTICAL_FLOW_MULTIPLIER]
  have e2 : vertical_pass 2 1 0 0 s1
      = some ((s1.transfer (0, 0) (1, 0) 0.165).add_velocity_y (1, 0) 0.165) := by
    rw [← ha]
    exact vertical_pass_move 2 1 (by decide) t1
      (show (s1.cells (1, 0)).fill_level < 1.0 by rw [g1]; norm_num)
      (show vertical_flow (s1.cells (0, 0)).fill_level (s1.cells (1, 0)).fill_level > MIN_FLOW by
        rw [g0, g1]; norm_num [vertical_flow, MIN_FLOW, GRAVITY, VERTICAL_FLOW_MULTIPLIER])
  generalize hs2 : (s1.transfer (0, 0) (1, 0) 0.165).add_velocity_y (1, 0) 0.165 = s2 at e2
  have k0 : (s2.cells (0, 0)).fill_level = 0.835 := by
    subst hs2
    simp [Sim.transfer, Sim.add_velocity_y, Function.update_apply, -Prod.mk_zero_zero, g0]
    norm_num
  have k1 : (s2.cells (1, 0)).fill_level = 0.665 := by
    subst hs2
    simp [Sim.transfer, Sim.add_velocity_y, Function.update_apply, -Prod.mk_zero_zero, g1]
    norm_num
  have kt : (s2.cells (1, 0)).type = WATER_TYPE := by
    subst hs2
    simp [Sim.transfer, Sim.add_velocity_y, Function.update_apply, -Prod.mk_zero_zero, t1]
  have kv : (s2.cells (1, 0)).velocity_y = 1.065 := by
    subst hs2
    simp [Sim.transfer, Sim.add_velocity_y, Function.update_apply, -Prod.mk_zero_zero, v1]
    norm_num
  -- the pressure pass of the upper cell
  have hp : min ((s2.cells (0, 0)).fill_level - 0.5) MAX_PRESSURE = 0.335 := by
    rw [k0]; norm_num [MAX_PRESSURE]
  have hq : pressure_flow 0.335 (s2.cells (0, 0)).fill_level (s2.cells (1, 0)).fill_level
      = 0.0268 := by
    rw [k0, k1]; norm_num [pressure_flow, FLOW_RATE]
  have e3 : pressure_pass 2 1 0.335 0 0 1 0 s2 = some (s2.transfer (0, 0) (1, 0) 0.0268) := by
    rw [← hq]
    exact pressure_pass_move 2 1 (by decide) (by decide) kt
      (show (s2.cells (1, 0)).fill_level < (s2.cells (0, 0)).fill_level by
        rw [k0, k1]; norm_num)
      (show pressure_flow 0.335 (s2.cells (0, 0)).fill_level (s2.cells (1, 0)).fill_level
          > MIN_FLOW by rw [hq]; norm_num [MIN_FLOW])
  refine ⟨(s2.transfer (0, 0) (1, 0) 0.0268).damp (0, 0), ?_, ?_, by
    norm_num [full_over_half, DAMPING]⟩
  · rw [simulation_run_eq, hc]
    simp only [List.foldlM_cons, List.foldlM_nil, Option.bind_eq_bind]
    rw [e1, Option.some_bind, process_cell_active 2 1 (by decide) ⟨t0, by rw [g0]; norm_num⟩,
      e2, Option.some_bind]
    simp only [List.foldlM_cons, List.foldlM_nil, Option.bind_eq_bind]
    rw [horizontal_pass_edge 2 1 (by decide), Option.some_bind,
      horizontal_pass_edge 2 1 (by decide), Option.some_bind]
    simp only [Option.pure_def, Option.some_bind]
    rw [hp]
    simp [pressure_pass_self, pressure_pass_edge, in_bounds, -Prod.mk_zero_zero, e3]
  · simp [Sim.damp, Sim.transfer, Function.update_apply, -Prod.mk_zero_zero, kv]

/-! ## The fields that a step never writes -/

theorem MoveFacts.frame_eq {ROWS COLUMNS : Nat} {src dst : Pos} {a dvy dvx : ℚ} {s s' : Sim}
    (h : MoveFacts ROWS COLUMNS src dst a dvy dvx s s') (p : Pos) :
    (s'.cells p).pressure = (s.cells p).pressure ∧ (s'.cells p).x = (s.cells p).x
      ∧ (s'.cells p).y = (s.cells p).y := by
  rw [h.cells_eq]
  by_cases hd : p = dst
  · subst hd; simp
  · by_cases hs : p = src
    · subst hs; simp [Function.update_noteq hd]
    · simp [Function.update_noteq hd, Function.update_noteq hs]

theorem damp_frame (s : Sim) (p q : Pos) :
    ((s.damp p).cells q).pressure = (s.cells q).pressure
      ∧ ((s.damp p).cells q).x = (s.cells q).x ∧ ((s.damp p).cells q).y = (s.cells q).y := by
  by_cases h : q = p
  · subst h; simp [Sim.damp, Cell.damp]
  · rw [damp_cells_other s h]; exact ⟨rfl, rfl, rfl⟩

/-! ## Construction of the grid -/

theorem foldlM_initialize_cell (ROWS COLUMNS : Nat) (l : List Pos)
    (hl : ∀ p ∈ l, in_bounds ROWS COLUMNS p.1 p.2) (env : Environment) :
    ∃ env', l.foldlM (fun e p => initialize_cell ROWS COLUMNS p.1 p.2 e) env = some env'
      ∧ ∀ p, env' p = if p ∈ l then initial_cell p.1 p.2 else env p := by
  induction l generalizing env with
  | nil => exact ⟨env, rfl, fun p => by simp⟩
  | cons q l ih =>
    obtain ⟨env', h1, h2⟩ := ih (fun p hp => hl p (List.mem_cons_of_mem _ hp))
      (Function.update env q (initial_cell q.1 q.2))
    refine ⟨env', ?_, fun p => ?_⟩
    · simp only [List.foldlM_cons, Option.bind_eq_bind]
      unfold initialize_cell
      rw [addr_of_in_bounds (hl q (List.mem_cons_self _ _))]
      exact h1
    · rw [h2 p]
      by_cases hp : p ∈ l
      · rw [if_pos hp, if_pos (List.mem_cons_of_mem _ hp)]
      · rw [if_neg hp]
        by_cases hq : p = q
        · subst hq
          rw [Function.update_same, if_pos (List.mem_cons_self _ _)]
        · rw [Function.update_noteq hq, if_neg]
          simp only [List.mem_cons, not_or]
          exact ⟨hq, hp⟩

/-- The result of `initialize_environment`: every cell of the grid holds its
initial value, every other cell is left as it was. -/
theorem initialize_environment_eq (ROWS COLUMNS : Nat) (env : Environment) :
    ∃ env', initialize_environment ROWS COLUMNS env = some env'
      ∧ ∀ p, env' p = if in_bounds ROWS COLUMNS p.1 p.2 then initial_cell p.1 p.2 else env p := by
  have hmem : ∀ p : Pos, p ∈ ((ascending_rows ROWS).flatMap fun i =>
      (column_indices COLUMNS).map fun j => (i, j)) ↔ in_bounds ROWS COLUMNS p.1 p.2 := by
    intro p
    unfold in_bounds
    simp only [List.mem_flatMap, List.mem_map, ascending_rows, mem_column_indices,
      List.mem_range, Int.ofNat_eq_coe]
    constructor
    · rintro ⟨i, ⟨a, ha, rfl⟩, j, hj, rfl⟩
      exact ⟨by simp, by simpa using ha, hj.1, hj.2⟩
    · intro h
      exact ⟨p.1, ⟨p.1.toNat, by omega, by omega⟩, p.2, ⟨h.2.2.1, h.2.2.2⟩, rfl⟩
  obtain ⟨env', h1, h2⟩ := foldlM_initialize_cell ROWS COLUMNS _
    (fun p hp => (hmem p).1 hp) env
  refine ⟨env', ?_, fun p => ?_⟩
  · unfold initialize_environment
    rw [foldlM_nested (fun e i j => initialize_cell ROWS COLUMNS i j e)]
    exact h1
  · rw [h2 p]
    simp only [hmem p]

/-! ## An array that holds no water -/

/-- One step on an array whose cells all have fill 0: every cell is skipped. -/
theorem empty_run (ROWS COLUMNS : Nat) (env : Environment)
    (h : ∀ p : Pos, in_bounds ROWS COLUMNS p.1 p.2 → (env p).fill_level = 0) :
    simulation_run ROWS COLUMNS ⟨env, []⟩ = some ⟨env, []⟩ := by
  rw [simulation_run_eq]
  obtain ⟨s', h1, h2⟩ := foldlM_process_cell ROWS COLUMNS (fun s => s = ⟨env, []⟩) _
    (fun p hp => (mem_cell_order _ _ p).1 hp)
    (fun p hp s s' hs hr => by
      subst hs
      rcases hr with ⟨_, rfl⟩ | ⟨ha, _⟩
      · rfl
      · exfalso
        have hf := h p ((mem_cell_order _ _ p).1 hp)
        have h0 : (env p).fill_level > 0 := ha.2
        rw [hf] at h0
        exact lt_irrefl _ h0)
    ⟨env, []⟩ rfl
  rw [h1, h2]

/-! ## Water falls by at most one row per step -/

theorem cell_order_rows_descend (ROWS COLUMNS : Nat) :
    (cell_order ROWS COLUMNS).Pairwise (fun a b => b.1 ≤ a.1) := by
  unfold cell_order
  rw [List.pairwise_flatMap]
  constructor
  · intro i _
    rw [List.pairwise_map]
    exact List.pairwise_of_forall (fun _ _ => le_refl _)
  · unfold row_indices
    rw [List.pairwise_map, List.pairwise_reverse]
    refine (List.pairwise_lt_range ROWS).imp ?_
    intro a b hab x hx y hy
    simp only [List.mem_map] at hx hy
    obtain ⟨_, _, rfl⟩ := hx
    obtain ⟨_, _, rfl⟩ := hy
    simp only [Int.ofNat_eq_coe]
    omega

/-- Visiting cells in an order of descending rows from a state in which the
rows from `k` on that are still to be visited hold no water leaves the rows
from `k + 1` on as they are. -/
theorem foldlM_rows_below (ROWS COLUMNS : Nat) (env : Environment) (k : Int) (l : List Pos)
    (hl : ∀ p ∈ l, in_bounds ROWS COLUMNS p.1 p.2)
    (hsorted : l.Pairwise (fun a b => b.1 ≤ a.1)) (s : Sim)
    (hempty : ∀ p ∈ l, k ≤ p.1 → (s.cells p).fill_level = 0)
    (hsame : ∀ p : Pos, k + 1 ≤ p.1 → s.cells p = env p) :
    ∃ s', l.foldlM (fun s p => process_cell ROWS COLUMNS p.1 p.2 s) s = some s'
      ∧ ∀ p : Pos, k + 1 ≤ p.1 → s'.cells p = env p := by
  induction l generalizing s with
  | nil => exact ⟨s, rfl, hsame⟩
  | cons q l ih =>
    have hq := hl q (List.mem_cons_self _ _)
    have hl' : ∀ p ∈ l, in_bounds ROWS COLUMNS p.1 p.2 :=
      fun p hp => hl p (List.mem_cons_of_mem _ hp)
    rw [List.pairwise_cons] at hsorted
    by_cases hk : k ≤ q.1
    · -- the cell holds no water and is skipped
      have hidle : process_cell ROWS COLUMNS q.1 q.2 s = some s := by
        refine process_cell_idle ROWS COLUMNS hq (fun ha => ?_)
        have h0 : (s.cells q).fill_level > 0 := ha.2
        rw [hempty q (List.mem_cons_self _ _) hk] at h0
        exact lt_irrefl _ h0
      obtain ⟨s', h1, h2⟩ := ih hl' hsorted.2 s
        (fun p hp => hempty p (List.mem_cons_of_mem _ hp)) hsame
      refine ⟨s', ?_, h2⟩
      simp only [List.foldlM_cons, Option.bind_eq_bind]
      rw [hidle]; exact h1
    · -- this cell and all later ones lie above row k
      have habove : ∀ p ∈ q :: l, p.1 < k := by
        intro p hp
        rcases List.mem_cons.1 hp with rfl | hp
        · omega
        · have := hsorted.1 p hp; omega
      refine foldlM_process_cell ROWS COLUMNS
        (fun s => ∀ p : Pos, k + 1 ≤ p.1 → s.cells p = env p) (q :: l) hl
        (fun r hr s s' hs hrun p hp => ?_) s hsame
      have hr' := habove r hr
      rcases hrun with ⟨_, rfl⟩ | ⟨_, s'', hreach, rfl⟩
      · exact hs p hp
      · rw [damp_cells_other _ (fun e => by rw [e] at hp; omega)]
        refine Reach.induction (fun u => u.cells p = env p) (fun u u' hm hu => ?_) hreach
          (hs p hp)
        obtain ⟨dst, a, dvy, dvx, hf⟩ := hm
        have hnear := hf.near
        rw [hf.cells_other (fun e => by rw [e] at hp; omega)
          (fun e => by rw [e] at hp; omega)]
        exact hu

/-! ## The pressure stage -/

/-- The loop body for a cell that passes the guard, with the pressure stage
named. -/
theorem process_cell_stages (ROWS COLUMNS : Nat) {i j : Int} {s : Sim}
    (hin : in_bounds ROWS COLUMNS i j) (h : active (s.cells (i, j))) :
    process_cell ROWS COLUMNS i j s
      = (vertical_pass ROWS COLUMNS i j s).bind fun s1 =>
          ([-1, 1].foldlM (fun s dx => horizontal_pass ROWS COLUMNS i j dx s) s1).bind fun s2 =>
            (pressure_diffusion ROWS COLUMNS i j s2).bind fun s3 => some (s3.damp (i, j)) :=
  process_cell_active ROWS COLUMNS hin h

theorem pressure_flow_of_low_fill {f : ℚ} (h : f < 0.5) (s n : ℚ) :
    pressure_flow (min (f - 0.5) MAX_PRESSURE) s n ≤ MIN_FLOW :=
  pressure_flow_small (by norm_num at h ⊢; linarith) s n

/-! ## The exact effect of each pass -/

theorem shift_nothing (s : Sim) (src dst : Pos) : Shift s s src dst 0 0 0 :=
  { fill := fun p => by simp
    velocity_y := fun p => by simp
    velocity_x := fun p => by simp
    type := fun _ => rfl }

theorem shift_of_cells {s s' : Sim} {src dst : Pos} {a dvy dvx : ℚ} (hne : dst ≠ src)
    (h : s'.cells = Function.update
      (Function.update s.cells src
        { s.cells src with fill_level := (s.cells src).fill_level - a })
      dst { s.cells dst with
            fill_level := (s.cells dst).fill_level + a
            velocity_y := (s.cells dst).velocity_y + dvy
            velocity_x := (s.cells dst).velocity_x + dvx }) :
    Shift s s' src dst a dvy dvx := by
  constructor
  all_goals
    intro p
    rw [h]
    by_cases hd : p = dst
    · subst hd; simp [hne]
    · by_cases hs : p = src
      · subst hs; simp [Function.update_noteq hd, hd]
      · simp [Function.update_noteq hd, Function.update_noteq hs, hd, hs]

theorem vertical_pass_outcome (ROWS COLUMNS : Nat) (i j : Int) (s : Sim) (d : Pos)
    (hd : d = (i + 1, j)) (hin : in_bounds ROWS COLUMNS i j) :
    ∃ s', vertical_pass ROWS COLUMNS i j s = some s'
      ∧ Shift s s' (i, j) d (vertical_amount ROWS COLUMNS s (i, j) d)
          (vertical_amount ROWS COLUMNS s (i, j) d) 0 := by
  subst hd
  have hne : ((i + 1, j) : Pos) ≠ (i, j) := by simp
  unfold vertical_amount
  by_cases hb : in_bounds ROWS COLUMNS (i + 1) j
  · by_cases hw : (s.cells (i + 1, j)).type = WATER_TYPE
    · by_cases hr : (s.cells (i + 1, j)).fill_level < 1.0
      · by_cases hf : vertical_flow (s.cells (i, j)).fill_level
            (s.cells (i + 1, j)).fill_level > MIN_FLOW
        · rw [if_pos ⟨hb, hw, hr, hf⟩]
          exact ⟨_, vertical_pass_move ROWS COLUMNS hb hw hr hf,
            shift_of_cells hne (transfer_add_velocity_y_cells _ _ _ _ _ hne)⟩
        · rw [if_neg (fun h => hf h.2.2.2)]
          exact ⟨s, vertical_pass_small ROWS COLUMNS hb (not_lt.1 hf), shift_nothing _ _ _⟩
      · rw [if_neg (fun h => hr h.2.2.1)]
        exact ⟨s, vertical_pass_blocked ROWS COLUMNS hb (fun h => hr h.2), shift_nothing _ _ _⟩
    · rw [if_neg (fun h => hw h.2.1)]
      exact ⟨s, vertical_pass_blocked ROWS COLUMNS hb (fun h => hw h.1), shift_nothing _ _ _⟩
  · rw [if_neg (fun h => hb h.1)]
    refine ⟨s, vertical_pass_last_row ROWS COLUMNS ?_, shift_nothing _ _ _⟩
    unfold in_bounds at hb hin
    omega

theorem horizontal_pass_outcome (ROWS COLUMNS : Nat) (i j dx : Int) (s : Sim) (d : Pos)
    (hd : d = (i, j + dx)) (hin : in_bounds ROWS COLUMNS i j) (hdx : dx ≠ 0) :
    ∃ s', horizontal_pass ROWS COLUMNS i j dx s = some s'
      ∧ Shift s s' (i, j) d (horizontal_amount ROWS COLUMNS s (i, j) d) 0
          (horizontal_amount ROWS COLUMNS s (i, j) d * (if dx > 0 then 1 else -1)) := by
  subst hd
  have hne : ((i, j + dx) : Pos) ≠ (i, j) := by
    simp only [ne_eq, Prod.mk.injEq, true_and]; omega
  unfold horizontal_amount
  by_cases hb : in_bounds ROWS COLUMNS i (j + dx)
  · by_cases hw : (s.cells (i, j + dx)).type = WATER_TYPE
    · by_cases hr : (s.cells (i, j + dx)).fill_level < (s.cells (i, j)).fill_level
      · by_cases hf : horizontal_flow (s.cells (i, j)).fill_level
            (s.cells (i, j + dx)).fill_level > MIN_FLOW
        · rw [if_pos ⟨hb, hw, hr, hf⟩]
          exact ⟨_, horizontal_pass_move ROWS COLUMNS hb hw hr hf,
            shift_of_cells hne (transfer_add_velocity_x_cells _ _ _ _ _ hne)⟩
        · rw [if_neg (fun h => hf h.2.2.2), zero_mul]
          exact ⟨s, horizontal_pass_small ROWS COLUMNS hb (not_lt.1 hf), shift_nothing _ _ _⟩
      · rw [if_neg (fun h => hr h.2.2.1), zero_mul]
        exact ⟨s, horizontal_pass_blocked ROWS COLUMNS hb (fun h => hr h.2),
          shift_nothing _ _ _⟩
    · rw [if_neg (fun h => hw h.2.1), zero_mul]
      exact ⟨s, horizontal_pass_blocked ROWS COLUMNS hb (fun h => hw h.1), shift_nothing _ _ _⟩
  · rw [if_neg (fun h => hb h.1), zero_mul]
    refine ⟨s, horizontal_pass_edge ROWS COLUMNS ?_, shift_nothing _ _ _⟩
    unfold in_bounds at hb hin
    omega

theorem pressure_pass_outcome (ROWS COLUMNS : Nat) (pressure : ℚ) (i j dy dx : Int) (s : Sim)
    (d : Pos) (hd : d = (i + dy, j + dx)) :
    ∃ s', pressure_pass ROWS COLUMNS pressure i j dy dx s = some s'
      ∧ Shift s s' (i, j) d (pressure_amount ROWS COLUMNS pressure s (i, j) d) 0 0 := by
  subst hd
  unfold pressure_amount
  by_cases hne : ((i + dy, j + dx) : Pos) ≠ (i, j)
  · have h0 : ¬ (dy = 0 ∧ dx = 0) := by
      rintro ⟨rfl, rfl⟩
      exact hne (by simp)
    by_cases hb : in_bounds ROWS COLUMNS (i + dy) (j + dx)
    · by_cases hw : (s.cells (i + dy, j + dx)).type = WATER_TYPE
      · by_cases hr : (s.cells (i + dy, j + dx)).fill_level < (s.cells (i, j)).fill_level
        · by_cases hf : pressure_flow pressure (s.cells (i, j)).fill_level
              (s.cells (i + dy, j + dx)).fill_level > MIN_FLOW
          · rw [if_pos ⟨hb, hne, hw, hr, hf⟩]
            exact ⟨_, pressure_pass_move ROWS COLUMNS hb h0 hw hr hf,
              shift_of_cells hne (transfer_cells_zero _ _ _ _ hne)⟩
          · rw [if_neg (fun h => hf h.2.2.2.2)]
            exact ⟨s, pressure_pass_small ROWS COLUMNS hb (not_lt.1 hf), shift_nothing _ _ _⟩
        · rw [if_neg (fun h => hr h.2.2.2.1)]
          exact ⟨s, pressure_pass_blocked ROWS COLUMNS hb (fun h => hr h.2),
            shift_nothing _ _ _⟩
      · rw [if_neg (fun h => hw h.2.2.1)]
        exact ⟨s, pressure_pass_blocked ROWS COLUMNS hb (fun h => hw h.1),
          shift_nothing _ _ _⟩
    · rw [if_neg (fun h => hb h.1)]
      exact ⟨s, pressure_pass_edge ROWS COLUMNS hb, shift_nothing _ _ _⟩
  · rw [if_neg (fun h => hne h.2.1)]
    have h1 : dy = 0 ∧ dx = 0 := by
      simp only [ne_eq, Prod.mk.injEq, not_not] at hne
      omega
    rw [h1.1, h1.2]
    exact ⟨s, pressure_pass_self ROWS COLUMNS, by simpa using shift_nothing s (i, j) (i, j)⟩

/-! ## Rows of cells -/

/-- The loop body on a grid of one row: the two horizontal visits, the two
pressure visits to the left and right neighbours, then damping; there is no
cell above or below. -/
theorem process_cell_one_row (COLUMNS : Nat) {j : Int} {s : Sim}
    (hin : in_bounds 1 COLUMNS 0 j) (h : active (s.cells (0, j))) :
    process_cell 1 COLUMNS 0 j s
      = (horizontal_pass 1 COLUMNS 0 j (-1) s).bind fun s1 =>
          (horizontal_pass 1 COLUMNS 0 j 1 s1).bind fun s2 =>
            (pressure_pass 1 COLUMNS (min ((s2.cells (0, j)).fill_level - 0.5) MAX_PRESSURE)
              0 j 0 (-1) s2).bind fun s3 =>
              (pressure_pass 1 COLUMNS (min ((s2.cells (0, j)).fill_level - 0.5) MAX_PRESSURE)
                0 j 0 1 s3).bind fun s4 => some (s4.damp (0, j)) := by
  have hup : ∀ (pr : ℚ) (dx : Int) (t : Sim),
      pressure_pass 1 COLUMNS pr 0 j (-1) dx t = some t :=
    fun pr dx t => pressure_pass_edge 1 COLUMNS (by unfold in_bounds; omega)
  have hdown : ∀ (pr : ℚ) (dx : Int) (t : Sim),
      pressure_pass 1 COLUMNS pr 0 j 1 dx t = some t :=
    fun pr dx t => pressure_pass_edge 1 COLUMNS (by unfold in_bounds; omega)
  rw [process_cell_stages 1 COLUMNS hin h, vertical_pass_last_row 1 COLUMNS (by decide)]
  unfold pressure_diffusion
  simp only [List.foldlM_cons, List.foldlM_nil, Option.bind_eq_bind, Option.some_bind,
    Option.pure_def, hup, hdown, pressure_pass_self, Option.bind_assoc]

theorem pressure_amount_cases (ROWS COLUMNS : Nat) (pressure : ℚ) (s : Sim) (src dst : Pos) :
    pressure_amount ROWS COLUMNS pressure s src dst = 0
      ∨ (MIN_FLOW < pressure_amount ROWS COLUMNS pressure s src dst
          ∧ pressure_amount ROWS COLUMNS pressure s src dst ≤ pressure * FLOW_RATE) := by
  unfold pressure_amount
  split_ifs with h
  · exact Or.inr ⟨h.2.2.2.2, pressure_flow_le _ _ _⟩
  · exact Or.inl rfl

theorem pressure_amount_nonneg (ROWS COLUMNS : Nat) (pressure : ℚ) (s : Sim) (src dst : Pos) :
    0 ≤ pressure_amount ROWS COLUMNS pressure s src dst := by
  rcases pressure_amount_cases ROWS COLUMNS pressure s src dst with h | h
  · rw [h]
  · exact (min_flow_pos.trans h.1).le

theorem horizontal_flow_into_empty {c : ℚ} (h0 : 0 ≤ c) (h1 : c ≤ 1) :
    horizontal_flow c 0 = c * 0.048 := by
  unfold horizontal_flow
  rw [min_eq_left (show (c - 0) * FLOW_RATE ≤ c by norm_num [FLOW_RATE]; linarith),
    min_eq_left (show (c - 0) * FLOW_RATE ≤ 1.0 - 0 by norm_num [FLOW_RATE]; linarith)]
  norm_num [FLOW_RATE, HORIZONTAL_FLOW_MULTIPLIER]
  ring

/-- One step on a row of two water cells at rest, the left one full and the
right one empty. -/
theorem row_left_full (env : Environment)
    (ht1 : (env (0, 1)).type = WATER_TYPE) (ht0 : (env (0, 0)).type = WATER_TYPE)
    (hf0 : (env (0, 0)).fill_level = 1.0) (hf1 : (env (0, 1)).fill_level = 0)
    (hx0 : (env (0, 0)).velocity_x = 0) (hx1 : (env (0, 1)).velocity_x = 0) :
    ∃ s', simulation_run 1 2 ⟨env, []⟩ = some s'
      ∧ (s'.cells (0, 1)).velocity_x > 0 ∧ (s'.cells (0, 0)).velocity_x = 0 := by
  have hc : cell_order 1 2 = [(0, 0), (0, 1)] := by decide
  have hact : active ((⟨env, []⟩ : Sim).cells (0, 0)) := ⟨ht0, by rw [hf0]; norm_num⟩
  -- the horizontal visit to the right neighbour moves 0.048
  obtain ⟨s2, e2, sh2⟩ := horizontal_pass_outcome 1 2 0 0 1 ⟨env, []⟩ (0, 1) (by norm_num)
    (by decide) (by decide)
  have ha2 : horizontal_amount 1 2 ⟨env, []⟩ (0, 0) (0, 1) = 0.048 := by
    unfold horizontal_amount
    simp only [hf0, hf1, ht1]
    rw [horizontal_flow_into_empty (by norm_num) (by norm_num),
      if_pos ⟨by decide, trivial, by norm_num, by norm_num [MIN_FLOW]⟩]
    norm_num
  rw [ha2] at sh2
  have f20 : (s2.cells (0, 0)).fill_level = 0.952 := by
    rw [sh2.fill (0, 0), if_neg (by decide), if_pos rfl]
    show (env (0, 0)).fill_level + 0 - 0.048 = 0.952
    rw [hf0]; norm_num
  have f21 : (s2.cells (0, 1)).fill_level = 0.048 := by
    rw [sh2.fill (0, 1), if_pos rfl, if_neg (by decide)]
    show (env (0, 1)).fill_level + 0.048 - 0 = 0.048
    rw [hf1]; norm_num
  have x20 : (s2.cells (0, 0)).velocity_x = 0 := by
    rw [sh2.velocity_x (0, 0), if_neg (by decide)]
    show (env (0, 0)).velocity_x + 0 = 0
    rw [hx0]; norm_num
  have x21 : (s2.cells (0, 1)).velocity_x = 0.048 := by
    rw [sh2.velocity_x (0, 1), if_pos rfl]
    show (env (0, 1)).velocity_x + 0.048 * (if (1 : Int) > 0 then 1 else -1) = 0.048
    rw [hx1]; norm_num
  -- the pressure visit to the right neighbour
  obtain ⟨s4, e4, sh4⟩ := pressure_pass_outcome 1 2
    (min ((s2.cells (0, 0)).fill_level - 0.5) MAX_PRESSURE) 0 0 0 1 s2 (0, 1) (by norm_num)
  generalize ha4 : pressure_amount 1 2 (min ((s2.cells (0, 0)).fill_level - 0.5) MAX_PRESSURE)
    s2 (0, 0) (0, 1) = a4 at sh4
  have h40 : 0 ≤ a4 := by rw [← ha4]; exact pressure_amount_nonneg _ _ _ _ _ _
  have h41 : a4 ≤ 0.04 := by
    rcases pressure_amount_cases 1 2 (min ((s2.cells (0, 0)).fill_level - 0.5) MAX_PRESSURE)
      s2 (0, 0) (0, 1) with h | h
    · rw [← ha4, h]; norm_num
    · rw [← ha4]
      have hpr : min ((s2.cells (0, 0)).fill_level - 0.5) MAX_PRESSURE ≤ 0.452 := by
        rw [f20]; exact (min_le_left _ _).trans (by norm_num)
      exact h.2.trans ((mul_le_mul_of_nonneg_right hpr (by norm_num [FLOW_RATE])).trans
        (by norm_num [FLOW_RATE]))
  -- the state after the left cell has been processed
  have e5 : process_cell 1 2 0 0 ⟨env, []⟩ = some (s4.damp (0, 0)) := by
    rw [process_cell_one_row 2 (by decide) hact, horizontal_pass_edge 1 2 (by decide),
      Option.some_bind, e2, Option.some_bind, pressure_pass_edge 1 2 (by decide),
      Option.some_bind, e4, Option.some_bind]
  have f50 : ((s4.damp (0, 0)).cells (0, 0)).fill_level = 0.952 - a4 := by
    rw [damp_fill_level, sh4.fill (0, 0), f20, if_neg (by decide), if_pos rfl]; ring
  have f51 : ((s4.damp (0, 0)).cells (0, 1)).fill_level = 0.048 + a4 := by
    rw [damp_fill_level, sh4.fill (0, 1), f21, if_pos rfl, if_neg (by decide)]; ring
  have x50 : ((s4.damp (0, 0)).cells (0, 0)).velocity_x = 0 := by
    rw [damp_cells_same]
    show (s4.cells (0, 0)).velocity_x * DAMPING = 0
    rw [sh4.velocity_x (0, 0), x20]; norm_num
  have x51 : ((s4.damp (0, 0)).cells (0, 1)).velocity_x = 0.048 := by
    rw [damp_cells_other _ (by decide), sh4.velocity_x (0, 1), x21]; norm_num
  -- the right cell moves nothing
  have e6 := process_cell_row_of_two 1 (Or.inr rfl) (s4.damp (0, 0)) (fun hl => by
    exfalso
    have hl' : ((s4.damp (0, 0)).cells (0, 0)).fill_level
        < ((s4.damp (0, 0)).cells (0, 1)).fill_level := hl
    rw [f50, f51] at hl'
    norm_num at hl' h41
    linarith)
  refine ⟨if active ((s4.damp (0, 0)).cells (0, 1)) then (s4.damp (0, 0)).damp (0, 1)
    else s4.damp (0, 0), ?_, ?_, ?_⟩
  · rw [simulation_run_eq, hc]
    simp only [List.foldlM_cons, List.foldlM_nil, Option.bind_eq_bind]
    rw [e5, Option.some_bind, e6]
    rfl
  · split_ifs
    · rw [damp_cells_same]
      show ((s4.damp (0, 0)).cells (0, 1)).velocity_x * DAMPING > 0
      rw [x51]; norm_num [DAMPING]
    · rw [x51]; norm_num
  · split_ifs
    · rw [damp_cells_other _ (by decide), x50]
    · exact x50

/-- One step on a row of two water cells at rest, the right one full and the
left one empty. -/
theorem row_right_full (env : Environment)
    (ht0 : (env (0, 0)).type = WATER_TYPE) (ht1 : (env (0, 1)).type = WATER_TYPE)
    (hf0 : (env (0, 0)).fill_level = 0) (hf1 : (env (0, 1)).fill_level = 1.0)
    (hx0 : (env (0, 0)).velocity_x = 0) (hx1 : (env (0, 1)).velocity_x = 0) :
    ∃ s', simulation_run 1 2 ⟨env, []⟩ = some s'
      ∧ (s'.cells (0, 0)).velocity_x < 0 ∧ (s'.cells (0, 1)).velocity_x = 0 := by
  have hc : cell_order 1 2 = [(0, 0), (0, 1)] := by decide
  have hidle : process_cell 1 2 0 0 ⟨env, []⟩ = some ⟨env, []⟩ :=
    process_cell_idle 1 2 (by decide) (fun h => by
      have h0 : (env (0, 0)).fill_level > 0 := h.2
      rw [hf0] at h0
      exact lt_irrefl _ h0)
  have hact : active ((⟨env, []⟩ : Sim).cells (0, 1)) := ⟨ht1, by rw [hf1]; norm_num⟩
  -- the horizontal visit to the left neighbour moves 0.048
  obtain ⟨s1, e1, sh1⟩ := horizontal_pass_outcome 1 2 0 1 (-1) ⟨env, []⟩ (0, 0) (by norm_num)
    (by decide) (by decide)
  have ha1 : horizontal_amount 1 2 ⟨env, []⟩ (0, 1) (0, 0) = 0.048 := by
    unfold horizontal_amount
    simp only [hf0, hf1, ht0]
    rw [horizontal_flow_into_empty (by norm_num) (by norm_num),
      if_pos ⟨by decide, trivial, by norm_num, by norm_num [MIN_FLOW]⟩]
    norm_num
  rw [ha1] at sh1
  have x10 : (s1.cells (0, 0)).velocity_x = -0.048 := by
    rw [sh1.velocity_x (0, 0), if_pos rfl]
    show (env (0, 0)).velocity_x + 0.048 * (if (-1 : Int) > 0 then 1 else -1) = -0.048
    rw [hx0]; norm_num
  have x11 : (s1.cells (0, 1)).velocity_x = 0 := by
    rw [sh1.velocity_x (0, 1), if_neg (by decide)]
    show (env (0, 1)).velocity_x + 0 = 0
    rw [hx1]; norm_num
  -- the pressure visit to the left neighbour adds no velocity
  obtain ⟨s3, e3, sh3⟩ := pressure_pass_outcome 1 2
    (min ((s1.cells (0, 1)).fill_level - 0.5) MAX_PRESSURE) 0 1 0 (-1) s1 (0, 0) (by norm_num)
  have e5 : process_cell 1 2 0 1 ⟨env, []⟩ = some (s3.damp (0, 1)) := by
    rw [process_cell_one_row 2 (by decide) hact, e1, Option.some_bind,
      horizontal_pass_edge 1 2 (by decide), Option.some_bind, e3, Option.some_bind,
      pressure_pass_edge 1 2 (by decide), Option.some_bind]
  refine ⟨s3.damp (0, 1), ?_, ?_, ?_⟩
  · rw [simulation_run_eq, hc]
    simp only [List.foldlM_cons, List.foldlM_nil, Option.bind_eq_bind]
    rw [hidle, Option.some_bind, e5]
    rfl
  · rw [damp_cells_other _ (by decide), sh3.velocity_x (0, 0), x10]
    norm_num
  · rw [damp_cells_same]
    show (s3.cells (0, 1)).velocity_x * DAMPING = 0
    rw [sh3.velocity_x (0, 1), x11]
    norm_num

/-! ## Binary64 arithmetic -/

namespace Binary64

/-! ### Rounding -/

theorem round_half_even_int (n : Int) : round_half_even (n : ℚ) = n := by
  unfold round_half_even
  simp

theorem floor_le_round_half_even (q : ℚ) : ⌊q⌋ ≤ round_half_even q := by
  unfold round_half_even
  split_ifs <;> omega

theorem round_half_even_le_floor_succ (q : ℚ) : round_half_even q ≤ ⌊q⌋ + 1 := by
  unfold round_half_even
  split_ifs <;> omega

theorem round_half_even_mono {p q : ℚ} (h : p ≤ q) : round_half_even p ≤ round_half_even q := by
  have hfl : ⌊p⌋ ≤ ⌊q⌋ := Int.floor_mono h
  rcases hfl.lt_or_eq with hlt | heq
  · exact (round_half_even_le_floor_succ p).trans (hlt.trans_le (floor_le_round_half_even q))
  · unfold round_half_even
    rw [heq]
    split_ifs <;> first | omega | (exfalso; linarith)

theorem round_half_even_near (q : ℚ) : |(round_half_even q : ℚ) - q| ≤ 1 / 2 := by
  have h1 := Int.floor_le q
  have h2 := Int.lt_floor_add_one q
  unfold round_half_even
  rw [abs_le]
  split_ifs <;> push_cast <;> constructor <;> linarith

theorem round_half_even_le_of_le_int {q : ℚ} {n : Int} (h : q ≤ n) : round_half_even q ≤ n := by
  have := round_half_even_mono h
  rwa [round_half_even_int] at this

theorem int_le_round_half_even {q : ℚ} {n : Int} (h : (n : ℚ) ≤ q) : n ≤ round_half_even q := by
  have := round_half_even_mono h
  rwa [round_half_even_int] at this

theorem round_half_even_eq_of_near {q : ℚ} {k : Int} (h : |q - k| < 1 / 2) :
    round_half_even q = k := by
  have h1 := round_half_even_near q
  rw [abs_lt] at h
  rw [abs_le] at h1
  have h2 : ((round_half_even q - k : Int) : ℚ) < 1 := by push_cast; linarith
  have h3 : (-1 : ℚ) < ((round_half_even q - k : Int) : ℚ) := by push_cast; linarith
  have h4 : round_half_even q - k < 1 := by exact_mod_cast h2
  have h5 : -1 < round_half_even q - k := by exact_mod_cast h3
  omega

theorem two_zpow_pos (k : Int) : (0 : ℚ) < 2 ^ k := by positivity

theorem two_zpow_mono {a b : Int} (h : a ≤ b) : (2 : ℚ) ^ a ≤ 2 ^ b :=
  zpow_le_zpow_right₀ (by norm_num) h

theorem two_zpow_log_le {x : ℚ} (hx : 0 < x) : (2 : ℚ) ^ Int.log 2 x ≤ x := by
  have := Int.zpow_log_le_self (b := 2) (by norm_num) hx
  simpa using this

theorem lt_two_zpow_log_succ (x : ℚ) : x < (2 : ℚ) ^ (Int.log 2 x + 1) := by
  have := Int.lt_zpow_succ_log_self (b := 2) (by norm_num) x
  simpa using this

theorem log_eq_of_bounds {x : ℚ} {L : Int} (h1 : (2 : ℚ) ^ L ≤ x) (h2 : x < 2 ^ (L + 1)) :
    Int.log 2 x = L := by
  have hx : 0 < x := (two_zpow_pos L).trans_le h1
  have a1 : L ≤ Int.log 2 x :=
    (Int.zpow_le_iff_le_log (b := 2) (by norm_num) hx).1 (by simpa using h1)
  have a2 : Int.log 2 x < L + 1 :=
    (Int.lt_zpow_iff_log_lt (b := 2) (by norm_num) hx).1 (by simpa using h2)
  omega

theorem ulp_exponent_of_pos {x : ℚ} (hx : 0 < x) :
    ulp_exponent x = max (Int.log 2 x - 52) (-1074) := by
  unfold ulp_exponent
  rw [abs_of_pos hx]

theorem ulp_exponent_neg (x : ℚ) : ulp_exponent (-x) = ulp_exponent x := by
  unfold ulp_exponent
  rw [abs_neg]

theorem two_zpow_nat (k : Nat) : (2 : ℚ) ^ (k : Int) = (((2 ^ k : Nat) : Int) : ℚ) := by
  rw [zpow_natCast]
  push_cast
  rfl

theorem round_magnitude_zero : round_magnitude 0 = 0 := by
  unfold round_magnitude
  rw [zero_div, show (0 : ℚ) = ((0 : Int) : ℚ) by norm_num, round_half_even_int]
  simp

theorem round_magnitude_nonneg {x : ℚ} (hx : 0 ≤ x) : 0 ≤ round_magnitude x := by
  unfold round_magnitude
  have h : (0 : Int) ≤ round_half_even (x / 2 ^ ulp_exponent x) :=
    int_le_round_half_even (by
      have := two_zpow_pos (ulp_exponent x)
      push_cast
      positivity)
  have h' : (0 : ℚ) ≤ (round_half_even (x / 2 ^ ulp_exponent x) : ℚ) := by exact_mod_cast h
  exact mul_nonneg h' (two_zpow_pos _).le

/-- The rounded value of `x` stays below every power of two above `x` that the
format can hold exactly at the exponent of `x`. -/
theorem round_magnitude_le_two_zpow {x : ℚ} {M : Int}
    (hM : ulp_exponent x ≤ M) (h : x ≤ 2 ^ M) : round_magnitude x ≤ 2 ^ M := by
  unfold round_magnitude
  obtain ⟨k, hk⟩ : ∃ k : Nat, M - ulp_exponent x = k := ⟨(M - ulp_exponent x).toNat, by omega⟩
  have hq : x / 2 ^ ulp_exponent x ≤ (((2 ^ k : Nat) : Int) : ℚ) := by
    rw [← two_zpow_nat, ← hk, div_le_iff₀ (two_zpow_pos _), ← zpow_add₀ (by norm_num)]
    simpa using h
  have h1 : round_half_even (x / 2 ^ ulp_exponent x) ≤ ((2 ^ k : Nat) : Int) :=
    round_half_even_le_of_le_int hq
  have h2 : (round_half_even (x / 2 ^ ulp_exponent x) : ℚ) ≤ (((2 ^ k : Nat) : Int) : ℚ) := by
    exact_mod_cast h1
  calc (round_half_even (x / 2 ^ ulp_exponent x) : ℚ) * 2 ^ ulp_exponent x
      ≤ (((2 ^ k : Nat) : Int) : ℚ) * 2 ^ ulp_exponent x :=
        mul_le_mul_of_nonneg_right h2 (two_zpow_pos _).le
    _ = 2 ^ M := by
        rw [← two_zpow_nat, ← hk, ← zpow_add₀ (by norm_num)]
        congr 1
        omega

theorem two_zpow_le_round_magnitude {x : ℚ} {M : Int}
    (hM : ulp_exponent x ≤ M) (h : 2 ^ M ≤ x) : 2 ^ M ≤ round_magnitude x := by
  unfold round_magnitude
  obtain ⟨k, hk⟩ : ∃ k : Nat, M - ulp_exponent x = k := ⟨(M - ulp_exponent x).toNat, by omega⟩
  have hq : (((2 ^ k : Nat) : Int) : ℚ) ≤ x / 2 ^ ulp_exponent x := by
    rw [← two_zpow_nat, ← hk, le_div_iff₀ (two_zpow_pos _), ← zpow_add₀ (by norm_num)]
    simpa using h
  have h1 : ((2 ^ k : Nat) : Int) ≤ round_half_even (x / 2 ^ ulp_exponent x) :=
    int_le_round_half_even hq
  have h2 : (((2 ^ k : Nat) : Int) : ℚ) ≤ (round_half_even (x / 2 ^ ulp_exponent x) : ℚ) := by
    exact_mod_cast h1
  calc (2 : ℚ) ^ M = (((2 ^ k : Nat) : Int) : ℚ) * 2 ^ ulp_exponent x := by
        rw [← two_zpow_nat, ← hk, ← zpow_add₀ (by norm_num)]
        congr 1
        omega
    _ ≤ (round_half_even (x / 2 ^ ulp_exponent x) : ℚ) * 2 ^ ulp_exponent x :=
        mul_le_mul_of_nonneg_right h2 (two_zpow_pos _).le

theorem round_magnitude_mono {x y : ℚ} (hx : 0 ≤ x) (h : x ≤ y) :
    round_magnitude x ≤ round_magnitude y := by
  rcases hx.lt_or_eq with hx | rfl
  · have hy : 0 < y := hx.trans_le h
    have hL : Int.log 2 x ≤ Int.log 2 y := Int.log_mono_right hx h
    have hex := ulp_exponent_of_pos hx
    have hey := ulp_exponent_of_pos hy
    by_cases he : ulp_exponent x = ulp_exponent y
    · unfold round_magnitude
      rw [he]
      have h1 : round_half_even (x / 2 ^ ulp_exponent y)
          ≤ round_half_even (y / 2 ^ ulp_exponent y) :=
        round_half_even_mono (div_le_div_of_nonneg_right h (two_zpow_pos _).le)
      have h2 : (round_half_even (x / 2 ^ ulp_exponent y) : ℚ)
          ≤ (round_half_even (y / 2 ^ ulp_exponent y) : ℚ) := by exact_mod_cast h1
      exact mul_le_mul_of_nonneg_right h2 (two_zpow_pos _).le
    · -- the exponent of `y` is larger: a power of two lies between the two
      have hlt : Int.log 2 x < Int.log 2 y := by omega
      have a1 : round_magnitude x ≤ 2 ^ Int.log 2 y :=
        round_magnitude_le_two_zpow (by omega)
          ((lt_two_zpow_log_succ x).le.trans (two_zpow_mono (by omega)))
      have a2 : (2 : ℚ) ^ Int.log 2 y ≤ round_magnitude y :=
        two_zpow_le_round_magnitude (by omega) (two_zpow_log_le hy)
      exact a1.trans a2
  · rw [round_magnitude_zero]
    exact round_magnitude_nonneg h

theorem to_double_zero : to_double 0 = 0 := by
  unfold to_double
  rw [if_pos le_rfl, round_magnitude_zero]

theorem to_double_of_nonneg {x : ℚ} (hx : 0 ≤ x) : to_double x = round_magnitude x := by
  unfold to_double
  rw [if_pos hx]

theorem to_double_neg (x : ℚ) : to_double (-x) = -to_double x := by
  unfold to_double
  rcases lt_trichotomy x 0 with h | rfl | h
  · rw [if_pos (by linarith), if_neg (by linarith), neg_neg]
  · simp [round_magnitude_zero]
  · rw [if_neg (by linarith), if_pos h.le, neg_neg]

theorem to_double_nonneg {x : ℚ} (hx : 0 ≤ x) : 0 ≤ to_double x := by
  rw [to_double_of_nonneg hx]
  exact round_magnitude_nonneg hx

theorem to_double_nonpos {x : ℚ} (hx : x ≤ 0) : to_double x ≤ 0 := by
  have := to_double_nonneg (neg_nonneg.2 hx)
  rw [to_double_neg] at this
  linarith

/-- Rounding is monotone. -/
theorem to_double_mono {x y : ℚ} (h : x ≤ y) : to_double x ≤ to_double y := by
  by_cases hx : 0 ≤ x
  · rw [to_double_of_nonneg hx, to_double_of_nonneg (hx.trans h)]
    exact round_magnitude_mono hx h
  · push_neg at hx
    by_cases hy : 0 ≤ y
    · exact (to_double_nonpos hx.le).trans (to_double_nonneg hy)
    · push_neg at hy
      have := round_magnitude_mono (neg_nonneg.2 hy.le) (neg_le_neg h)
      unfold to_double
      rw [if_neg (by linarith), if_neg (by linarith)]
      linarith

/-- A number `n * 2 ^ k` with `n < 2 ^ 53` and `k ≥ -1074` is a binary64 number:
rounding leaves it as it is. -/
theorem to_double_of_dyadic (n : Nat) (k : Int) (hn : n < 2 ^ 53) (hk : -1074 ≤ k) :
    to_double ((n : ℚ) * 2 ^ k) = (n : ℚ) * 2 ^ k := by
  rcases Nat.eq_zero_or_pos n with rfl | hpos
  · simp [to_double_zero]
  have hx : (0 : ℚ) < (n : ℚ) * 2 ^ k := mul_pos (by exact_mod_cast hpos) (two_zpow_pos k)
  rw [to_double_of_nonneg hx.le]
  have hlt : (n : ℚ) * 2 ^ k < 2 ^ (53 + k) := by
    rw [zpow_add₀ (by norm_num)]
    exact mul_lt_mul_of_pos_right (by exact_mod_cast hn) (two_zpow_pos k)
  have hL : Int.log 2 ((n : ℚ) * 2 ^ k) < 53 + k :=
    (Int.lt_zpow_iff_log_lt (b := 2) (by norm_num) hx).1 (by simpa using hlt)
  have he : ulp_exponent ((n : ℚ) * 2 ^ k) ≤ k := by
    rw [ulp_exponent_of_pos hx]
    omega
  obtain ⟨d, hd⟩ : ∃ d : Nat, k - ulp_exponent ((n : ℚ) * 2 ^ k) = d :=
    ⟨(k - ulp_exponent ((n : ℚ) * 2 ^ k)).toNat, by omega⟩
  unfold round_magnitude
  generalize ulp_exponent ((n : ℚ) * 2 ^ k) = e at he hd
  have hk' : k = e + d := by omega
  have hq : (n : ℚ) * 2 ^ k / 2 ^ e = (((n * 2 ^ d : Nat) : Int) : ℚ) := by
    rw [hk', zpow_add₀ (by norm_num), zpow_natCast]
    field_simp
    ring
  rw [hq, round_half_even_int, hk', zpow_add₀ (by norm_num), zpow_natCast]
  push_cast
  ring

/-- Evaluation of the rounding of a positive number in the normal range: `L` is
its exponent and `k` the integer nearest to its scaled value. -/
theorem to_double_eq_of_near {x : ℚ} (L k : Int) (hL : -1022 ≤ L)
    (h1 : (2 : ℚ) ^ L ≤ x) (h2 : x < 2 ^ (L + 1)) (hk : |x / 2 ^ (L - 52) - k| < 1 / 2) :
    to_double x = (k : ℚ) * 2 ^ (L - 52) := by
  have hx : 0 < x := (two_zpow_pos L).trans_le h1
  rw [to_double_of_nonneg hx.le]
  unfold round_magnitude
  rw [ulp_exponent_of_pos hx, log_eq_of_bounds h1 h2, max_eq_left (by omega),
    round_half_even_eq_of_near hk]

/-- In the normal range the relative error of rounding is at most `2 ^ -53`. -/
theorem to_double_near {x : ℚ} (hx : (2 : ℚ) ^ (-1022 : Int) ≤ x) :
    |to_double x - x| ≤ x * 2 ^ (-53 : Int) := by
  have hpos : 0 < x := (two_zpow_pos _).trans_le hx
  have hL : -1022 ≤ Int.log 2 x :=
    (Int.zpow_le_iff_le_log (b := 2) (by norm_num) hpos).1 (by simpa using hx)
  rw [to_double_of_nonneg hpos.le]
  unfold round_magnitude
  rw [ulp_exponent_of_pos hpos, max_eq_left (by omega)]
  generalize hLd : Int.log 2 x = L at hL
  have hlow : (2 : ℚ) ^ L ≤ x := by rw [← hLd]; exact two_zpow_log_le hpos
  have he := two_zpow_pos (L - 52)
  have hn := round_half_even_near (x / 2 ^ (L - 52))
  have h3 : (round_half_even (x / 2 ^ (L - 52)) : ℚ) * 2 ^ (L - 52) - x
      = ((round_half_even (x / 2 ^ (L - 52)) : ℚ) - x / 2 ^ (L - 52)) * 2 ^ (L - 52) := by
    field_simp
  rw [h3, abs_mul, abs_of_pos he]
  have h4 : (2 : ℚ) ^ (L - 52) = 2 ^ L * 2 ^ (-52 : Int) := by
    rw [← zpow_add₀ (by norm_num)]; rfl
  calc |(round_half_even (x / 2 ^ (L - 52)) : ℚ) - x / 2 ^ (L - 52)| * 2 ^ (L - 52)
      ≤ 1 / 2 * 2 ^ (L - 52) := mul_le_mul_of_nonneg_right hn he.le
    _ = 2 ^ L * 2 ^ (-53 : Int) := by
        rw [h4]
        norm_num
        ring
    _ ≤ x * 2 ^ (-53 : Int) := mul_le_mul_of_nonneg_right hlow (two_zpow_pos _).le

/-! ### The constants of the program as binary64 numbers -/

theorem MIN_FLOW_eq : MIN_FLOW = 5764607523034235 / 2 ^ 59 := by
  unfold MIN_FLOW
  rw [to_double_eq_of_near (-7) 5764607523034235 (by norm_num) (by norm_num) (by norm_num)
    (by rw [abs_lt]; constructor <;> norm_num)]
  norm_num

theorem FLOW_RATE_eq : FLOW_RATE = 5764607523034235 / 2 ^ 56 := by
  unfold FLOW_RATE
  rw [to_double_eq_of_near (-4) 5764607523034235 (by norm_num) (by norm_num) (by norm_num)
    (by rw [abs_lt]; constructor <;> norm_num)]
  norm_num

theorem HORIZONTAL_FLOW_MULTIPLIER_eq :
    HORIZONTAL_FLOW_MULTIPLIER = 5404319552844595 / 2 ^ 53 := by
  unfold HORIZONTAL_FLOW_MULTIPLIER
  rw [to_double_eq_of_near (-1) 5404319552844595 (by norm_num) (by norm_num) (by norm_num)
    (by rw [abs_lt]; constructor <;> norm_num)]
  norm_num

theorem MAX_PRESSURE_eq : MAX_PRESSURE = 2 := by
  unfold MAX_PRESSURE
  have := to_double_of_dyadic 1 1 (by norm_num) (by norm_num)
  norm_num at this ⊢
  exact this

theorem to_double_one : to_double 1 = 1 := by
  have := to_double_of_dyadic 1 0 (by norm_num) (by norm_num)
  norm_num at this
  exact this

theorem to_double_half : to_double 0.5 = 0.5 := by
  have := to_double_of_dyadic 1 (-1) (by norm_num) (by norm_num)
  norm_num at this ⊢
  exact this

theorem to_double_eighth : to_double 0.125 = 0.125 := by
  have := to_double_of_dyadic 1 (-3) (by norm_num) (by norm_num)
  norm_num at this ⊢
  exact this

/-- An eighth of `FLOW_RATE` is `MIN_FLOW`, exactly. -/
theorem eighth_flow_rate : to_double (0.125 * FLOW_RATE) = MIN_FLOW := by
  rw [FLOW_RATE_eq, MIN_FLOW_eq]
  have := to_double_of_dyadic 5764607523034235 (-59) (by norm_num) (by norm_num)
  norm_num at this ⊢
  exact this

theorem FLOW_RATE_pos : 0 < FLOW_RATE := by
  rw [FLOW_RATE_eq]; norm_num

/-! ### The passes of the binary64 program, case by case -/

theorem b64_transfer_src (e : Environment) {src dst : Pos} (a : ℚ) (hne : dst ≠ src) :
    transfer e src dst a src
      = { e src with fill_level := to_double ((e src).fill_level - a) } := by
  unfold transfer
  simp [Function.update_noteq (Ne.symm hne)]

theorem b64_transfer_dst (e : Environment) {src dst : Pos} (a : ℚ) (hne : dst ≠ src) :
    transfer e src dst a dst
      = { e dst with fill_level := to_double ((e dst).fill_level + a) } := by
  unfold transfer
  simp [Function.update_noteq hne]

theorem b64_transfer_other (e : Environment) {src dst p : Pos} (a : ℚ) (hs : p ≠ src)
    (hd : p ≠ dst) : transfer e src dst a p = e p := by
  unfold transfer
  simp [Function.update_noteq hs, Function.update_noteq hd]

theorem b64_transfer_type (e : Environment) (src dst : Pos) (a : ℚ) (p : Pos) :
    (transfer e src dst a p).type = (e p).type := by
  unfold transfer
  by_cases hd : p = dst
  · subst hd
    by_cases hs : p = src
    · subst hs; simp
    · simp [Function.update_noteq hs]
  · by_cases hs : p = src
    · subst hs; simp [Function.update_noteq hd]
    · simp [Function.update_noteq hs, Function.update_noteq hd]

theorem b64_add_velocity_y_type (e : Environment) (q : Pos) (a : ℚ) (p : Pos) :
    (add_velocity_y e q a p).type = (e p).type := by
  unfold add_velocity_y
  by_cases h : p = q
  · subst h; simp
  · simp [Function.update_noteq h]

theorem b64_add_velocity_x_fill (e : Environment) (q : Pos) (a : ℚ) (p : Pos) :
    (add_velocity_x e q a p).fill_level = (e p).fill_level := by
  unfold add_velocity_x
  by_cases h : p = q
  · subst h; simp
  · simp [Function.update_noteq h]

theorem b64_add_velocity_x_type (e : Environment) (q : Pos) (a : ℚ) (p : Pos) :
    (add_velocity_x e q a p).type = (e p).type := by
  unfold add_velocity_x
  by_cases h : p = q
  · subst h; simp
  · simp [Function.update_noteq h]

theorem b64_damp_fill (e : Environment) (q p : Pos) :
    (damp e q p).fill_level = (e p).fill_level := by
  unfold damp
  by_cases h : p = q
  · subst h; simp [damp_cell]
  · simp [Function.update_noteq h]

theorem b64_process_cell_idle (ROWS COLUMNS : Nat) {i j : Int} {e : Environment}
    (hin : in_bounds ROWS COLUMNS i j) (h : ¬ active (e (i, j))) :
    process_cell ROWS COLUMNS i j e = some e := by
  unfold process_cell
  rw [addr_of_in_bounds hin]
  simp only [Option.bind_eq_bind, Option.some_bind, Option.pure_def]
  have h' : ¬ ((e (i, j)).type = WATER_TYPE ∧ (e (i, j)).fill_level > 0) := h
  rw [if_neg h']

theorem b64_process_cell_active (ROWS COLUMNS : Nat) {i j : Int} {e : Environment}
    (hin : in_bounds ROWS COLUMNS i j) (h : active (e (i, j))) :
    process_cell ROWS COLUMNS i j e
      = (vertical_pass ROWS COLUMNS i j e).bind fun e1 =>
          ([-1, 1].foldlM (fun e dx => horizontal_pass ROWS COLUMNS i j dx e) e1).bind fun e2 =>
            (pressure_diffusion ROWS COLUMNS i j e2).bind fun e3 => some (damp e3 (i, j)) := by
  unfold process_cell
  rw [addr_of_in_bounds hin]
  simp only [Option.bind_eq_bind, Option.some_bind, Option.pure_def]
  have h' : (e (i, j)).type = WATER_TYPE ∧ (e (i, j)).fill_level > 0 := h
  rw [if_pos h']

theorem b64_vertical_pass_last_row (ROWS COLUMNS : Nat) {i j : Int} {e : Environment}
    (h : ¬ i < (ROWS : Int) - 1) : vertical_pass ROWS COLUMNS i j e = some e := by
  unfold vertical_pass
  rw [if_neg h]
  rfl

theorem b64_horizontal_pass_edge (ROWS COLUMNS : Nat) {i j dx : Int} {e : Environment}
    (h : ¬ (j + dx ≥ 0 ∧ j + dx < (COLUMNS : Int))) :
    horizontal_pass ROWS COLUMNS i j dx e = some e := by
  unfold horizontal_pass
  rw [if_neg h]
  rfl

theorem b64_horizontal_pass_eq (ROWS COLUMNS : Nat) (i j dx : Int) (e : Environment) (d : Pos)
    (hd : d = (i, j + dx)) (hb : in_bounds ROWS COLUMNS i (j + dx)) :
    horizontal_pass ROWS COLUMNS i j dx e
      = some (if (e d).type = WATER_TYPE ∧ (e d).fill_level < (e (i, j)).fill_level
            ∧ horizontal_flow (e (i, j)).fill_level (e d).fill_level > MIN_FLOW then
          add_velocity_x (transfer e (i, j) d
            (horizontal_flow (e (i, j)).fill_level (e d).fill_level)) d
            (to_double (horizontal_flow (e (i, j)).fill_level (e d).fill_level
              * (if dx > 0 then 1 else -1)))
        else e) := by
  subst hd
  have hj : j + dx ≥ 0 ∧ j + dx < (COLUMNS : Int) := by unfold in_bounds at hb; omega
  unfold horizontal_pass
  rw [if_pos hj, addr_of_in_bounds hb]
  simp only [Option.bind_eq_bind, Option.some_bind, Option.pure_def]
  by_cases h1 : (e (i, j + dx)).type = WATER_TYPE
      ∧ (e (i, j + dx)).fill_level < (e (i, j)).fill_level
  · rw [if_pos h1]
    by_cases h2 : horizontal_flow (e (i, j)).fill_level (e (i, j + dx)).fill_level > MIN_FLOW
    · have h3 : (e (i, j + dx)).type = WATER_TYPE
          ∧ (e (i, j + dx)).fill_level < (e (i, j)).fill_level
          ∧ horizontal_flow (e (i, j)).fill_level (e (i, j + dx)).fill_level > MIN_FLOW :=
        ⟨h1.1, h1.2, h2⟩
      rw [if_pos h2, if_pos h3]
    · rw [if_neg h2, if_neg (fun h => h2 h.2.2)]
  · rw [if_neg h1, if_neg (fun h => h1 ⟨h.1, h.2.1⟩)]

theorem b64_pressure_pass_self (ROWS COLUMNS : Nat) {pressure : ℚ} {i j : Int}
    {e : Environment} : pressure_pass ROWS COLUMNS pressure i j 0 0 e = some e := by
  unfold pressure_pass
  rw [if_pos ⟨rfl, rfl⟩]
  rfl

theorem b64_pressure_pass_edge (ROWS COLUMNS : Nat) {pressure : ℚ} {i j dy dx : Int}
    {e : Environment} (hb : ¬ in_bounds ROWS COLUMNS (i + dy) (j + dx)) :
    pressure_pass ROWS COLUMNS pressure i j dy dx e = some e := by
  unfold pressure_pass
  by_cases h0 : dy = 0 ∧ dx = 0
  · rw [if_pos h0]; rfl
  · rw [if_neg h0]
    have h : ¬ (j + dx ≥ 0 ∧ j + dx < (COLUMNS : Int) ∧ i + dy ≥ 0 ∧ i + dy < (ROWS : Int)) := by
      unfold in_bounds at hb; omega
    simp only [if_neg h]
    rfl

theorem b64_pressure_pass_eq (ROWS COLUMNS : Nat) (pressure : ℚ) (i j dy dx : Int)
    (e : Environment) (d : Pos) (hd : d = (i + dy, j + dx))
    (hb : in_bounds ROWS COLUMNS (i + dy) (j + dx)) (h0 : ¬ (dy = 0 ∧ dx = 0)) :
    pressure_pass ROWS COLUMNS pressure i j dy dx e
      = some (if (e d).type = WATER_TYPE ∧ (e d).fill_level < (e (i, j)).fill_level
            ∧ pressure_flow pressure (e (i, j)).fill_level (e d).fill_level > MIN_FLOW then
          transfer e (i, j) d (pressure_flow pressure (e (i, j)).fill_level (e d).fill_level)
        else e) := by
  subst hd
  have h : j + dx ≥ 0 ∧ j + dx < (COLUMNS : Int) ∧ i + dy ≥ 0 ∧ i + dy < (ROWS : Int) := by
    unfold in_bounds at hb; omega
  unfold pressure_pass
  rw [if_neg h0]
  simp only [if_pos h, addr_of_in_bounds hb, Option.bind_eq_bind, Option.some_bind,
    Option.pure_def]
  by_cases h1 : (e (i + dy, j + dx)).type = WATER_TYPE
      ∧ (e (i + dy, j + dx)).fill_level < (e (i, j)).fill_level
  · rw [if_pos h1]
    by_cases h2 : pressure_flow pressure (e (i, j)).fill_level (e (i + dy, j + dx)).fill_level
        > MIN_FLOW
    · rw [if_pos h2, if_pos ⟨h1.1, h1.2, h2⟩]
    · rw [if_neg h2, if_neg (fun h => h2 h.2.2)]
  · rw [if_neg h1, if_neg (fun h => h1 ⟨h.1, h.2.1⟩)]

theorem b64_pressure_pass_still (ROWS COLUMNS : Nat) {pressure : ℚ} {i j dy dx : Int}
    {e : Environment}
    (h : in_bounds ROWS COLUMNS (i + dy) (j + dx) → ¬ (dy = 0 ∧ dx = 0) →
      (e (i + dy, j + dx)).type = WATER_TYPE →
      (e (i + dy, j + dx)).fill_level < (e (i, j)).fill_level →
      pressure_flow pressure (e (i, j)).fill_level (e (i + dy, j + dx)).fill_level ≤ MIN_FLOW) :
    pressure_pass ROWS COLUMNS pressure i j dy dx e = some e := by
  by_cases h0 : dy = 0 ∧ dx = 0
  · rw [h0.1, h0.2]; exact b64_pressure_pass_self ROWS COLUMNS
  by_cases hb : in_bounds ROWS COLUMNS (i + dy) (j + dx)
  · rw [b64_pressure_pass_eq ROWS COLUMNS pressure i j dy dx e _ rfl hb h0,
      if_neg (fun hc => absurd hc.2.2 (not_lt.2 (h hb h0 hc.1 hc.2.1)))]
  · exact b64_pressure_pass_edge ROWS COLUMNS hb

/-- The flow of the pressure pass does not pass the threshold when the fill of
the source is at most 0.625. -/
theorem b64_pressure_flow_small {f : ℚ} (h : f ≤ 0.625) (s n : ℚ) :
    pressure_flow (min (to_double (f - 0.5)) MAX_PRESSURE) s n ≤ MIN_FLOW := by
  unfold pressure_flow
  refine ((min_le_left _ _).trans (min_le_left _ _)).trans ?_
  rw [← eighth_flow_rate]
  refine to_double_mono (mul_le_mul_of_nonneg_right ((min_le_left _ _).trans ?_)
    FLOW_RATE_pos.le)
  rw [← to_double_eighth]
  exact to_double_mono (by norm_num at h ⊢; linarith)

theorem b64_pressure_diffusion_still (ROWS COLUMNS : Nat) (i j : Int) (e : Environment)
    (h : (e (i, j)).fill_level ≤ 0.625) :
    pressure_diffusion ROWS COLUMNS i j e = some e := by
  have hp : ∀ dy dx : Int, pressure_pass ROWS COLUMNS
      (min (to_double ((e (i, j)).fill_level - 0.5)) MAX_PRESSURE) i j dy dx e = some e :=
    fun dy dx => b64_pressure_pass_still ROWS COLUMNS
      (fun _ _ _ _ => b64_pressure_flow_small h _ _)
  unfold pressure_diffusion
  simp only [List.foldlM_cons, List.foldlM_nil, Option.bind_eq_bind, Option.some_bind, hp,
    Option.pure_def]

/-! ### A column of two cells in binary64 arithmetic -/

theorem b64_process_cell_still (ROWS COLUMNS : Nat) {i j : Int} {e : Environment}
    (hin : in_bounds ROWS COLUMNS i j)
    (hv : vertical_pass ROWS COLUMNS i j e = some e)
    (hl : horizontal_pass ROWS COLUMNS i j (-1) e = some e)
    (hr : horizontal_pass ROWS COLUMNS i j 1 e = some e)
    (hp : pressure_diffusion ROWS COLUMNS i j e = some e) :
    process_cell ROWS COLUMNS i j e = some (if active (e (i, j)) then damp e (i, j) else e) := by
  by_cases ha : active (e (i, j))
  · rw [b64_process_cell_active ROWS COLUMNS hin ha, hv, if_pos ha]
    simp only [List.foldlM_cons, List.foldlM_nil, Option.bind_eq_bind, Option.some_bind, hl, hr,
      Option.pure_def, hp]
  · rw [b64_process_cell_idle ROWS COLUMNS hin ha, if_neg ha]

/-- In the range of the fills of this program rounding changes a number by less
than one part in `10 ^ 9`. -/
theorem to_double_approx {x : ℚ} (hx : 1 / 1000000 ≤ x) :
    x * (1 - 1 / 10 ^ 9) ≤ to_double x ∧ to_double x ≤ x * (1 + 1 / 10 ^ 9) := by
  have h := to_double_near (x := x) (le_trans (by norm_num) hx)
  rw [abs_le] at h
  have hu : (2 : ℚ) ^ (-53 : Int) ≤ 1 / 10 ^ 9 := by norm_num
  have hx0 : 0 ≤ x := le_trans (by norm_num) hx
  have h3 := mul_le_mul_of_nonneg_left hu hx0
  generalize (2 : ℚ) ^ (-53 : Int) = u at h h3
  obtain ⟨h1, h2⟩ := h
  constructor
  · linarith
  · linarith

theorem FLOW_RATE_bounds : 0.0799999 ≤ FLOW_RATE ∧ FLOW_RATE ≤ 0.0800001 := by
  rw [FLOW_RATE_eq]; constructor <;> norm_num

theorem HORIZONTAL_FLOW_MULTIPLIER_bounds :
    0.5999999 ≤ HORIZONTAL_FLOW_MULTIPLIER ∧ HORIZONTAL_FLOW_MULTIPLIER ≤ 0.6000001 := by
  rw [HORIZONTAL_FLOW_MULTIPLIER_eq]; constructor <;> norm_num

theorem HORIZONTAL_FLOW_MULTIPLIER_pos : 0 < HORIZONTAL_FLOW_MULTIPLIER := by
  rw [HORIZONTAL_FLOW_MULTIPLIER_eq]; norm_num

/-- The flow of the horizontal pass does not decrease when the source holds
more. -/
theorem b64_horizontal_flow_mono {s s' : ℚ} (h : s ≤ s') (n : ℚ) :
    horizontal_flow s n ≤ horizontal_flow s' n := by
  unfold horizontal_flow
  refine to_double_mono (mul_le_mul_of_nonneg_right ?_ HORIZONTAL_FLOW_MULTIPLIER_pos.le)
  refine min_le_min (min_le_min ?_ h) le_rfl
  exact to_double_mono (mul_le_mul_of_nonneg_right (to_double_mono (by linarith))
    FLOW_RATE_pos.le)

/-- The flow of the horizontal pass into an empty neighbour is 0.048 times the
fill of the source, up to rounding. -/
theorem b64_horizontal_flow_into_empty {s : ℚ} (h0 : 1 / 10 ≤ s) (h1 : s ≤ 1) :
    0.04799 * s ≤ horizontal_flow s 0 ∧ horizontal_flow s 0 ≤ 0.04801 * s := by
  unfold horizontal_flow
  rw [sub_zero, sub_zero, show to_double (1.0 : ℚ) = 1 by norm_num [to_double_one],
    FLOW_RATE_eq, HORIZONTAL_FLOW_MULTIPLIER_eq]
  obtain ⟨a1, a2⟩ := to_double_approx (x := s) (by linarith)
  generalize to_double s = x1 at a1 a2 ⊢
  norm_num at a1 a2
  obtain ⟨b1, b2⟩ := to_double_approx (x := x1 * (5764607523034235 / 2 ^ 56))
    (by norm_num; linarith)
  generalize to_double (x1 * (5764607523034235 / 2 ^ 56)) = x2 at b1 b2 ⊢
  norm_num at b1 b2
  have hx2 : x2 ≤ s := by linarith
  have hx2' : x2 ≤ 1 := by linarith
  rw [min_eq_left hx2, min_eq_left hx2']
  obtain ⟨c1, c2⟩ := to_double_approx (x := x2 * (5404319552844595 / 2 ^ 53))
    (by norm_num; linarith)
  generalize to_double (x2 * (5404319552844595 / 2 ^ 53)) = x3 at c1 c2 ⊢
  norm_num at c1 c2 ⊢
  constructor <;> linarith

/-- At the smallest binary64 number above the one nearest to 5/24 the horizontal
flow into an empty neighbour passes the threshold. -/
theorem b64_flow_above_threshold :
    MIN_FLOW < horizontal_flow (1876499844737707 / 2 ^ 53) 0 := by
  have h1 : to_double (1876499844737707 / 2 ^ 53 : ℚ) = 1876499844737707 / 2 ^ 53 := by
    have := to_double_of_dyadic 1876499844737707 (-53) (by norm_num) (by norm_num)
    norm_num at this ⊢
    exact this
  have h2 : to_double (1876499844737707 / 2 ^ 53 * FLOW_RATE) = 4803839602528530 / 2 ^ 58 := by
    rw [FLOW_RATE_eq, to_double_eq_of_near (-6) 4803839602528530 (by norm_num) (by norm_num)
      (by norm_num) (by rw [abs_lt]; constructor <;> norm_num)]
    norm_num
  have h3 : to_double (4803839602528530 / 2 ^ 58 * HORIZONTAL_FLOW_MULTIPLIER)
      = 5764607523034236 / 2 ^ 59 := by
    rw [HORIZONTAL_FLOW_MULTIPLIER_eq, to_double_eq_of_near (-7) 5764607523034236 (by norm_num)
      (by norm_num) (by norm_num) (by rw [abs_lt]; constructor <;> norm_num)]
    norm_num
  unfold horizontal_flow
  rw [sub_zero, sub_zero, show to_double (1.0 : ℚ) = 1 by norm_num [to_double_one], h1, h2,
    min_eq_left (by norm_num), min_eq_left (by norm_num), h3, MIN_FLOW_eq]
  norm_num

/-- At the binary64 number nearest to 5/24 the horizontal flow into an empty
neighbour is exactly `MIN_FLOW`. -/
theorem b64_flow_at_threshold :
    horizontal_flow (7505999378950827 / 2 ^ 55) 0 = MIN_FLOW := by
  have h1 : to_double (7505999378950827 / 2 ^ 55 : ℚ) = 7505999378950827 / 2 ^ 55 := by
    have := to_double_of_dyadic 7505999378950827 (-55) (by norm_num) (by norm_num)
    norm_num at this ⊢
    exact this
  have h2 : to_double (7505999378950827 / 2 ^ 55 * FLOW_RATE) = 4803839602528529 / 2 ^ 58 := by
    rw [FLOW_RATE_eq, to_double_eq_of_near (-6) 4803839602528529 (by norm_num) (by norm_num)
      (by norm_num) (by rw [abs_lt]; constructor <;> norm_num)]
    norm_num
  have h3 : to_double (4803839602528529 / 2 ^ 58 * HORIZONTAL_FLOW_MULTIPLIER)
      = 5764607523034235 / 2 ^ 59 := by
    rw [HORIZONTAL_FLOW_MULTIPLIER_eq, to_double_eq_of_near (-7) 5764607523034235 (by norm_num)
      (by norm_num) (by norm_num) (by rw [abs_lt]; constructor <;> norm_num)]
    norm_num
  unfold horizontal_flow
  rw [sub_zero, sub_zero, show to_double (1.0 : ℚ) = 1 by norm_num [to_double_one], h1, h2,
    min_eq_left (by norm_num), min_eq_left (by norm_num), h3, MIN_FLOW_eq]

theorem half_flow_rate : to_double (0.5 * FLOW_RATE) ≤ 0.0401 := by
  have h : to_double (0.5 * FLOW_RATE) = 5764607523034235 / 2 ^ 57 := by
    rw [FLOW_RATE_eq]
    have := to_double_of_dyadic 5764607523034235 (-57) (by norm_num) (by norm_num)
    norm_num at this ⊢
    exact this
  rw [h]; norm_num

theorem MIN_FLOW_bounds : 0.0099 ≤ MIN_FLOW ∧ MIN_FLOW ≤ 0.0101 := by
  rw [MIN_FLOW_eq]; constructor <;> norm_num

/-- On a grid of one row the pressure pass visits the left and the right
neighbour only. -/
theorem b64_pressure_diffusion_one_row (COLUMNS : Nat) (j : Int) (e : Environment) :
    pressure_diffusion 1 COLUMNS 0 j e
      = (pressure_pass 1 COLUMNS (min (to_double ((e (0, j)).fill_level - 0.5)) MAX_PRESSURE)
          0 j 0 (-1) e).bind fun e1 =>
            pressure_pass 1 COLUMNS (min (to_double ((e (0, j)).fill_level - 0.5)) MAX_PRESSURE)
              0 j 0 1 e1 := by
  have hup : ∀ (p : ℚ) (dx : Int) (e' : Environment),
      pressure_pass 1 COLUMNS p 0 j (-1) dx e' = some e' :=
    fun p dx e' => b64_pressure_pass_edge 1 COLUMNS (by unfold in_bounds; omega)
  have hdown : ∀ (p : ℚ) (dx : Int) (e' : Environment),
      pressure_pass 1 COLUMNS p 0 j 1 dx e' = some e' :=
    fun p dx e' => b64_pressure_pass_edge 1 COLUMNS (by unfold in_bounds; omega)
  have hself : ∀ (p : ℚ) (e' : Environment), pressure_pass 1 COLUMNS p 0 j 0 0 e' = some e' :=
    fun p e' => b64_pressure_pass_self 1 COLUMNS
  unfold pressure_diffusion
  simp only [List.foldlM_cons, List.foldlM_nil, Option.bind_eq_bind, Option.some_bind, hup,
    hdown, hself, Option.pure_def, Option.bind_some]

/-- The pressure stage of the middle cell of a row of three, once the
horizontal pass has moved about `0.048 * m` to the left and at most
`0.04577 * m` to the right: afterwards the left cell still holds more than
the right one. -/
theorem b64_pressure_of_three (e2 : Environment) (m : ℚ)
    (hmlo : 0.2083 ≤ m) (hm1 : m ≤ 1)
    (T2 : (e2 (0, 0)).type = WATER_TYPE)
    (hllo : 0.04798 * m ≤ (e2 (0, 0)).fill_level) (hlhi : (e2 (0, 0)).fill_level ≤ 0.04802 * m)
    (r2a : 0 ≤ (e2 (0, 2)).fill_level) (r2b : (e2 (0, 2)).fill_level ≤ 0.04577 * m)
    (m2a : 0.9 * m ≤ (e2 (0, 1)).fill_level) (m2b : (e2 (0, 1)).fill_level ≤ 0.953 * m) :
    ∃ e4, pressure_diffusion 1 3 0 1 e2 = some e4
      ∧ (e4 (0, 2)).fill_level < (e4 (0, 0)).fill_level
      ∧ (e4 (0, 2)).fill_level ≤ (e4 (0, 1)).fill_level
      ∧ (e4 (0, 2)).fill_level ≤ 0.625 := by
  obtain ⟨hmin1, hmin2⟩ := MIN_FLOW_bounds
  have n01 : ((0, 0) : Pos) ≠ (0, 1) := by decide
  have n20 : ((0, 2) : Pos) ≠ (0, 0) := by decide
  have n02 : ((0, 0) : Pos) ≠ (0, 2) := by decide
  have n21 : ((0, 2) : Pos) ≠ (0, 1) := by decide
  have hpd := b64_pressure_diffusion_one_row 3 1 e2
  generalize hL2 : (e2 (0, 0)).fill_level = l at hllo hlhi
  generalize hM2 : (e2 (0, 1)).fill_level = m2 at m2a m2b hpd
  generalize hR2 : (e2 (0, 2)).fill_level = r2 at r2a r2b
  have hp5 : min (to_double (m2 - 0.5)) MAX_PRESSURE ≤ 0.5 := by
    have h : m2 - 0.5 ≤ 0.5 := by norm_num at m2b hm1 ⊢; linarith
    exact (min_le_left _ _).trans ((to_double_mono h).trans_eq to_double_half)
  generalize min (to_double (m2 - 0.5)) MAX_PRESSURE = p at hpd hp5
  have hfp : to_double (p * FLOW_RATE) ≤ 0.0401 :=
    (to_double_mono (mul_le_mul_of_nonneg_right hp5 FLOW_RATE_pos.le)).trans half_flow_rate
  have hone : (0.5 : ℚ) ≤ to_double (1.0 - l) := by
    have h : (0.5 : ℚ) ≤ 1.0 - l := by norm_num at hlhi hm1 ⊢; linarith
    exact to_double_half.symm.le.trans (to_double_mono h)
  have hpf3 : pressure_flow p m2 l = to_double (p * FLOW_RATE) := by
    have k1 : to_double (p * FLOW_RATE) ≤ m2 := by norm_num at hfp m2a hmlo ⊢; linarith
    have k2 : to_double (p * FLOW_RATE) ≤ to_double (1.0 - l) := by
      norm_num at hfp hone ⊢; linarith
    unfold pressure_flow
    rw [min_eq_left k1, min_eq_left k2]
  have hpf4 : ∀ s n : ℚ, pressure_flow p s n ≤ to_double (p * FLOW_RATE) := fun s n =>
    (min_le_left _ _).trans (min_le_left _ _)
  generalize to_double (p * FLOW_RATE) = fp at hfp hpf3 hpf4
  have e3eq := b64_pressure_pass_eq 1 3 p 0 1 0 (-1) e2 (0, 0) (by norm_num) (by decide)
    (by decide)
  rw [hL2, hM2, hpf3] at e3eq
  norm_num at hmlo hllo hlhi r2b m2a m2b hfp hmin1 hmin2
  by_cases h3 : fp > MIN_FLOW
  · rw [if_pos ⟨T2, by linarith, h3⟩] at e3eq
    generalize he3 : transfer e2 (0, 1) (0, 0) fp = e3 at e3eq
    have L3 : (e3 (0, 0)).fill_level = to_double (l + fp) := by
      rw [← he3, b64_transfer_dst _ _ n01, hL2]
    have M3 : (e3 (0, 1)).fill_level = to_double (m2 - fp) := by
      rw [← he3, b64_transfer_src _ _ n01, hM2]
    have R3 : (e3 (0, 2)).fill_level = r2 := by
      rw [← he3, b64_transfer_other _ _ n21 n20, hR2]
    obtain ⟨l3a, -⟩ := to_double_approx (x := l + fp) (by linarith)
    obtain ⟨m3a, -⟩ := to_double_approx (x := m2 - fp) (by linarith)
    generalize to_double (l + fp) = l3 at L3 l3a
    generalize to_double (m2 - fp) = m3 at M3 m3a
    norm_num at l3a m3a
    have e4eq := b64_pressure_pass_eq 1 3 p 0 1 0 1 e3 (0, 2) (by norm_num) (by decide)
      (by decide)
    rw [R3, M3] at e4eq
    rw [hpd, e3eq, Option.some_bind, e4eq]
    by_cases hc : (e3 (0, 2)).type = WATER_TYPE ∧ r2 < m3 ∧ pressure_flow p m3 r2 > MIN_FLOW
    · rw [if_pos hc]
      have h4 := hpf4 m3 r2
      generalize pressure_flow p m3 r2 = f4 at hc h4
      have hf4 : MIN_FLOW < f4 := hc.2.2
      obtain ⟨-, r4b⟩ := to_double_approx (x := r2 + f4) (by linarith)
      obtain ⟨m4a, -⟩ := to_double_approx (x := m3 - f4) (by linarith)
      norm_num at r4b m4a
      refine ⟨_, rfl, ?_, ?_, ?_⟩
      · rw [b64_transfer_dst _ _ n21, b64_transfer_other _ _ n01 n02, R3, L3]
        show to_double (r2 + f4) < l3
        linarith
      · rw [b64_transfer_dst _ _ n21, b64_transfer_src _ _ n21, R3, M3]
        show to_double (r2 + f4) ≤ to_double (m3 - f4)
        linarith
      · rw [b64_transfer_dst _ _ n21, R3]
        show to_double (r2 + f4) ≤ 0.625
        norm_num
        linarith
    · rw [if_neg hc]
      refine ⟨_, rfl, ?_, ?_, ?_⟩
      · rw [R3, L3]; linarith
      · rw [R3, M3]; linarith
      · rw [R3]; norm_num; linarith
  · have hc3 : ¬ ((e2 (0, 0)).type = WATER_TYPE ∧ l < m2 ∧ fp > MIN_FLOW) := fun h => h3 h.2.2
    rw [if_neg hc3] at e3eq
    have e4eq := b64_pressure_pass_eq 1 3 p 0 1 0 1 e2 (0, 2) (by norm_num) (by decide)
      (by decide)
    have hc4 : ¬ ((e2 (0, 2)).type = WATER_TYPE
        ∧ (e2 (0, 2)).fill_level < (e2 (0, 1)).fill_level
        ∧ pressure_flow p (e2 (0, 1)).fill_level (e2 (0, 2)).fill_level > MIN_FLOW) :=
      fun h => h3 (lt_of_lt_of_le h.2.2 (hpf4 _ _))
    rw [if_neg hc4] at e4eq
    rw [hpd, e3eq, Option.some_bind, e4eq]
    refine ⟨_, rfl, ?_, ?_, ?_⟩
    · rw [hR2, hL2]; linarith
    · rw [hR2, hM2]; linarith
    · rw [hR2]; norm_num; linarith


/-- The loop body of the middle cell of a row of three whose outer cells are
empty, when the middle cell holds at least the smallest binary64 number above
the one nearest to 5/24: afterwards the left cell holds more than the right
one, and the right cell holds no more than the middle one. -/
theorem b64_middle_of_three (env : Environment)
    (ht0 : (env (0, 0)).type = WATER_TYPE) (ht1 : (env (0, 1)).type = WATER_TYPE)
    (hf0 : (env (0, 0)).fill_level = 0) (hf2 : (env (0, 2)).fill_level = 0)
    (hm0 : 1876499844737707 / 2 ^ 53 ≤ (env (0, 1)).fill_level)
    (hm1 : (env (0, 1)).fill_level ≤ 1) :
    ∃ e5, process_cell 1 3 0 1 env = some e5
      ∧ (e5 (0, 2)).fill_level < (e5 (0, 0)).fill_level
      ∧ (e5 (0, 2)).fill_level ≤ (e5 (0, 1)).fill_level
      ∧ (e5 (0, 2)).fill_level ≤ 0.625 := by
  generalize hm : (env (0, 1)).fill_level = m at hm0 hm1
  have hmlo : 0.2083 ≤ m := le_trans (by norm_num) hm0
  have hact : active (env (0, 1)) := ⟨ht1, by rw [hm]; linarith⟩
  have hthr : horizontal_flow m 0 > MIN_FLOW :=
    lt_of_lt_of_le b64_flow_above_threshold (b64_horizontal_flow_mono hm0 0)
  obtain ⟨hfl, hfu⟩ := b64_horizontal_flow_into_empty (s := m) (by linarith) hm1
  obtain ⟨hmin1, hmin2⟩ := MIN_FLOW_bounds
  have n10 : ((0, 1) : Pos) ≠ (0, 0) := by decide
  have n01 : ((0, 0) : Pos) ≠ (0, 1) := by decide
  have n20 : ((0, 2) : Pos) ≠ (0, 0) := by decide
  have n02 : ((0, 0) : Pos) ≠ (0, 2) := by decide
  have n21 : ((0, 2) : Pos) ≠ (0, 1) := by decide
  have n12 : ((0, 1) : Pos) ≠ (0, 2) := by decide
  -- the horizontal visit to the left neighbour moves `f1`
  have e1eq := b64_horizontal_pass_eq 1 3 0 1 (-1) env (0, 0) (by norm_num) (by decide)
  rw [hf0, hm, if_pos ⟨ht0, by linarith, hthr⟩] at e1eq
  generalize horizontal_flow m 0 = f1 at hthr hfl hfu e1eq
  generalize hed : to_double (f1 * (if (-1 : Int) > 0 then 1 else -1)) = dv at e1eq
  generalize he1 : add_velocity_x (transfer env (0, 1) (0, 0) f1) (0, 0) dv = e1 at e1eq
  have L1 : (e1 (0, 0)).fill_level = to_double (0 + f1) := by
    rw [← he1, b64_add_velocity_x_fill, b64_transfer_dst _ _ n01, hf0]
  have M1 : (e1 (0, 1)).fill_level = to_double (m - f1) := by
    rw [← he1, b64_add_velocity_x_fill, b64_transfer_src _ _ n01, hm]
  have R1 : (e1 (0, 2)).fill_level = 0 := by
    rw [← he1, b64_add_velocity_x_fill, b64_transfer_other _ _ n21 n20, hf2]
  have T1 : (e1 (0, 0)).type = WATER_TYPE := by
    rw [← he1, b64_add_velocity_x_type, b64_transfer_type, ht0]
  obtain ⟨l1a, l1b⟩ := to_double_approx (x := 0 + f1) (by norm_num at hfl hmlo ⊢; linarith)
  obtain ⟨m1a, m1b⟩ := to_double_approx (x := m - f1) (by norm_num at hfu hmlo ⊢; linarith)
  generalize to_double (0 + f1) = l at L1 l1a l1b
  generalize to_double (m - f1) = m1 at M1 m1a m1b
  norm_num at l1a l1b m1a m1b hfl hfu hmlo hmin1 hmin2
  have hm1lo : 0.95 * m ≤ m1 := by norm_num; linarith
  have hm1hi : m1 ≤ 0.953 * m := by norm_num; linarith
  have hllo : 0.04798 * m ≤ l := by norm_num; linarith
  have hlhi : l ≤ 0.04802 * m := by norm_num; linarith
  norm_num at hm1lo hm1hi hllo hlhi
  -- the horizontal visit to the right neighbour, from the reduced fill
  obtain ⟨e2, he2, L2, T2, r2a, r2b, m2a, m2b⟩ : ∃ e2, horizontal_pass 1 3 0 1 1 e1 = some e2
      ∧ (e2 (0, 0)).fill_level = l ∧ (e2 (0, 0)).type = WATER_TYPE
      ∧ 0 ≤ (e2 (0, 2)).fill_level ∧ (e2 (0, 2)).fill_level ≤ 0.04577 * m
      ∧ 0.9 * m ≤ (e2 (0, 1)).fill_level ∧ (e2 (0, 1)).fill_level ≤ m1 := by
    have e2eq := b64_horizontal_pass_eq 1 3 0 1 1 e1 (0, 2) (by norm_num) (by decide)
    rw [R1, M1] at e2eq
    by_cases hc : (e1 (0, 2)).type = WATER_TYPE ∧ (0 : ℚ) < m1 ∧ horizontal_flow m1 0 > MIN_FLOW
    · rw [if_pos hc] at e2eq
      obtain ⟨g1, g2⟩ := b64_horizontal_flow_into_empty (s := m1) (by linarith) (by linarith)
      generalize horizontal_flow m1 0 = f2 at hc e2eq g1 g2
      obtain ⟨a1, a2⟩ := to_double_approx (x := 0 + f2) (by norm_num at g1 ⊢; linarith)
      obtain ⟨b1, b2⟩ := to_double_approx (x := m1 - f2) (by norm_num at g2 ⊢; linarith)
      norm_num at a1 a2 b1 b2 g1 g2
      refine ⟨_, e2eq, ?_, ?_, ?_, ?_, ?_, ?_⟩
      · rw [b64_add_velocity_x_fill, b64_transfer_other _ _ n01 n02, L1]
      · rw [b64_add_velocity_x_type, b64_transfer_type, T1]
      · rw [b64_add_velocity_x_fill, b64_transfer_dst _ _ n21, R1]
        exact to_double_nonneg (by linarith)
      · rw [b64_add_velocity_x_fill, b64_transfer_dst _ _ n21, R1]
        norm_num; linarith
      · rw [b64_add_velocity_x_fill, b64_transfer_src _ _ n21, M1]
        norm_num; linarith
      · rw [b64_add_velocity_x_fill, b64_transfer_src _ _ n21, M1]
        linarith
    · rw [if_neg hc] at e2eq
      refine ⟨_, e2eq, L1, T1, ?_, ?_, ?_, ?_⟩
      · rw [R1]
      · rw [R1]; norm_num; linarith
      · rw [M1]; norm_num; linarith
      · rw [M1]
  obtain ⟨e4, he4, F1, F2, F3⟩ := b64_pressure_of_three e2 m (by norm_num; linarith) hm1 T2
    (by rw [L2]; norm_num; linarith) (by rw [L2]; norm_num; linarith) r2a r2b m2a
    (m2b.trans (by norm_num; linarith))
  refine ⟨damp e4 (0, 1), ?_, ?_, ?_, ?_⟩
  · rw [b64_process_cell_active 1 3 (by decide) hact,
      b64_vertical_pass_last_row 1 3 (by decide)]
    simp only [List.foldlM_cons, List.foldlM_nil, Option.bind_eq_bind, Option.some_bind,
      Option.pure_def, Option.bind_some]
    rw [e1eq, Option.some_bind, he2, Option.some_bind, he4, Option.some_bind]
  · rw [b64_damp_fill, b64_damp_fill]; exact F1
  · rw [b64_damp_fill, b64_damp_fill]; exact F2
  · rw [b64_damp_fill]; exact F3

/-- One step of the binary64 program on a row of three cells whose outer cells
are empty and whose middle cell holds at least the smallest binary64 number
above the one nearest to 5/24: the left cell receives more. -/
theorem b64_row_of_three (env : Environment)
    (ht0 : (env (0, 0)).type = WATER_TYPE) (ht1 : (env (0, 1)).type = WATER_TYPE)
    (hf0 : (env (0, 0)).fill_level = 0) (hf2 : (env (0, 2)).fill_level = 0)
    (hm0 : 1876499844737707 / 2 ^ 53 ≤ (env (0, 1)).fill_level)
    (hm1 : (env (0, 1)).fill_level ≤ 1) :
    ∃ env', simulation_step 1 3 env = some env'
      ∧ (env' (0, 2)).fill_level < (env' (0, 0)).fill_level := by
  have hrows : row_indices 1 = [0] := by decide
  have hcols : column_indices 3 = [0, 1, 2] := by decide
  have hidle : process_cell 1 3 0 0 env = some env :=
    b64_process_cell_idle 1 3 (by decide) (fun h => by
      have h0 : (env (0, 0)).fill_level > 0 := h.2
      rw [hf0] at h0
      exact lt_irrefl _ h0)
  obtain ⟨e5, he5, F1, F2, F3⟩ := b64_middle_of_three env ht0 ht1 hf0 hf2 hm0 hm1
  -- the right cell is not above the middle one and moves nothing
  have hl : horizontal_pass 1 3 0 2 (-1) e5 = some e5 := by
    rw [b64_horizontal_pass_eq 1 3 0 2 (-1) e5 (0, 1) (by norm_num) (by decide),
      if_neg (fun h => absurd h.2.1 (not_lt.2 F2))]
  have e6 : process_cell 1 3 0 2 e5
      = some (if active (e5 (0, 2)) then damp e5 (0, 2) else e5) :=
    b64_process_cell_still 1 3 (by decide) (b64_vertical_pass_last_row 1 3 (by decide)) hl
      (b64_horizontal_pass_edge 1 3 (by decide)) (b64_pressure_diffusion_still 1 3 0 2 e5 F3)
  refine ⟨if active (e5 (0, 2)) then damp e5 (0, 2) else e5, ?_, ?_⟩
  · unfold simulation_step
    rw [hrows, hcols]
    simp only [List.foldlM_cons, List.foldlM_nil, Option.bind_eq_bind, Option.pure_def,
      Option.bind_some]
    rw [hidle, Option.some_bind, he5, Option.some_bind, e6]
  · split_ifs
    · rw [b64_damp_fill, b64_damp_fill]; exact F1
    · exact F1

/-- One step of the binary64 program on a row of three cells whose outer cells
are empty and whose middle cell holds the binary64 number nearest to 5/24:
the flow to either side is exactly `MIN_FLOW`, and no water moves. -/
theorem b64_row_at_threshold (env : Environment)
    (hf0 : (env (0, 0)).fill_level = 0) (hf2 : (env (0, 2)).fill_level = 0)
    (hm : (env (0, 1)).fill_level = 7505999378950827 / 2 ^ 55) :
    ∃ env', simulation_step 1 3 env = some env'
      ∧ ∀ p, (env' p).fill_level = (env p).fill_level := by
  have hrows : row_indices 1 = [0] := by decide
  have hcols : column_indices 3 = [0, 1, 2] := by decide
  have hidle : process_cell 1 3 0 0 env = some env :=
    b64_process_cell_idle 1 3 (by decide) (fun h => by
      have h0 : (env (0, 0)).fill_level > 0 := h.2
      rw [hf0] at h0
      exact lt_irrefl _ h0)
  have hl : horizontal_pass 1 3 0 1 (-1) env = some env := by
    rw [b64_horizontal_pass_eq 1 3 0 1 (-1) env (0, 0) (by norm_num) (by decide), hf0, hm,
      b64_flow_at_threshold, if_neg (fun h => lt_irrefl _ h.2.2)]
  have hr : horizontal_pass 1 3 0 1 1 env = some env := by
    rw [b64_horizontal_pass_eq 1 3 0 1 1 env (0, 2) (by norm_num) (by decide), hf2, hm,
      b64_flow_at_threshold, if_neg (fun h => lt_irrefl _ h.2.2)]
  have e5 : process_cell 1 3 0 1 env
      = some (if active (env (0, 1)) then damp env (0, 1) else env) :=
    b64_process_cell_still 1 3 (by decide) (b64_vertical_pass_last_row 1 3 (by decide)) hl hr
      (b64_pressure_diffusion_still 1 3 0 1 env (by rw [hm]; norm_num))
  have hfill : ∀ p, ((if active (env (0, 1)) then damp env (0, 1) else env) p).fill_level
      = (env p).fill_level := by
    intro p
    split_ifs
    · exact b64_damp_fill _ _ _
    · rfl
  have e6 : process_cell 1 3 0 2 (if active (env (0, 1)) then damp env (0, 1) else env)
      = some (if active (env (0, 1)) then damp env (0, 1) else env) :=
    b64_process_cell_idle 1 3 (by decide) (fun h => by
      have h0 := h.2
      rw [hfill, hf2] at h0
      exact lt_irrefl _ h0)
  refine ⟨_, ?_, hfill⟩
  unfold simulation_step
  rw [hrows, hcols]
  simp only [List.foldlM_cons, List.foldlM_nil, Option.bind_eq_bind, Option.pure_def,
    Option.bind_some]
  rw [hidle, Option.some_bind, e5, Option.some_bind, e6]

/-- The binary64 number nearest to 5/24. -/
theorem to_double_five_over_24 : to_double (5 / 24) = 7505999378950827 / 2 ^ 55 := by
  rw [to_double_eq_of_near (-3) 7505999378950827 (by norm_num) (by norm_num) (by norm_num)
    (by rw [abs_lt]; constructor <;> norm_num)]
  norm_num

/-- A binary64 number above the one nearest to 5/24 is at least the next
binary64 number. -/
theorem b64_next_above_threshold {m : ℚ} (hd : to_double m = m)
    (hm : to_double (5 / 24) < m) : 1876499844737707 / 2 ^ 53 ≤ m := by
  rw [to_double_five_over_24] at hm
  by_contra hlt
  push_neg at hlt
  have hpos : 0 < m := lt_trans (by norm_num) hm
  have h1 : (2 : ℚ) ^ (-3 : Int) ≤ m := le_trans (by norm_num) hm.le
  have h2 : m < (2 : ℚ) ^ (-3 + 1 : Int) := lt_trans hlt (by norm_num)
  rw [to_double_of_nonneg hpos.le] at hd
  unfold round_magnitude at hd
  rw [ulp_exponent_of_pos hpos, log_eq_of_bounds h1 h2, max_eq_left (by norm_num)] at hd
  generalize round_half_even (m / 2 ^ (-3 - 52 : Int)) = k at hd
  rw [← hd] at hm hlt
  have a1 : ((7505999378950827 : Int) : ℚ) < (k : ℚ) := by
    norm_num at hm ⊢
    linarith
  have a2 : (k : ℚ) < ((7505999378950828 : Int) : ℚ) := by
    norm_num at hlt ⊢
    linarith
  have b1 : (7505999378950827 : Int) < k := by exact_mod_cast a1
  have b2 : k < (7505999378950828 : Int) := by exact_mod_cast a2
  omega

end Binary64

/-! ## The claims -/

/-- C1. Mass conservation: `simulation_step` succeeds on every array of every
size, and the sum of `fill_level` over all cells after the step equals the
sum before it; moreover the pair of assignments of a single transfer takes
from the source exactly the amount that it gives to the destination. -/
theorem total_fill_conserved (ROWS COLUMNS : Nat) (environment : Environment) :
    (∃ environment', simulation_step ROWS COLUMNS environment = some environment'
      ∧ total_fill ROWS COLUMNS environment' = total_fill ROWS COLUMNS environment)
    ∧ ∀ (s : Sim) (src dst : Pos) (amount : ℚ), dst ≠ src →
        ((s.transfer src dst amount).cells src).fill_level
            = (s.cells src).fill_level - amount
        ∧ ((s.transfer src dst amount).cells dst).fill_level
            = (s.cells dst).fill_level + amount := by
  constructor
  · obtain ⟨s', h1, h2⟩ := simulation_run_induction ROWS COLUMNS
      (fun s => total_fill ROWS COLUMNS s.cells = total_fill ROWS COLUMNS environment)
      (fun p s s' hm hs => hm.total_fill_eq.trans hs)
      (fun p s _ _ hs => (damp_total_fill ROWS COLUMNS s p).trans hs)
      ⟨environment, []⟩ rfl
    exact ⟨s'.cells, (simulation_step_of_run h1).1, h2⟩
  · intro s src dst amount hne
    rw [transfer_cells s src dst amount hne]
    simp [Function.update_noteq hne.symm]

/-- C2. Solid invariance: a cell whose type is Solid is left exactly as it
was by `simulation_step` (so its `fill_level`, `velocity_x` and `velocity_y`
are unchanged), and no transfer of the step has it as source or as
destination. -/
theorem solid_cell_untouched (ROWS COLUMNS : Nat) (environment : Environment) (p : Pos)
    (hsolid : (environment p).type = SOLID_TYPE) :
    ∃ environment' log, simulation_step ROWS COLUMNS environment = some environment'
      ∧ simulation_log ROWS COLUMNS environment = some log
      ∧ environment' p = environment p
      ∧ ∀ t ∈ log, t.src ≠ p ∧ t.dst ≠ p := by
  have hnw : (environment p).type ≠ WATER_TYPE := by
    rw [hsolid]; decide
  obtain ⟨s', h1, h2, h3⟩ := simulation_run_induction ROWS COLUMNS
    (fun s => s.cells p = environment p ∧ ∀ t ∈ s.log, t.src ≠ p ∧ t.dst ≠ p)
    (fun q s s' hm hs => by
      obtain ⟨dst, a, dvy, dvx, hf⟩ := hm
      have hq : q ≠ p := fun e => hnw (by rw [← hs.1, ← e]; exact hf.src_water)
      have hd : dst ≠ p := fun e => hnw (by rw [← hs.1, ← e]; exact hf.dst_water)
      refine ⟨by rw [hf.cells_other hq.symm hd.symm]; exact hs.1, ?_⟩
      intro t ht
      rw [hf.log_eq, List.mem_append, List.mem_singleton] at ht
      rcases ht with ht | rfl
      · exact hs.2 t ht
      · exact ⟨hq, hd⟩)
    (fun q s _ hw hs => by
      have hq : q ≠ p := fun e => hnw (by rw [← hs.1, ← e]; exact hw)
      exact ⟨by rw [damp_cells_other s hq.symm]; exact hs.1, hs.2⟩)
    ⟨environment, []⟩ ⟨rfl, by simp⟩
  exact ⟨s'.cells, s'.log, (simulation_step_of_run h1).1, (simulation_step_of_run h1).2, h2, h3⟩

/-- C2, witness: a full water cell beside a Solid cell. -/
theorem solid_cell_untouched_witness :
    (water_beside_wall (0, 1)).type = SOLID_TYPE
      ∧ ∃ environment' log, simulation_step 1 2 water_beside_wall = some environment'
        ∧ simulation_log 1 2 water_beside_wall = some log
        ∧ environment' (0, 1) = water_beside_wall (0, 1)
        ∧ ∀ t ∈ log, t.src ≠ (0, 1) ∧ t.dst ≠ (0, 1) :=
  ⟨by decide, solid_cell_untouched 1 2 water_beside_wall (0, 1) (by decide)⟩

/-- C3. Upper bound on fill: when every cell of the array has
`fill_level ≤ 1.0` before the step, every cell has `fill_level ≤ 1.0` after it,
and every transfer of the step moved at most `1.0` minus the fill that its
destination had at that moment. -/
theorem fill_level_le_one (ROWS COLUMNS : Nat) (environment : Environment)
    (hle : ∀ p, in_bounds ROWS COLUMNS p.1 p.2 → (environment p).fill_level ≤ 1.0) :
    ∃ environment' log, simulation_step ROWS COLUMNS environment = some environment'
      ∧ simulation_log ROWS COLUMNS environment = some log
      ∧ (∀ p, in_bounds ROWS COLUMNS p.1 p.2 → (environment' p).fill_level ≤ 1.0)
      ∧ ∀ t ∈ log, t.amount ≤ 1.0 - t.dst_fill := by
  obtain ⟨s', h1, h2, h3⟩ := simulation_run_induction ROWS COLUMNS
    (fun s => (∀ p, in_bounds ROWS COLUMNS p.1 p.2 → (s.cells p).fill_level ≤ 1.0)
      ∧ ∀ t ∈ s.log, t.amount ≤ 1.0 - t.dst_fill)
    (fun q s s' hm hs => by
      obtain ⟨dst, a, dvy, dvx, hf⟩ := hm
      constructor
      · intro p hp
        have h4 := hs.1 p hp
        have h5 := hf.amount_le_room
        have h6 := hf.amount_pos
        rw [hf.fill_level_eq p]
        by_cases hd : p = dst
        · subst hd; rw [if_pos rfl, if_neg hf.ne]; norm_num at *; linarith
        · rw [if_neg hd]; split_ifs <;> norm_num at * <;> linarith
      · intro t ht
        rw [hf.log_eq, List.mem_append, List.mem_singleton] at ht
        rcases ht with ht | rfl
        · exact hs.2 t ht
        · have h5 := hf.amount_le_room
          norm_num at *; linarith)
    (fun q s _ _ hs => ⟨fun p hp => by rw [damp_fill_level]; exact hs.1 p hp, hs.2⟩)
    ⟨environment, []⟩ ⟨hle, by simp⟩
  exact ⟨s'.cells, s'.log, (simulation_step_of_run h1).1, (simulation_step_of_run h1).2, h2, h3⟩

/-- C3, witness: a full water cell beside one of fill 0.99, where the clamp lets
nothing through; and a full water cell over one of fill 0.98, which receives
0.02 and becomes full. -/
theorem fill_level_le_one_witness :
    ((∀ p : Pos, in_bounds 1 2 p.1 p.2 → (full_beside_nearly_full p).fill_level ≤ 1.0)
      ∧ ∃ environment' log, simulation_step 1 2 full_beside_nearly_full = some environment'
        ∧ simulation_log 1 2 full_beside_nearly_full = some log
        ∧ (∀ p, in_bounds 1 2 p.1 p.2 → (environment' p).fill_level ≤ 1.0)
        ∧ ∀ t ∈ log, t.amount ≤ 1.0 - t.dst_fill)
      ∧ (∀ p : Pos, in_bounds 2 1 p.1 p.2 → (full_over_nearly_full p).fill_level ≤ 1.0)
      ∧ ∃ environment' log, simulation_step 2 1 full_over_nearly_full = some environment'
        ∧ simulation_log 2 1 full_over_nearly_full = some log
        ∧ (∀ p, in_bounds 2 1 p.1 p.2 → (environment' p).fill_level ≤ 1.0)
        ∧ ∀ t ∈ log, t.amount ≤ 1.0 - t.dst_fill :=
  have h : ∀ p : Pos, in_bounds 1 2 p.1 p.2 → (full_beside_nearly_full p).fill_level ≤ 1.0 := by
    intro p _
    unfold full_beside_nearly_full still_cell
    split_ifs <;> norm_num
  have h' : ∀ p : Pos, in_bounds 2 1 p.1 p.2 → (full_over_nearly_full p).fill_level ≤ 1.0 := by
    intro p _
    unfold full_over_nearly_full still_cell
    split_ifs <;> norm_num
  ⟨⟨h, fill_level_le_one 1 2 full_beside_nearly_full h⟩,
    h', fill_level_le_one 2 1 full_over_nearly_full h'⟩

/-- C4. Non-negativity of fill: when every cell of the array has
`fill_level ≥ 0` before the step, every cell has `fill_level ≥ 0` after it, and
every transfer of the step moved at most the fill that its source held at
that moment. -/
theorem fill_level_nonneg (ROWS COLUMNS : Nat) (environment : Environment)
    (hge : ∀ p, in_bounds ROWS COLUMNS p.1 p.2 → (environment p).fill_level ≥ 0) :
    ∃ environment' log, simulation_step ROWS COLUMNS environment = some environment'
      ∧ simulation_log ROWS COLUMNS environment = some log
      ∧ (∀ p, in_bounds ROWS COLUMNS p.1 p.2 → (environment' p).fill_level ≥ 0)
      ∧ ∀ t ∈ log, t.amount ≤ t.src_fill := by
  obtain ⟨s', h1, h2, h3⟩ := simulation_run_induction ROWS COLUMNS
    (fun s => (∀ p, in_bounds ROWS COLUMNS p.1 p.2 → (s.cells p).fill_level ≥ 0)
      ∧ ∀ t ∈ s.log, t.amount ≤ t.src_fill)
    (fun q s s' hm hs => by
      obtain ⟨dst, a, dvy, dvx, hf⟩ := hm
      constructor
      · intro p hp
        have h4 := hs.1 p hp
        have h5 := hf.amount_le_src
        have h6 := hf.amount_pos
        rw [hf.fill_level_eq p]
        by_cases hd : p = dst
        · subst hd; rw [if_pos rfl, if_neg hf.ne]; linarith
        · rw [if_neg hd]
          by_cases hq : p = q
          · subst hq; rw [if_pos rfl]; linarith
          · rw [if_neg hq]; linarith
      · intro t ht
        rw [hf.log_eq, List.mem_append, List.mem_singleton] at ht
        rcases ht with ht | rfl
        · exact hs.2 t ht
        · exact hf.amount_le_src)
    (fun q s _ _ hs => ⟨fun p hp => by rw [damp_fill_level]; exact hs.1 p hp, hs.2⟩)
    ⟨environment, []⟩ ⟨hge, by simp⟩
  exact ⟨s'.cells, s'.log, (simulation_step_of_run h1).1, (simulation_step_of_run h1).2, h2, h3⟩

/-- C4, witness: a full water cell beside one of fill 0.99, where nothing moves;
and a full water cell over one of fill 0.98, which gives 0.02 away. -/
theorem fill_level_nonneg_witness :
    ((∀ p : Pos, in_bounds 1 2 p.1 p.2 → (full_beside_nearly_full p).fill_level ≥ 0)
      ∧ ∃ environment' log, simulation_step 1 2 full_beside_nearly_full = some environment'
        ∧ simulation_log 1 2 full_beside_nearly_full = some log
        ∧ (∀ p, in_bounds 1 2 p.1 p.2 → (environment' p).fill_level ≥ 0)
        ∧ ∀ t ∈ log, t.amount ≤ t.src_fill)
      ∧ (∀ p : Pos, in_bounds 2 1 p.1 p.2 → (full_over_nearly_full p).fill_level ≥ 0)
      ∧ ∃ environment' log, simulation_step 2 1 full_over_nearly_full = some environment'
        ∧ simulation_log 2 1 full_over_nearly_full = some log
        ∧ (∀ p, in_bounds 2 1 p.1 p.2 → (environment' p).fill_level ≥ 0)
        ∧ ∀ t ∈ log, t.amount ≤ t.src_fill :=
  have h : ∀ p : Pos, in_bounds 1 2 p.1 p.2 → (full_beside_nearly_full p).fill_level ≥ 0 := by
    intro p _
    unfold full_beside_nearly_full still_cell
    split_ifs <;> norm_num
  have h' : ∀ p : Pos, in_bounds 2 1 p.1 p.2 → (full_over_nearly_full p).fill_level ≥ 0 := by
    intro p _
    unfold full_over_nearly_full still_cell
    split_ifs <;> norm_num
  ⟨⟨h, fill_level_nonneg 1 2 full_beside_nearly_full h⟩,
    h', fill_level_nonneg 2 1 full_over_nearly_full h'⟩

/-- C5, counterexample. On the column of three water cells with fills 1.0, 0, 0
the step does not leave 0.835 in the top cell and 0.165 in the middle cell:
after the gravity pass has moved 0.165, the pressure pass of the same cell
moves another 0.0268 down, which gives 0.8082 and 0.1918. -/
theorem column_fills_not_as_claimed :
    ¬ ∃ environment', simulation_step 3 1 full_over_empty = some environment'
        ∧ (environment' (0, 0)).fill_level = 0.835
        ∧ (environment' (1, 0)).fill_level = 0.165
        ∧ (environment' (2, 0)).fill_level = 0 := by
  obtain ⟨s', h1, h2, _, _⟩ := column_of_three full_over_empty (by decide) (by decide)
    (by simp [-Prod.mk_zero_zero, full_over_empty, still_cell]) (by simp [-Prod.mk_zero_zero, full_over_empty, still_cell])
    (by simp [-Prod.mk_zero_zero, full_over_empty, still_cell])
  rintro ⟨e, he, h3, _, _⟩
  rw [(simulation_step_of_run h1).1] at he
  cases he
  rw [h2] at h3
  norm_num at h3

/-- C5, amended. On a 1-column, 3-row array whose top and middle cells are
water, with top fill 1.0 and the other two fills 0, one `simulation_step`
leaves fill 0.8082 in the top cell, 0.1918 in the middle cell and 0 in the
bottom cell (whatever the velocities and whatever the type of the empty
bottom cell). -/
theorem column_fills_after_step (environment : Environment)
    (htop : (environment (0, 0)).type = WATER_TYPE)
    (hmid : (environment (1, 0)).type = WATER_TYPE)
    (hf0 : (environment (0, 0)).fill_level = 1.0)
    (hf1 : (environment (1, 0)).fill_level = 0)
    (hf2 : (environment (2, 0)).fill_level = 0) :
    ∃ environment', simulation_step 3 1 environment = some environment'
      ∧ (environment' (0, 0)).fill_level = 0.8082
      ∧ (environment' (1, 0)).fill_level = 0.1918
      ∧ (environment' (2, 0)).fill_level = 0 := by
  obtain ⟨s', h1, h2⟩ := column_of_three environment htop hmid hf0 hf1 hf2
  exact ⟨s'.cells, (simulation_step_of_run h1).1, h2⟩

/-- C5, witness: the column of three cells at rest. -/
theorem column_fills_after_step_witness :
    ∃ environment', simulation_step 3 1 full_over_empty = some environment'
      ∧ (environment' (0, 0)).fill_level = 0.8082
      ∧ (environment' (1, 0)).fill_level = 0.1918
      ∧ (environment' (2, 0)).fill_level = 0 :=
  column_fills_after_step full_over_empty (by decide) (by decide)
    (by simp [-Prod.mk_zero_zero, full_over_empty, still_cell]) (by simp [-Prod.mk_zero_zero, full_over_empty, still_cell])
    (by simp [-Prod.mk_zero_zero, full_over_empty, still_cell])

/-- C6, counterexample. A water cell with velocity 1 that holds no water, alone
on a 1x1 array, takes part in no transfer and has no neighbour, yet its
velocity after the step is still 1 and not 0.9: the guard of line 111 skips
the damping of a cell whose fill is 0. -/
theorem empty_cell_not_damped :
    (lone_empty_cell (0, 0)).type = WATER_TYPE
      ∧ (lone_empty_cell (0, 0)).velocity_y ≠ 0
      ∧ (∀ q : Pos, in_bounds 1 1 q.1 q.2 → q ≠ (0, 0) → (lone_empty_cell q).type = SOLID_TYPE)
      ∧ ∃ environment', simulation_step 1 1 lone_empty_cell = some environment'
          ∧ simulation_log 1 1 lone_empty_cell = some []
          ∧ (environment' (0, 0)).velocity_y ≠ (lone_empty_cell (0, 0)).velocity_y * DAMPING
          ∧ (environment' (0, 0)).velocity_x
              ≠ (lone_empty_cell (0, 0)).velocity_x * DAMPING := by
  have hc : cell_order 1 1 = [(0, 0)] := by decide
  have hrun : simulation_run 1 1 ⟨lone_empty_cell, []⟩ = some ⟨lone_empty_cell, []⟩ := by
    rw [simulation_run_eq, hc]
    simp only [List.foldlM_cons, List.foldlM_nil, Option.bind_eq_bind]
    rw [process_cell_idle 1 1 (by decide) (by simp [active, lone_empty_cell])]
    rfl
  refine ⟨rfl, by simp [lone_empty_cell], ?_, lone_empty_cell,
    (simulation_step_of_run hrun).1, (simulation_step_of_run hrun).2, ?_, ?_⟩
  · intro q hq hne
    exfalso
    unfold in_bounds at hq
    exact hne (Prod.ext (by simp only; omega) (by simp only; omega))
  · norm_num [lone_empty_cell, DAMPING]
  · norm_num [lone_empty_cell, DAMPING]

/-- C6, amended. Damping: a water cell of the grid with `fill_level > 0` that
takes part in no transfer of the step has, after `simulation_step`, its
`velocity_y` and `velocity_x` multiplied by 0.9; and a cell all of whose
neighbours in the grid are Solid takes part in no transfer. -/
theorem isolated_cell_damped (ROWS COLUMNS : Nat) (environment : Environment) (p : Pos)
    (hin : in_bounds ROWS COLUMNS p.1 p.2)
    (hwater : (environment p).type = WATER_TYPE)
    (hfill : (environment p).fill_level > 0) :
    ∃ environment' log, simulation_step ROWS COLUMNS environment = some environment'
      ∧ simulation_log ROWS COLUMNS environment = some log
      ∧ ((∀ t ∈ log, t.src ≠ p ∧ t.dst ≠ p) →
          (environment' p).velocity_y = (environment p).velocity_y * DAMPING
            ∧ (environment' p).velocity_x = (environment p).velocity_x * DAMPING)
      ∧ ((∀ q : Pos, in_bounds ROWS COLUMNS q.1 q.2 → q ≠ p →
            q.1 - p.1 ≤ 1 → p.1 - q.1 ≤ 1 → q.2 - p.2 ≤ 1 → p.2 - q.2 ≤ 1 →
            (environment q).type = SOLID_TYPE) →
          ∀ t ∈ log, t.src ≠ p ∧ t.dst ≠ p) := by
  obtain ⟨s', h1, _, h3⟩ := simulation_run_log_facts ROWS COLUMNS environment
  refine ⟨s'.cells, s'.log, (simulation_step_of_run h1).1, (simulation_step_of_run h1).2,
    fun hno => ?_, fun hsolid t ht => ?_⟩
  · have h4 := simulation_run_cells_of_not_involved ROWS COLUMNS p _ s' h1 hno
    rw [if_pos ⟨hin, hwater, hfill⟩] at h4
    rw [h4]
    exact ⟨rfl, rfl⟩
  · obtain ⟨hs, hd, hne, hnear, hws, hwd⟩ := h3 t ht
    have hsw : SOLID_TYPE ≠ WATER_TYPE := by decide
    constructor
    · intro e
      have := hsolid t.dst hd (by rw [← e]; exact hne) (by rw [← e]; exact hnear.1)
        (by rw [← e]; exact hnear.2.1) (by rw [← e]; exact hnear.2.2.1)
        (by rw [← e]; exact hnear.2.2.2)
      exact hsw (by rw [← this, hwd])
    · intro e
      have := hsolid t.src hs (by rw [← e]; exact hne.symm) (by rw [← e]; exact hnear.2.1)
        (by rw [← e]; exact hnear.1) (by rw [← e]; exact hnear.2.2.2)
        (by rw [← e]; exact hnear.2.2.1)
      exact hsw (by rw [← this, hws])

/-- C6, witness: a full, moving water cell beside a Solid cell. -/
theorem isolated_cell_damped_witness :
    in_bounds 1 2 0 0 ∧ (moving_beside_wall (0, 0)).type = WATER_TYPE
      ∧ (moving_beside_wall (0, 0)).fill_level > 0
      ∧ ∃ environment' log, simulation_step 1 2 moving_beside_wall = some environment'
        ∧ simulation_log 1 2 moving_beside_wall = some log
        ∧ ((∀ t ∈ log, t.src ≠ (0, 0) ∧ t.dst ≠ (0, 0)) →
            (environment' (0, 0)).velocity_y = (moving_beside_wall (0, 0)).velocity_y * DAMPING
              ∧ (environment' (0, 0)).velocity_x
                  = (moving_beside_wall (0, 0)).velocity_x * DAMPING)
        ∧ ((∀ q : Pos, in_bounds 1 2 q.1 q.2 → q ≠ (0, 0) →
              q.1 - 0 ≤ 1 → 0 - q.1 ≤ 1 → q.2 - 0 ≤ 1 → 0 - q.2 ≤ 1 →
              (moving_beside_wall q).type = SOLID_TYPE) →
            ∀ t ∈ log, t.src ≠ (0, 0) ∧ t.dst ≠ (0, 0)) :=
  ⟨by decide, by decide, by norm_num [moving_beside_wall],
    isolated_cell_damped 1 2 moving_beside_wall (0, 0) (by decide) (by decide)
      (by norm_num [moving_beside_wall])⟩

/-- C7, counterexample. A single full water cell with velocity 1 satisfies the
premises of the equilibrium property (all water cells have the same fill,
there is no cell below and no neighbour), yet the state after the step is not
the state before it: the velocity has been damped from 1 to 0.9. -/
theorem equilibrium_state_not_fixed :
    (∀ p : Pos, in_bounds 1 1 p.1 p.2 → (lone_moving_cell p).type = WATER_TYPE →
        (lone_moving_cell p).fill_level = 1.0)
      ∧ (∀ i j : Int, in_bounds 1 1 i j → in_bounds 1 1 (i + 1) j →
          (lone_moving_cell (i, j)).type = WATER_TYPE →
          (lone_moving_cell (i + 1, j)).type = SOLID_TYPE
            ∨ (lone_moving_cell (i + 1, j)).fill_level ≥ 1.0)
      ∧ (∀ p q : Pos, in_bounds 1 1 p.1 p.2 → in_bounds 1 1 q.1 q.2 → q ≠ p →
          ¬ (lone_moving_cell q).fill_level < (lone_moving_cell p).fill_level)
      ∧ ∃ environment', simulation_step 1 1 lone_moving_cell = some environment'
          ∧ (environment' (0, 0)).velocity_y = 0.9
          ∧ (lone_moving_cell (0, 0)).velocity_y = 1
          ∧ environment' ≠ lone_moving_cell := by
  have hsame : ∀ p : Pos, in_bounds 1 1 p.1 p.2 → (lone_moving_cell p).type = WATER_TYPE →
      (lone_moving_cell p).fill_level = 1.0 := fun _ _ _ => rfl
  have hbelow : ∀ i j : Int, in_bounds 1 1 i j → in_bounds 1 1 (i + 1) j →
      (lone_moving_cell (i, j)).type = WATER_TYPE →
      (lone_moving_cell (i + 1, j)).type = SOLID_TYPE
        ∨ (lone_moving_cell (i + 1, j)).fill_level ≥ 1.0 :=
    fun _ _ _ _ _ => Or.inr (le_refl _)
  obtain ⟨s', h1, _, h3⟩ := equilibrium_step 1 1 lone_moving_cell 1.0 hsame hbelow
  have h4 : (s'.cells (0, 0)).velocity_y = 0.9 := by
    rw [h3 (0, 0), if_pos ⟨by decide, rfl, by norm_num [lone_moving_cell]⟩]
    norm_num [Cell.damp, lone_moving_cell, DAMPING]
  refine ⟨hsame, hbelow, fun _ _ _ _ _ => lt_irrefl _, s'.cells,
    (simulation_step_of_run h1).1, h4, rfl, fun e => ?_⟩
  rw [e] at h4
  norm_num [lone_moving_cell] at h4

/-- C7, amended. Equilibrium: when all water cells of the grid have the same
fill and every cell directly below a water cell is Solid or has fill ≥ 1.0,
`simulation_step` transfers nothing: applied once and applied twice it leaves
the `fill_level` of every cell as it was, it multiplies the velocities of every
water cell with positive fill by 0.9 per step, and it leaves every other cell
exactly as it was; so the whole state is a fixed point when the water cells
with positive fill are at rest. -/
theorem equilibrium_fill_fixed (ROWS COLUMNS : Nat) (environment : Environment) (f : ℚ)
    (hsame : ∀ p : Pos, in_bounds ROWS COLUMNS p.1 p.2 →
      (environment p).type = WATER_TYPE → (environment p).fill_level = f)
    (hbelow : ∀ i j : Int, in_bounds ROWS COLUMNS i j → in_bounds ROWS COLUMNS (i + 1) j →
      (environment (i, j)).type = WATER_TYPE →
      (environment (i + 1, j)).type = SOLID_TYPE
        ∨ (environment (i + 1, j)).fill_level ≥ 1.0) :
    ∃ once twice, simulation_step ROWS COLUMNS environment = some once
      ∧ simulation_step ROWS COLUMNS once = some twice
      ∧ simulation_log ROWS COLUMNS environment = some []
      ∧ (∀ p, (once p).fill_level = (environment p).fill_level
          ∧ (twice p).fill_level = (environment p).fill_level)
      ∧ (∀ p, once p = if in_bounds ROWS COLUMNS p.1 p.2 ∧ active (environment p)
          then (environment p).damp else environment p)
      ∧ (∀ p, twice p = if in_bounds ROWS COLUMNS p.1 p.2 ∧ active (environment p)
          then (environment p).damp.damp else environment p)
      ∧ ((∀ p : Pos, in_bounds ROWS COLUMNS p.1 p.2 → active (environment p) →
            (environment p).velocity_y = 0 ∧ (environment p).velocity_x = 0) →
          once = environment ∧ twice = environment) := by
  obtain ⟨s1, h1, l1, c1⟩ := equilibrium_step ROWS COLUMNS environment f hsame hbelow
  have hw1 : ∀ p, (s1.cells p).type = (environment p).type
      ∧ (s1.cells p).fill_level = (environment p).fill_level := by
    intro p
    rw [c1 p]
    split_ifs <;> exact ⟨rfl, rfl⟩
  obtain ⟨s2, h2, _, c2⟩ := equilibrium_step ROWS COLUMNS s1.cells f
    (fun p hp hw => by rw [(hw1 p).2]; exact hsame p hp (by rw [← (hw1 p).1]; exact hw))
    (fun i j hi hj hw => by
      rw [(hw1 _).1, (hw1 _).2]
      exact hbelow i j hi hj (by rw [← (hw1 _).1]; exact hw))
  have hact : ∀ p, active (s1.cells p) ↔ active (environment p) := by
    intro p
    unfold active
    rw [(hw1 p).1, (hw1 p).2]
  have c2' : ∀ p, s2.cells p = if in_bounds ROWS COLUMNS p.1 p.2 ∧ active (environment p)
      then (environment p).damp.damp else environment p := by
    intro p
    rw [c2 p]
    simp only [hact p]
    by_cases h : in_bounds ROWS COLUMNS p.1 p.2 ∧ active (environment p)
    · rw [if_pos h, if_pos h, c1 p, if_pos h]
    · rw [if_neg h, if_neg h, c1 p, if_neg h]
  refine ⟨s1.cells, s2.cells, (simulation_step_of_run h1).1, (simulation_step_of_run h2).1,
    ?_, fun p => ⟨(hw1 p).2, ?_⟩, c1, c2', fun hrest => ⟨?_, ?_⟩⟩
  · rw [(simulation_step_of_run h1).2, l1]
  · rw [c2' p]
    split_ifs <;> rfl
  · funext p
    rw [c1 p]
    split_ifs with h
    · exact damp_of_still _ (hrest p h.1 h.2).1 (hrest p h.1 h.2).2
    · rfl
  · funext p
    rw [c2' p]
    split_ifs with h
    · rw [damp_of_still _ (hrest p h.1 h.2).1 (hrest p h.1 h.2).2,
        damp_of_still _ (hrest p h.1 h.2).1 (hrest p h.1 h.2).2]
    · rfl

/-- C7, witness: a full, moving water cell beside a Solid cell. -/
theorem equilibrium_fill_fixed_witness :
    (∀ p : Pos, in_bounds 1 2 p.1 p.2 → (moving_beside_wall p).type = WATER_TYPE →
        (moving_beside_wall p).fill_level = 1.0)
      ∧ (∀ i j : Int, in_bounds 1 2 i j → in_bounds 1 2 (i + 1) j →
          (moving_beside_wall (i, j)).type = WATER_TYPE →
          (moving_beside_wall (i + 1, j)).type = SOLID_TYPE
            ∨ (moving_beside_wall (i + 1, j)).fill_level ≥ 1.0)
      ∧ ∃ once twice, simulation_step 1 2 moving_beside_wall = some once
        ∧ simulation_step 1 2 once = some twice
        ∧ simulation_log 1 2 moving_beside_wall = some []
        ∧ (∀ p, (once p).fill_level = (moving_beside_wall p).fill_level
            ∧ (twice p).fill_level = (moving_beside_wall p).fill_level)
        ∧ (∀ p, once p = if in_bounds 1 2 p.1 p.2 ∧ active (moving_beside_wall p)
            then (moving_beside_wall p).damp else moving_beside_wall p)
        ∧ (∀ p, twice p = if in_bounds 1 2 p.1 p.2 ∧ active (moving_beside_wall p)
            then (moving_beside_wall p).damp.damp else moving_beside_wall p)
        ∧ ((∀ p : Pos, in_bounds 1 2 p.1 p.2 → active (moving_beside_wall p) →
              (moving_beside_wall p).velocity_y = 0 ∧ (moving_beside_wall p).velocity_x = 0) →
            once = moving_beside_wall ∧ twice = moving_beside_wall) :=
  have hsame : ∀ p : Pos, in_bounds 1 2 p.1 p.2 → (moving_beside_wall p).type = WATER_TYPE →
      (moving_beside_wall p).fill_level = 1.0 := by
    intro p _ hw
    unfold moving_beside_wall at hw ⊢
    split_ifs at hw ⊢
    · rfl
    · exact absurd hw (by decide)
  have hbelow : ∀ i j : Int, in_bounds 1 2 i j → in_bounds 1 2 (i + 1) j →
      (moving_beside_wall (i, j)).type = WATER_TYPE →
      (moving_beside_wall (i + 1, j)).type = SOLID_TYPE
        ∨ (moving_beside_wall (i + 1, j)).fill_level ≥ 1.0 := by
    intro i j hi hj
    unfold in_bounds at hi hj
    omega
  ⟨hsame, hbelow, equilibrium_fill_fixed 1 2 moving_beside_wall 1.0 hsame hbelow⟩

/-- C8. Minimum-flow threshold: every transfer of a step moved strictly more
than `MIN_FLOW`; in each of the three passes a computed flow of at most
`MIN_FLOW` returns the state as it was (no fill changed, no velocity added);
and on a 1-row, 2-column array with fills `s > n ≥ 0`, `s ≤ 0.625` and
`(s - n) * 0.08 * 0.6 ≤ 0.01`, in either order, the step performs no transfer
and leaves both fills unchanged. -/
theorem min_flow_threshold (ROWS COLUMNS : Nat) (environment : Environment) :
    (∃ environment' log, simulation_step ROWS COLUMNS environment = some environment'
      ∧ simulation_log ROWS COLUMNS environment = some log
      ∧ ∀ t ∈ log, t.amount > MIN_FLOW)
    ∧ (∀ (s : Sim) (i j : Int), in_bounds ROWS COLUMNS i j →
        vertical_flow (s.cells (i, j)).fill_level (s.cells (i + 1, j)).fill_level ≤ MIN_FLOW →
        vertical_pass ROWS COLUMNS i j s = some s)
    ∧ (∀ (s : Sim) (i j dx : Int), in_bounds ROWS COLUMNS i j →
        horizontal_flow (s.cells (i, j)).fill_level (s.cells (i, j + dx)).fill_level
          ≤ MIN_FLOW →
        horizontal_pass ROWS COLUMNS i j dx s = some s)
    ∧ (∀ (s : Sim) (pressure : ℚ) (i j dy dx : Int), in_bounds ROWS COLUMNS i j →
        pressure_flow pressure (s.cells (i, j)).fill_level
          (s.cells (i + dy, j + dx)).fill_level ≤ MIN_FLOW →
        pressure_pass ROWS COLUMNS pressure i j dy dx s = some s)
    ∧ ∀ (row : Environment) (s n : ℚ), n ≥ 0 → s > n → s ≤ 0.625 →
        (s - n) * 0.08 * 0.6 ≤ 0.01 →
        ((row (0, 0)).fill_level = s ∧ (row (0, 1)).fill_level = n
          ∨ (row (0, 0)).fill_level = n ∧ (row (0, 1)).fill_level = s) →
        ∃ row', simulation_step 1 2 row = some row'
          ∧ simulation_log 1 2 row = some []
          ∧ (row' (0, 0)).fill_level = (row (0, 0)).fill_level
          ∧ (row' (0, 1)).fill_level = (row (0, 1)).fill_level := by
  refine ⟨?_, ?_, ?_, ?_, ?_⟩
  · obtain ⟨s', h1, h2⟩ := simulation_run_induction ROWS COLUMNS
      (fun s => ∀ t ∈ s.log, t.amount > MIN_FLOW)
      (fun q s s' hm hs => by
        obtain ⟨dst, a, dvy, dvx, hf⟩ := hm
        intro t ht
        rw [hf.log_eq, List.mem_append, List.mem_singleton] at ht
        rcases ht with ht | rfl
        · exact hs t ht
        · exact hf.amount_gt)
      (fun q s _ _ hs => hs)
      ⟨environment, []⟩ (by simp)
    exact ⟨s'.cells, s'.log, (simulation_step_of_run h1).1, (simulation_step_of_run h1).2, h2⟩
  · intro s i j hin h
    exact vertical_pass_still ROWS COLUMNS hin (fun _ _ _ => h)
  · intro s i j dx hin h
    exact horizontal_pass_still ROWS COLUMNS hin (fun _ _ _ => h)
  · intro s pressure i j dy dx _ h
    exact pressure_pass_still ROWS COLUMNS (fun _ _ _ _ => h)
  · intro row s n hn hlt hs hd hrow
    have h0 : (row (0, 0)).fill_level ≤ 0.625 := by
      rcases hrow with ⟨h, _⟩ | ⟨h, _⟩ <;> rw [h] <;> linarith
    have h1 : (row (0, 1)).fill_level ≤ 0.625 := by
      rcases hrow with ⟨_, h⟩ | ⟨_, h⟩ <;> rw [h] <;> linarith
    have habs : |(row (0, 0)).fill_level - (row (0, 1)).fill_level| = s - n := by
      rcases hrow with ⟨h, h'⟩ | ⟨h, h'⟩ <;> rw [h, h']
      · exact abs_of_pos (by linarith)
      · rw [abs_sub_comm]; exact abs_of_pos (by linarith)
    obtain ⟨s', e1, e2, e3⟩ := row_of_two_still row h0 h1 (by rw [habs]; exact hd)
    refine ⟨s'.cells, (simulation_step_of_run e1).1, ?_, e3 _, e3 _⟩
    rw [(simulation_step_of_run e1).2, e2]

/-- C8, witness: two fills that differ by exactly 5/24, where the horizontal
flow equals the threshold. -/
theorem min_flow_threshold_witness :
    (11 / 24 - 1 / 4 : ℚ) * 0.08 * 0.6 = 0.01
      ∧ ∃ row', simulation_step 1 2 threshold_row = some row'
        ∧ simulation_log 1 2 threshold_row = some []
        ∧ (row' (0, 0)).fill_level = (threshold_row (0, 0)).fill_level
        ∧ (row' (0, 1)).fill_level = (threshold_row (0, 1)).fill_level :=
  ⟨by norm_num, (min_flow_threshold 1 2 threshold_row).2.2.2.2 threshold_row (11 / 24) (1 / 4)
    (by norm_num) (by norm_num) (by norm_num) (by norm_num)
    (Or.inl ⟨by simp [threshold_row, still_cell], by simp [threshold_row, still_cell]⟩)⟩

/-- C9. Boundary safety: on an array of any size (in particular one with at
least one row and one column) `simulation_step` never forms the address of a
cell outside the array, so it returns a result; on a 1x1 array no transfer is
performed and the fill of the single cell is unchanged. -/
theorem cell_access_in_bounds (ROWS COLUMNS : Nat) (environment : Environment) :
    (∃ environment', simulation_step ROWS COLUMNS environment = some environment')
      ∧ ∀ single : Environment, ∃ environment', simulation_step 1 1 single = some environment'
          ∧ simulation_log 1 1 single = some []
          ∧ (environment' (0, 0)).fill_level = (single (0, 0)).fill_level := by
  constructor
  · obtain ⟨s', h1, _⟩ := simulation_run_induction ROWS COLUMNS (fun _ => True)
      (fun _ _ _ _ _ => trivial) (fun _ _ _ _ _ => trivial) ⟨environment, []⟩ trivial
    exact ⟨s'.cells, (simulation_step_of_run h1).1⟩
  · intro single
    obtain ⟨s', h1, h2, h3⟩ := simulation_run_induction 1 1
      (fun s => s.log = [] ∧ (s.cells (0, 0)).fill_level = (single (0, 0)).fill_level)
      (fun q s s' hm hs => by
        obtain ⟨dst, a, dvy, dvx, hf⟩ := hm
        exfalso
        have h4 := hf.src_in
        have h5 := hf.dst_in
        unfold in_bounds at h4 h5
        exact hf.ne (Prod.ext (by omega) (by omega)))
      (fun q s _ _ hs => ⟨hs.1, by rw [damp_fill_level]; exact hs.2⟩)
      ⟨single, []⟩ ⟨rfl, rfl⟩
    refine ⟨s'.cells, (simulation_step_of_run h1).1, ?_, h3⟩
    rw [(simulation_step_of_run h1).2, h2]

/-- C10. Velocities do not feed back into flow: two arrays of the same size
that agree on the type and the `fill_level` of every cell, whatever their
velocities and stored pressures, have the same `fill_level` in every cell
after `simulation_step`. -/
theorem fill_independent_of_velocity (ROWS COLUMNS : Nat) (a b : Environment)
    (h : ∀ p : Pos, in_bounds ROWS COLUMNS p.1 p.2 →
      (a p).type = (b p).type ∧ (a p).fill_level = (b p).fill_level) :
    ∃ a' b', simulation_step ROWS COLUMNS a = some a'
      ∧ simulation_step ROWS COLUMNS b = some b'
      ∧ ∀ p : Pos, in_bounds ROWS COLUMNS p.1 p.2 →
          (a' p).fill_level = (b' p).fill_level := by
  obtain ⟨s', t', h1, h2, h3⟩ := simulation_run_same_water ROWS COLUMNS ⟨a, []⟩ ⟨b, []⟩ h
  exact ⟨s'.cells, t'.cells, (simulation_step_of_run h1).1, (simulation_step_of_run h2).1,
    fun p hp => (h3 p hp).2⟩

/-- C10, witness: an array at rest and the same array set in motion, for a row
in which nothing moves and for a column down which water falls. -/
theorem fill_independent_of_velocity_witness :
    ((∀ p : Pos, in_bounds 1 2 p.1 p.2 →
        (full_beside_nearly_full p).type = (stirred p).type
          ∧ (full_beside_nearly_full p).fill_level = (stirred p).fill_level)
      ∧ (full_beside_nearly_full (0, 0)).velocity_x ≠ (stirred (0, 0)).velocity_x
      ∧ ∃ a' b', simulation_step 1 2 full_beside_nearly_full = some a'
          ∧ simulation_step 1 2 stirred = some b'
          ∧ ∀ p : Pos, in_bounds 1 2 p.1 p.2 → (a' p).fill_level = (b' p).fill_level)
      ∧ (∀ p : Pos, in_bounds 3 1 p.1 p.2 →
        (full_over_empty p).type = (stirred_column p).type
          ∧ (full_over_empty p).fill_level = (stirred_column p).fill_level)
      ∧ (full_over_empty (0, 0)).velocity_y ≠ (stirred_column (0, 0)).velocity_y
      ∧ ∃ a' b', simulation_step 3 1 full_over_empty = some a'
          ∧ simulation_step 3 1 stirred_column = some b'
          ∧ ∀ p : Pos, in_bounds 3 1 p.1 p.2 → (a' p).fill_level = (b' p).fill_level :=
  ⟨⟨fun _ _ => ⟨rfl, rfl⟩, by simp [full_beside_nearly_full, stirred, still_cell],
      fill_independent_of_velocity 1 2 full_beside_nearly_full stirred
        (fun _ _ => ⟨rfl, rfl⟩)⟩,
    fun _ _ => ⟨rfl, rfl⟩, by simp [full_over_empty, stirred_column, still_cell],
    fill_independent_of_velocity 3 1 full_over_empty stirred_column (fun _ _ => ⟨rfl, rfl⟩)⟩

/-- C11. Frame of step: `simulation_step` leaves the type, the stored pressure
and the coordinates `x`, `y` of every cell as they were and writes no cell
outside the `ROWS × COLUMNS` array (whose dimensions are constants of the
program, not state), so only `fill_level`, `velocity_x` and `velocity_y` of
cells of the grid can differ after the step; consequently, if every cell's
`x` is its column index and its `y` its row index before the step, this is
so after the step. -/
theorem step_frame (ROWS COLUMNS : Nat) (environment : Environment) :
    ∃ environment', simulation_step ROWS COLUMNS environment = some environment'
      ∧ (∀ p, (environment' p).type = (environment p).type
          ∧ (environment' p).pressure = (environment p).pressure
          ∧ (environment' p).x = (environment p).x
          ∧ (environment' p).y = (environment p).y)
      ∧ (∀ p : Pos, ¬ in_bounds ROWS COLUMNS p.1 p.2 → environment' p = environment p)
      ∧ ((∀ i j : Int, in_bounds ROWS COLUMNS i j →
            (environment (i, j)).x = j ∧ (environment (i, j)).y = i) →
          ∀ i j : Int, in_bounds ROWS COLUMNS i j →
            (environment' (i, j)).x = j ∧ (environment' (i, j)).y = i) := by
  obtain ⟨s', h1, h2, h3⟩ := simulation_run_induction ROWS COLUMNS
    (fun s => (∀ p, (s.cells p).type = (environment p).type
          ∧ (s.cells p).pressure = (environment p).pressure
          ∧ (s.cells p).x = (environment p).x ∧ (s.cells p).y = (environment p).y)
      ∧ ∀ p : Pos, ¬ in_bounds ROWS COLUMNS p.1 p.2 → s.cells p = environment p)
    (fun q s s' hm hs => by
      obtain ⟨dst, a, dvy, dvx, hf⟩ := hm
      refine ⟨fun p => ?_, fun p hp => ?_⟩
      · rw [hf.type_eq p, (hf.frame_eq p).1, (hf.frame_eq p).2.1, (hf.frame_eq p).2.2]
        exact hs.1 p
      · rw [hf.cells_other (fun e => hp (by rw [e]; exact hf.src_in))
          (fun e => hp (by rw [e]; exact hf.dst_in))]
        exact hs.2 p hp)
    (fun q s hq _ hs => by
      refine ⟨fun p => ?_, fun p hp => ?_⟩
      · rw [damp_type, (damp_frame s q p).1, (damp_frame s q p).2.1, (damp_frame s q p).2.2]
        exact hs.1 p
      · rw [damp_cells_other s (fun e => hp (by rw [e]; exact hq))]
        exact hs.2 p hp)
    ⟨environment, []⟩ ⟨fun _ => ⟨rfl, rfl, rfl, rfl⟩, fun _ _ => rfl⟩
  refine ⟨s'.cells, (simulation_step_of_run h1).1, h2, h3, fun hid i j hij => ?_⟩
  rw [(h2 (i, j)).2.2.1, (h2 (i, j)).2.2.2]
  exact hid i j hij

/-- C12. Grid construction: `initialize_environment` returns an array in which,
for every row index `i` and column index `j` of the grid, the cell at
`[i][j]` has type `WATER_TYPE`, `fill_level`, `velocity_x`, `velocity_y` and
`pressure` 0, `x = j` and `y = i`. -/
theorem initialize_environment_cells (ROWS COLUMNS : Nat) (environment : Environment) :
    ∃ environment', initialize_environment ROWS COLUMNS environment = some environment'
      ∧ ∀ i j : Int, in_bounds ROWS COLUMNS i j →
          (environment' (i, j)).type = WATER_TYPE
            ∧ (environment' (i, j)).fill_level = 0
            ∧ (environment' (i, j)).velocity_x = 0
            ∧ (environment' (i, j)).velocity_y = 0
            ∧ (environment' (i, j)).pressure = 0
            ∧ (environment' (i, j)).x = j
            ∧ (environment' (i, j)).y = i := by
  obtain ⟨env', h1, h2⟩ := initialize_environment_eq ROWS COLUMNS environment
  refine ⟨env', h1, fun i j hij => ?_⟩
  rw [h2 (i, j), if_pos hij]
  exact ⟨rfl, rfl, rfl, rfl, rfl, rfl, rfl⟩

/-- C18. An empty grid is quiescent: when every cell of the array has
`fill_level` 0, whatever the types and the stored velocities,
`simulation_step` performs no transfer and returns the array unchanged
(velocities included: a cell that holds no water is not damped); in
particular the step applied to the result of `initialize_environment` returns
that result. -/
theorem empty_grid_quiescent (ROWS COLUMNS : Nat) (environment : Environment)
    (hempty : ∀ p : Pos, in_bounds ROWS COLUMNS p.1 p.2 → (environment p).fill_level = 0) :
    simulation_step ROWS COLUMNS environment = some environment
      ∧ simulation_log ROWS COLUMNS environment = some []
      ∧ ∀ before : Environment, ∃ fresh, initialize_environment ROWS COLUMNS before = some fresh
          ∧ simulation_step ROWS COLUMNS fresh = some fresh := by
  refine ⟨(simulation_step_of_run (empty_run ROWS COLUMNS environment hempty)).1,
    (simulation_step_of_run (empty_run ROWS COLUMNS environment hempty)).2, fun before => ?_⟩
  obtain ⟨fresh, h1, h2⟩ := initialize_environment_eq ROWS COLUMNS before
  refine ⟨fresh, h1, (simulation_step_of_run (empty_run ROWS COLUMNS fresh ?_)).1⟩
  intro p hp
  rw [h2 p, if_pos hp]
  rfl

/-- C18, witness: the 1x1 array whose empty cell has velocity 1. -/
theorem empty_grid_quiescent_witness :
    (∀ p : Pos, in_bounds 1 1 p.1 p.2 → (lone_empty_cell p).fill_level = 0)
      ∧ (lone_empty_cell (0, 0)).velocity_y = 1
      ∧ simulation_step 1 1 lone_empty_cell = some lone_empty_cell
      ∧ simulation_log 1 1 lone_empty_cell = some []
      ∧ ∀ before : Environment, ∃ fresh, initialize_environment 1 1 before = some fresh
          ∧ simulation_step 1 1 fresh = some fresh :=
  ⟨fun _ _ => rfl, rfl, empty_grid_quiescent 1 1 lone_empty_cell (fun _ _ => rfl)⟩

/-- C13. Water falls by at most one row per step: if every cell of the grid in
the rows with index `k` or more has fill 0 before the step, then every cell
in the rows with index `k + 1` or more is exactly as it was after one
`simulation_step` (fill and velocities included). -/
theorem rows_below_unchanged (ROWS COLUMNS : Nat) (environment : Environment) (k : Int)
    (hempty : ∀ i j : Int, in_bounds ROWS COLUMNS i j → k ≤ i →
      (environment (i, j)).fill_level = 0) :
    ∃ environment', simulation_step ROWS COLUMNS environment = some environment'
      ∧ ∀ i j : Int, k + 1 ≤ i → environment' (i, j) = environment (i, j) := by
  obtain ⟨s', h1, h2⟩ := foldlM_rows_below ROWS COLUMNS environment k
    (cell_order ROWS COLUMNS) (fun p hp => (mem_cell_order _ _ p).1 hp)
    (cell_order_rows_descend ROWS COLUMNS) ⟨environment, []⟩
    (fun p hp hk => hempty p.1 p.2 ((mem_cell_order _ _ p).1 hp) hk) (fun _ _ => rfl)
  rw [← simulation_run_eq] at h1
  exact ⟨s'.cells, (simulation_step_of_run h1).1, fun i j hi => h2 (i, j) hi⟩

/-- C13, witness: the column of three cells whose two lower rows are empty;
the bottom row is unchanged. -/
theorem rows_below_unchanged_witness :
    (∀ i j : Int, in_bounds 3 1 i j → 1 ≤ i → (full_over_empty (i, j)).fill_level = 0)
      ∧ ∃ environment', simulation_step 3 1 full_over_empty = some environment'
        ∧ ∀ i j : Int, 1 + 1 ≤ i → environment' (i, j) = full_over_empty (i, j) :=
  have h : ∀ i j : Int, in_bounds 3 1 i j → 1 ≤ i →
      (full_over_empty (i, j)).fill_level = 0 := by
    intro i j _ hi
    unfold full_over_empty
    rw [if_neg (by simp only [Prod.mk.injEq, not_and]; omega)]
    rfl
  ⟨h, rows_below_unchanged 3 1 full_over_empty 1 h⟩

/-- C14. Negative pressure suppresses diffusion: when the fill of the source
cell at the moment the pressure is computed (after its gravity and horizontal
passes) is below 0.5, the pressure stage returns the state as it was, so that
it changes no fill of any cell, whatever the eight neighbours are: each of
its visits to a neighbour is without effect. (The pressure stage is the third
stage of the loop body of every cell that passes the guard of line 111.) -/
theorem low_fill_no_diffusion (ROWS COLUMNS : Nat) (i j : Int) (s : Sim)
    (hlow : (s.cells (i, j)).fill_level < 0.5) :
    pressure_diffusion ROWS COLUMNS i j s = some s
      ∧ (∀ dy dx : Int, pressure_pass ROWS COLUMNS
          (min ((s.cells (i, j)).fill_level - 0.5) MAX_PRESSURE) i j dy dx s = some s)
      ∧ ∀ before : Sim, in_bounds ROWS COLUMNS i j → active (before.cells (i, j)) →
          process_cell ROWS COLUMNS i j before
            = (vertical_pass ROWS COLUMNS i j before).bind fun s1 =>
                ([-1, 1].foldlM (fun s dx => horizontal_pass ROWS COLUMNS i j dx s) s1).bind
                  fun s2 => (pressure_diffusion ROWS COLUMNS i j s2).bind
                    fun s3 => some (s3.damp (i, j)) := by
  have hp : ∀ dy dx : Int, pressure_pass ROWS COLUMNS
      (min ((s.cells (i, j)).fill_level - 0.5) MAX_PRESSURE) i j dy dx s = some s :=
    fun dy dx => pressure_pass_still ROWS COLUMNS
      (fun _ _ _ _ => pressure_flow_of_low_fill hlow _ _)
  refine ⟨?_, hp, fun before hin ha => process_cell_stages ROWS COLUMNS hin ha⟩
  unfold pressure_diffusion
  simp only [List.foldlM_cons, List.foldlM_nil, Option.bind_eq_bind, Option.some_bind, hp,
    Option.pure_def]

/-- C14, witness: the cell of fill 11/24 in the row `threshold_row`. -/
theorem low_fill_no_diffusion_witness :
    ((⟨threshold_row, []⟩ : Sim).cells (0, 0)).fill_level < 0.5
      ∧ pressure_diffusion 1 2 0 0 ⟨threshold_row, []⟩ = some ⟨threshold_row, []⟩ :=
  ⟨by norm_num [threshold_row, still_cell],
    (low_fill_no_diffusion 1 2 0 0 ⟨threshold_row, []⟩
      (by norm_num [threshold_row, still_cell])).1⟩

/-- C16. Sign of horizontal velocity: on a 1-row, 2-column array of water cells
with zero `velocity_x`, one cell of fill 1.0 and the other of fill 0, after one
`simulation_step` the `velocity_x` of the receiving cell is strictly positive
when it is the right-hand cell and strictly negative when it is the left-hand
cell, and the `velocity_x` of the source cell is still 0. -/
theorem horizontal_velocity_sign (environment : Environment)
    (hleft : (environment (0, 0)).type = WATER_TYPE)
    (hright : (environment (0, 1)).type = WATER_TYPE)
    (hx0 : (environment (0, 0)).velocity_x = 0)
    (hx1 : (environment (0, 1)).velocity_x = 0) :
    ((environment (0, 0)).fill_level = 1.0 ∧ (environment (0, 1)).fill_level = 0 →
        ∃ environment', simulation_step 1 2 environment = some environment'
          ∧ (environment' (0, 1)).velocity_x > 0 ∧ (environment' (0, 0)).velocity_x = 0)
      ∧ ((environment (0, 0)).fill_level = 0 ∧ (environment (0, 1)).fill_level = 1.0 →
        ∃ environment', simulation_step 1 2 environment = some environment'
          ∧ (environment' (0, 0)).velocity_x < 0 ∧ (environment' (0, 1)).velocity_x = 0) := by
  constructor
  · rintro ⟨hf0, hf1⟩
    obtain ⟨s', h1, h2⟩ := row_left_full environment hright hleft hf0 hf1 hx0 hx1
    exact ⟨s'.cells, (simulation_step_of_run h1).1, h2⟩
  · rintro ⟨hf0, hf1⟩
    obtain ⟨s', h1, h2⟩ := row_right_full environment hleft hright hf0 hf1 hx0 hx1
    exact ⟨s'.cells, (simulation_step_of_run h1).1, h2⟩

/-- C16, witness: the row whose left cell is full and the row whose right cell
is full, both at rest. -/
theorem horizontal_velocity_sign_witness :
    (∃ environment', simulation_step 1 2 full_over_empty = some environment'
        ∧ (environment' (0, 1)).velocity_x > 0 ∧ (environment' (0, 0)).velocity_x = 0)
      ∧ ∃ environment', simulation_step 1 2 only_column_one_full = some environment'
        ∧ (environment' (0, 0)).velocity_x < 0 ∧ (environment' (0, 1)).velocity_x = 0 :=
  ⟨(horizontal_velocity_sign full_over_empty (by decide) (by decide) rfl rfl).1
      ⟨by simp [-Prod.mk_zero_zero, full_over_empty, still_cell], by simp [-Prod.mk_zero_zero, full_over_empty, still_cell]⟩,
    (horizontal_velocity_sign only_column_one_full (by decide) (by decide) rfl rfl).2
      ⟨by simp [-Prod.mk_zero_zero, only_column_one_full, still_cell], by simp [-Prod.mk_zero_zero, only_column_one_full, still_cell]⟩⟩

/-- C17, counterexample. On the row of three water cells at rest whose outer
cells are empty and whose middle cell holds the binary64 number nearest to
5/24, which is above 5/24 and at most 1.0, the program in binary64 arithmetic
moves nothing: the flow `(m * 0.08) * 0.6` is exactly `MIN_FLOW`, so the test
`flow > MIN_FLOW` of line 140 fails, and after the step the left and the right
cell both still hold 0. -/
theorem left_not_above_right_at_threshold :
    (∀ p, (nearest_to_threshold p).type = WATER_TYPE)
      ∧ (nearest_to_threshold (0, 0)).fill_level = 0
      ∧ (nearest_to_threshold (0, 2)).fill_level = 0
      ∧ (nearest_to_threshold (0, 1)).fill_level = Binary64.to_double (5 / 24)
      ∧ 5 / 24 < (nearest_to_threshold (0, 1)).fill_level
      ∧ (nearest_to_threshold (0, 1)).fill_level ≤ 1.0
      ∧ ∃ environment', Binary64.simulation_step 1 3 nearest_to_threshold = some environment'
          ∧ (environment' (0, 0)).fill_level = 0
          ∧ (environment' (0, 2)).fill_level = 0
          ∧ ¬ (environment' (0, 0)).fill_level > (environment' (0, 2)).fill_level := by
  have hm : (nearest_to_threshold (0, 1)).fill_level = 7505999378950827 / 2 ^ 55 := by
    simp [-Prod.mk_zero_zero, nearest_to_threshold, still_cell]
    norm_num
  have h0 : (nearest_to_threshold (0, 0)).fill_level = 0 := by
    simp [-Prod.mk_zero_zero, nearest_to_threshold, still_cell]
  have h2 : (nearest_to_threshold (0, 2)).fill_level = 0 := by
    simp [-Prod.mk_zero_zero, nearest_to_threshold, still_cell]
  obtain ⟨environment', h3, h4⟩ := Binary64.b64_row_at_threshold nearest_to_threshold h0 h2 hm
  refine ⟨fun p => ?_, h0, h2, ?_, ?_, ?_, environment', h3, ?_, ?_, ?_⟩
  · unfold nearest_to_threshold still_cell
    split_ifs <;> rfl
  · rw [hm, Binary64.to_double_five_over_24]
  · rw [hm]; norm_num
  · rw [hm]; norm_num
  · rw [h4, h0]
  · rw [h4, h2]
  · rw [h4, h4, h0, h2]
    exact lt_irrefl _

/-- C17, amended. Left-before-right bias: on a 1-row, 3-column array of water
cells whose middle cell has fill `m`, a binary64 number above the one nearest
to 5/24 and at most 1.0, and whose left and right cells have fill 0, after one
`simulation_step` in binary64 arithmetic the fill of the left cell is strictly
greater than the fill of the right cell. -/
theorem left_before_right (environment : Environment) (m : ℚ)
    (hleft : (environment (0, 0)).type = WATER_TYPE)
    (hmiddle : (environment (0, 1)).type = WATER_TYPE)
    (hf0 : (environment (0, 0)).fill_level = 0)
    (hf1 : (environment (0, 1)).fill_level = m)
    (hf2 : (environment (0, 2)).fill_level = 0)
    (hdouble : Binary64.to_double m = m)
    (hm0 : Binary64.to_double (5 / 24) < m) (hm1 : m ≤ 1.0) :
    ∃ environment', Binary64.simulation_step 1 3 environment = some environment'
      ∧ (environment' (0, 0)).fill_level > (environment' (0, 2)).fill_level :=
  Binary64.b64_row_of_three environment hleft hmiddle hf0 hf2
    (by rw [hf1]; exact Binary64.b64_next_above_threshold hdouble hm0)
    (by rw [hf1]; norm_num at hm1 ⊢; exact hm1)

/-- C17, witness: the row of three cells at rest whose middle cell is full. -/
theorem left_before_right_witness :
    Binary64.to_double 1.0 = 1.0 ∧ Binary64.to_double (5 / 24) < 1.0
      ∧ ∃ environment', Binary64.simulation_step 1 3 only_column_one_full = some environment'
        ∧ (environment' (0, 0)).fill_level > (environment' (0, 2)).fill_level :=
  have h1 : Binary64.to_double 1.0 = 1.0 := by norm_num [Binary64.to_double_one]
  have h2 : Binary64.to_double (5 / 24) < 1.0 := by
    rw [Binary64.to_double_five_over_24]; norm_num
  ⟨h1, h2, left_before_right only_column_one_full 1.0 (by decide) (by decide)
    (by simp [-Prod.mk_zero_zero, only_column_one_full, still_cell])
    (by simp [-Prod.mk_zero_zero, only_column_one_full, still_cell])
    (by simp [-Prod.mk_zero_zero, only_column_one_full, still_cell]) h1 h2 (by norm_num)⟩

end WaterSim
